import Mathlib

/-!
# comit: the transaction execution engine

A shallow embedding of `state/state.go` and `state/execution.go` (package `state`), and of
`app/merkle.go` and `app/app.go` (package `app`).

Go values are rendered as follows.

* `[]byte` is a list of byte values; a `nil` or empty slice is the empty list.
* A Go runtime panic (`PanicSanity`, `panic`, a method call on a `nil` interface, a failed type
  assertion) aborts the request: a function that can panic returns an `Option`, and `none` is
  the panic.
* `tmsp.Result` keeps its code and its data bytes. The log text is only ever produced by `Fmt`
  for human readers and is left out.
* Pointers are replaced by explicit state passing: an operation that mutates a store returns the
  new store.
* A Go `int`, the type of the sequence numbers, is an integer in the range of 64 bits (`GoInt`);
  its sum wraps around, computed on the integers with an explicit `% 2^64` (`wrapInt64`).

The packages `types`, `forms`, `util`, `go-wire` and `go-crypto` are not part of the sources at
hand. Their data types are modelled from the specification; their functions are taken as the
fields of an environment `Env`, about which the theorems assume only what they state.
-/

namespace Comit

/-- Byte strings (Go `[]byte`): one list element per byte. -/
abbrev Bytes := List Nat

/-! ## Results -/

/-- Result codes of `tmsp.Result` that the execution engine produces. The three codes of the
`forms` package (`ErrDecodingFormID`, `ErrFindForm`, `ErrFormAlreadyResolved`) are
modelled from the spec: it lists them as error conditions of their own. `ErrValueNotFound` is
the constant 311311 of `app/merkle.go`. -/
inductive CodeType where
  | OK
  | InternalError
  | EncodingError
  | Unauthorized
  | UnknownRequest
  | BaseInvalidInput
  | BaseInvalidSequence
  | BaseInvalidSignature
  | BaseUnknownAddress
  | ErrDecodingFormID
  | ErrFindForm
  | ErrFormAlreadyResolved
  | ErrValueNotFound
  deriving DecidableEq, Repr

/-- The `tmsp.Result` value: a code and data bytes. -/
structure Result where
  Code : CodeType
  Data : Bytes
  deriving DecidableEq, Repr

namespace Result

/-- The method `Result.IsOK`: the code is `OK`. -/
def IsOK (res : Result) : Bool := decide (res.Code = CodeType.OK)

/-- The method `Result.IsErr`: the code is not `OK`. -/
def IsErr (res : Result) : Bool := decide (res.Code ≠ CodeType.OK)

end Result

/-- The constructor `tmsp.NewResult(code, data, log)`. -/
def NewResult (code : CodeType) (data : Bytes) : Result := ⟨code, data⟩

/-- The constructor `tmsp.NewResultOK(data, log)`. -/
def NewResultOK (data : Bytes) : Result := ⟨CodeType.OK, data⟩

/-- The value `tmsp.OK`. -/
def OK : Result := ⟨CodeType.OK, []⟩

/-- The value `tmsp.ErrEncodingError`. -/
def ErrEncodingError : Result := ⟨CodeType.EncodingError, []⟩

/-- The value `tmsp.ErrUnauthorized`. -/
def ErrUnauthorized : Result := ⟨CodeType.Unauthorized, []⟩

/-- The value `tmsp.ErrUnknownRequest`. -/
def ErrUnknownRequest : Result := ⟨CodeType.UnknownRequest, []⟩

/-- The value `tmsp.ErrBaseInvalidSequence`. -/
def ErrBaseInvalidSequence : Result := ⟨CodeType.BaseInvalidSequence, []⟩

/-- The value `tmsp.ErrBaseInvalidSignature`. -/
def ErrBaseInvalidSignature : Result := ⟨CodeType.BaseInvalidSignature, []⟩

/-- The value `tmsp.ErrBaseUnknownAddress`. -/
def ErrBaseUnknownAddress : Result := ⟨CodeType.BaseUnknownAddress, []⟩

/-- The constructor `types.NewResult(types.CodeType_InternalError, nil, log)`. -/
def ErrInternalError : Result := ⟨CodeType.InternalError, []⟩

/-! ## Data model of the missing `types` and `forms` packages -/

/-- The two's complement reading of an integer in 64 bits: the value in the range from
-2^63 to 2^63 - 1 that differs from `x` by a multiple of 2^64. The modulus
18446744073709551616 is 2^64 and the offset 9223372036854775808 is 2^63. -/
def wrapInt64 (x : Int) : Int :=
  (x + 9223372036854775808) % 18446744073709551616 - 9223372036854775808

/-- The Go type `int` of the sequence numbers, 64 bits wide: an integer in the range from -2^63
to 2^63 - 1. -/
structure GoInt where
  val : Int
  isInt64 : wrapInt64 val = val
  deriving DecidableEq

namespace GoInt

/-- The Go conversion to `int`: the integer, wrapped around into the 64 bits. -/
def ofInt (x : Int) : GoInt :=
  ⟨wrapInt64 x, by unfold wrapInt64; omega⟩

/-- The Go operator `+` on `int`: the sum wraps around, `MaxInt64 + 1` is `MinInt64`. -/
def add (a b : GoInt) : GoInt := ofInt (a.val + b.val)

instance : Add GoInt := ⟨add⟩

instance (n : Nat) : OfNat GoInt n := ⟨ofInt n⟩

instance : Repr GoInt := ⟨fun x n => reprPrec x.val n⟩

/-- The constant `math.MaxInt64`. -/
def maxValue : GoInt := ofInt 9223372036854775807

/-- The constant `math.MinInt64`. -/
def minValue : GoInt := ofInt (-9223372036854775808)

end GoInt

/-- Modelled from the spec: the tag of a transaction (`tx.Type`), missing with package `types`.
"A tagged variant over CreateAccount, RemoveAccount, CreateAdmin, RemoveAdmin,
Submit, Resolve"; any other tag byte is `Unknown`. -/
inductive TxType where
  | CreateAccountTx
  | RemoveAccountTx
  | CreateAdminTx
  | RemoveAdminTx
  | SubmitTx
  | ResolveTx
  | Unknown (tag : Nat)
  deriving DecidableEq, Repr

/-- Modelled from the spec: `types.TxInput`, missing with package `types`. "An Input (address,
optional public key, signature, sequence number)". A `nil` public key is `none`. The sequence
number is a Go `int`, as `validateInputAdvanced` compares it with `acc.Sequence + 1`. -/
structure TxInput where
  Address : Bytes
  PubKey : Option Bytes
  Signature : Bytes
  Sequence : GoInt
  deriving DecidableEq, Repr

/-- Modelled from the spec: `types.Tx`, missing with package `types`: the tag (the Go field
`Type`, a reserved word here), the input and the variant-specific data bytes. -/
structure Tx where
  Typ : TxType
  Input : TxInput
  Data : Bytes
  deriving DecidableEq, Repr

/-- Modelled from the spec: the role of an account, "role ∈ {Regular, Admin}". -/
inductive Role where
  | Regular
  | Admin
  deriving DecidableEq, Repr

/-- Modelled from the spec: `types.Account`, missing with package `types`. "Public key (optional
until first use), monotonically increasing sequence number (starts at 0), role". The sequence
number is a Go `int`: `ExecTx` increments it with `inAcc.Sequence += 1`, which wraps around. -/
structure Account where
  PubKey : Option Bytes
  Sequence : GoInt
  Role : Role
  deriving DecidableEq, Repr

/-- Modelled from the spec: `types.NewAccount(pubKey, sequence)`, a Regular account. -/
def NewAccount (pubKey : Option Bytes) (sequence : GoInt) : Account := ⟨pubKey, sequence, Role.Regular⟩

/-- Modelled from the spec: `types.NewAdmin(pubKey)`, "a new Admin account under the derived
public key", its sequence number at the start value 0. -/
def NewAdmin (pubKey : Bytes) : Account := ⟨some pubKey, 0, Role.Admin⟩

/-- Modelled from the spec: `Account.IsAdmin`, the role is Admin. -/
def Account.IsAdmin (acc : Account) : Bool := decide (acc.Role = Role.Admin)

/-- Modelled from the spec: the status of a form, "status ∈ {Submitted, Resolved}". -/
inductive Status where
  | Submitted
  | Resolved
  deriving DecidableEq, Repr

/-- Modelled from the spec: `forms.Form`, missing with package `forms`. "Issue category
(string), arbitrary payload fields, status, and if resolved: resolution timestamp (minute
granularity) and resolver's public key (hex)". -/
structure Form where
  Issue : String
  Fields : Bytes
  Status : Status
  ResolvedAt : String
  ResolvedBy : String
  deriving DecidableEq, Repr

/-- Modelled from the spec: `Form.Resolve(timestr, pubKeyString)`, missing with package `forms`.
"Fails FormAlreadyResolved if status is already Resolved; else sets status = Resolved with
resolver = acting account's public key (hex) and timestamp". The error is `none`. -/
def Form.Resolve (form : Form) (timestr pubKeyString : String) : Option Form :=
  if form.Status = Status.Resolved then none
  else some { form with Status := Status.Resolved, ResolvedAt := timestr, ResolvedBy := pubKeyString }

/-- The functions of the packages that are not part of the sources at hand, taken as parameters. -/
structure Env where
  /-- The method `TxInput.ValidateBasic` (package `types`). -/
  ValidateBasic : TxInput → Result
  /-- The method `Tx.SignBytes(chainID)` (package `types`). -/
  SignBytes : Tx → String → Bytes
  /-- The method `PubKey.VerifyBytes(msg, sig)` (package `go-crypto`). -/
  VerifyBytes : Bytes → Bytes → Bytes → Bool
  /-- The method `PubKey.Address` (package `go-crypto`). -/
  Address : Bytes → Bytes
  /-- The function `CreateKeys(secret)` (package `util`): the public and the private key. -/
  CreateKeys : Bytes → Bytes × Bytes
  /-- The methods `Account.PermissionToCreateAdmin` and `Account.PermissionToResolve`. -/
  PermissionToCreateAdmin : Account → Bool
  PermissionToResolve : Account → Bool
  /-- The call `wire.BinaryBytes(acc)` on an account. -/
  AccountBytes : Account → Bytes
  /-- The call `wire.ReadBinaryBytes(data, &acc)` on an account; `none` is its error. -/
  ReadAccount : Bytes → Option Account
  /-- The calls `wire.BinaryBytes(form)` and `wire.WriteBinary(form, ..)` on a form. -/
  FormBytes : Form → Bytes
  /-- The call `wire.ReadBinaryBytes(data, &form)` on a form; `none` is its error. -/
  ReadForm : Bytes → Option Form
  /-- The method `Form.ID` (package `forms`). -/
  FormID : Form → Bytes
  /-- The function `wire.GetByteSlice(buf)`: the slice read and the number of bytes consumed;
  `none` is its error. -/
  GetByteSlice : Bytes → Option (Bytes × Nat)
  /-- The length-prefixed encoding written by `wire.WriteByteSlice` and `wire.PutByteSlice`. -/
  ByteSlice : Bytes → Bytes
  /-- The tag byte of a transaction type (the constants `types.SubmitTx`, `types.ResolveTx`). -/
  Tag : TxType → Nat
  /-- The functions `ToTheMinute` and `BytesToHexString` (package `util`). -/
  ToTheMinute : String → String
  BytesToHexString : Bytes → String

/-! ## Stores -/

/-- Modelled from the spec: the `types.Store` interface and its two implementations, missing with
package `types`. `base` is the Authenticated Store, "a persistent key-value map" with "point
get/set"; the newest entry of a key comes first. `cache` is `types.Cache`, "a copy-on-write
overlay over the Authenticated Store (or over another Cache) that buffers writes", together with
the set-membership filter that `AddToFilter` fills. -/
inductive Store where
  | base (kv : List (Bytes × Bytes))
  | cache (parent : Store) (buf : List (Bytes × Bytes)) (filter : List (Bytes × String))
  deriving DecidableEq, Repr

namespace Store

/-- Modelled from the spec: `Store.Get`. On a cache, "get(key) checks local buffer first, then
delegates to parent". An absent key reads as the empty slice. -/
def Get : Store → Bytes → Bytes
  | base kv, key => (kv.lookup key).getD []
  | cache parent buf _, key =>
    match buf.lookup key with
    | some value => value
    | none => parent.Get key

/-- Modelled from the spec: `Store.Set`. On a cache, "set(key, value) writes only to the local
buffer". -/
def Set : Store → Bytes → Bytes → Store
  | base kv, key, value => base ((key, value) :: kv)
  | cache parent buf filter, key, value => cache parent ((key, value) :: buf) filter

/-- Applies buffered writes to a store, the oldest write (the last of the list) first. -/
def applyWrites (parent : Store) : List (Bytes × Bytes) → Store
  | [] => parent
  | (key, value) :: older => (applyWrites parent older).Set key value

/-- Modelled from the spec: `Cache.Sync`, "applies every buffered write into the parent in a
single pass and then clears the buffer". A store that is not a cache has no `Cache` to sync:
the call panics. -/
def Sync : Store → Option Store
  | base _ => none
  | cache parent buf filter => some (cache (applyWrites parent buf) [] filter)

/-- Modelled from the spec: `Cache.AddToFilter(key, issue)`, which "inserts the form's issue
category into a probabilistic set-membership filter". A store that is not a cache has no
filter: the call panics. -/
def AddToFilter : Store → Bytes → String → Option Store
  | base _, _, _ => none
  | cache parent buf filter, key, issue => some (cache parent buf ((key, issue) :: filter))

/-- The store that a cache was opened over. In Go the parent is shared by reference between the
cache and the state that was wrapped; this reads the parent back after the cache was used. -/
def parent : Store → Store
  | base kv => base kv
  | cache p _ _ => p

end Store

/-! ## `state/state.go` -/

/-- The struct `State`: the chain identifier and the store. The embedded `*types.Cache` is the
store itself when the state was made by `CacheWrap`, and `nil` otherwise. -/
structure State where
  chainID : String
  store : Store
  deriving DecidableEq, Repr

/-- The function `NewState`. -/
def NewState (store : Store) : State := ⟨"", store⟩

/-- The function `AccountKey`: the bytes of `"base/a/"` followed by the address. -/
def AccountKey (addr : Bytes) : Bytes := [98, 97, 115, 101, 47, 97, 47] ++ addr

/-- The function `GetAccount`. The outer `none` is the panic on a record that does not decode,
the inner `none` is the `nil` account of an absent record. -/
def GetAccount (E : Env) (store : Store) (addr : Bytes) : Option (Option Account) :=
  let data := store.Get (AccountKey addr)
  if data.length = 0 then some none
  else
    match E.ReadAccount data with
    | none => none
    | some acc => some (some acc)

/-- The function `SetAccount`. -/
def SetAccount (E : Env) (store : Store) (addr : Bytes) (acc : Account) : Store :=
  store.Set (AccountKey addr) (E.AccountBytes acc)

namespace State

/-- The method `State.SetChainID`. -/
def SetChainID (s : State) (chainID : String) : State := { s with chainID := chainID }

/-- The method `State.GetChainID`: panics when the chain identifier was not set. -/
def GetChainID (s : State) : Option String :=
  if s.chainID = "" then none else some s.chainID

/-- The method `State.Get`. -/
def Get (s : State) (key : Bytes) : Bytes := s.store.Get key

/-- The method `State.Set`. -/
def Set (s : State) (key value : Bytes) : State := { s with store := s.store.Set key value }

/-- The method `State.GetAccount`. -/
def GetAccount (E : Env) (s : State) (addr : Bytes) : Option (Option Account) :=
  Comit.GetAccount E s.store addr

/-- The method `State.SetAccount`. -/
def SetAccount (E : Env) (s : State) (addr : Bytes) (acc : Account) : State :=
  { s with store := Comit.SetAccount E s.store addr acc }

/-- The method `State.CacheWrap`: a state over a new, empty cache whose parent is the store. -/
def CacheWrap (s : State) : State := ⟨s.chainID, Store.cache s.store [] []⟩

/-- The method `State.CacheSync`. -/
def CacheSync (s : State) : Option State :=
  match s.store.Sync with
  | none => none
  | some store => some { s with store := store }

/-- The method `AddToFilter` that `State` takes over from the embedded `*types.Cache`. -/
def AddToFilter (s : State) (key : Bytes) (issue : String) : Option State :=
  match s.store.AddToFilter key issue with
  | none => none
  | some store => some { s with store := store }

end State

/-! ## `state/execution.go` -/

/-- The function `validateInputAdvanced`: the sequence check, then the signature check. The sum
`seq+1` is a sum of Go `int`s and wraps around. The call `acc.PubKey.VerifyBytes` on a `nil`
public key panics. -/
def validateInputAdvanced (E : Env) (acc : Account) (signBytes : Bytes) (inp : TxInput) :
    Option Result :=
  let seq := acc.Sequence
  if seq + 1 ≠ inp.Sequence then some ErrBaseInvalidSequence
  else
    match acc.PubKey with
    | none => none
    | some pubKey =>
      if !E.VerifyBytes pubKey signBytes inp.Signature then some ErrBaseInvalidSignature
      else some OK

/-- The function `RunCreateAccountTx`. -/
def RunCreateAccountTx : Result := OK

/-- The function `RunRemoveAccountTx`: returns the registry key and leaves the state as it is. -/
def RunRemoveAccountTx (state : State) (address : Bytes) : Result × State :=
  let key := AccountKey address
  (NewResultOK key, state)

/-- The function `RunCreateAdminTx`. -/
def RunCreateAdminTx (E : Env) (state : State) (data : Bytes) : Result × State :=
  match E.GetByteSlice data with
  | none => (ErrEncodingError, state)
  | some (secret, _) =>
    let keys := E.CreateKeys secret
    let pubKey := keys.1
    let privKey := keys.2
    let newAcc := NewAdmin pubKey
    let state1 := state.SetAccount E (E.Address pubKey) newAcc
    (NewResultOK (E.ByteSlice pubKey ++ E.ByteSlice privKey), state1)

/-- The function `RunRemoveAdminTx`: returns the registry key and leaves the state as it is. -/
def RunRemoveAdminTx (state : State) (address : Bytes) : Result × State :=
  let key := AccountKey address
  (NewResultOK key, state)

/-- The function `RunSubmitTx`. The outer `none` is the panic of `AddToFilter` on a state without
a cache. -/
def RunSubmitTx (E : Env) (state : State) (data : Bytes) : Option (Result × State) :=
  match E.ReadForm data with
  | none => some (ErrEncodingError, state)
  | some form =>
    let issue := form.Issue
    let formID := E.FormID form
    let key := E.ByteSlice formID
    let state1 := state.Set key data
    match state1.AddToFilter key issue with
    | none => none
    | some state2 =>
      let formBytes := E.FormBytes form
      some (NewResultOK (E.Tag TxType.SubmitTx :: E.ByteSlice formBytes), state2)

/-- The function `RunResolveTx`. The argument `now` is what `TimeString()` reads off the clock. -/
def RunResolveTx (E : Env) (now : String) (state : State) (pubKey : Bytes) (data : Bytes) :
    Result × State :=
  match E.GetByteSlice data with
  | none => (NewResult CodeType.ErrDecodingFormID [], state)
  | some _ =>
    let value := state.Get data
    if value.length = 0 then (NewResult CodeType.ErrFindForm [], state)
    else
      match E.ReadForm value with
      | none => (ErrEncodingError, state)
      | some form =>
        let minuteString := E.ToTheMinute now
        let pubKeyString := E.BytesToHexString pubKey
        match form.Resolve minuteString pubKeyString with
        | none => (NewResult CodeType.ErrFormAlreadyResolved [], state)
        | some form1 =>
          let buf := E.FormBytes form1
          let state1 := state.Set data buf
          (NewResultOK (E.Tag TxType.ResolveTx :: E.ByteSlice buf), state1)

/-- Lines 37 to 39 of `ExecTx`: when the input carries a public key, the account takes it over. -/
def withInputPubKey (inAcc : Account) (inp : TxInput) : Account :=
  match inp.PubKey with
  | some pubKey => { inAcc with PubKey := some pubKey }
  | none => inAcc

/-- Lines 25 to 40 of `ExecTx`: the account that acts. A `CreateAccountTx` makes a new account
from the public key of the input; every other transaction reads the account stored at the input
address, `ErrBaseUnknownAddress` when there is none, and takes over the public key of the input
when the input has one. The outer `none` is the panic of `GetAccount`. -/
def getInAcc (E : Env) (state : State) (tx : Tx) : Option (Except Result Account) :=
  if tx.Typ = TxType.CreateAccountTx then
    some (Except.ok (NewAccount tx.Input.PubKey 0))
  else
    match state.GetAccount E tx.Input.Address with
    | none => none
    | some none => some (Except.error ErrBaseUnknownAddress)
    | some (some inAcc) => some (Except.ok (withInputPubKey inAcc tx.Input))

/-- Lines 64 to 97 of `ExecTx`: the switch on the transaction type, with the permission gates,
run on the cache state. The outer `none` is a panic: the type assertion on a `nil` public key
in the `ResolveTx` case, or the panic of a handler. -/
def runTx (E : Env) (now : String) (cacheState : State) (tx : Tx) (inAcc : Account) :
    Option (Result × State) :=
  match tx.Typ with
  | TxType.CreateAccountTx => some (RunCreateAccountTx, cacheState)
  | TxType.RemoveAccountTx =>
    if inAcc.IsAdmin then some (ErrUnauthorized, cacheState)
    else some (RunRemoveAccountTx cacheState tx.Input.Address)
  | TxType.CreateAdminTx =>
    if !E.PermissionToCreateAdmin inAcc then some (ErrUnauthorized, cacheState)
    else some (RunCreateAdminTx E cacheState tx.Data)
  | TxType.RemoveAdminTx =>
    if !inAcc.IsAdmin then some (ErrUnauthorized, cacheState)
    else some (RunRemoveAdminTx cacheState tx.Input.Address)
  | TxType.SubmitTx => RunSubmitTx E cacheState tx.Data
  | TxType.ResolveTx =>
    if !E.PermissionToResolve inAcc then some (ErrUnauthorized, cacheState)
    else
      match inAcc.PubKey with
      | none => none
      | some pubKey => some (RunResolveTx E now cacheState pubKey tx.Data)
  | TxType.Unknown _ => some (ErrUnknownRequest, cacheState)

/-- The function `ExecTx`. The argument `now` is the clock reading that `RunResolveTx` uses.
The result is `none` when the call panics, and otherwise the `tmsp.Result` together with the
state as the call leaves it. The increment `inAcc.Sequence += 1` is that of a Go `int` and wraps
around. The state that was passed in shares its store with the cache
opened over it, so what the call leaves behind is the parent of the cache. -/
def ExecTx (E : Env) (now : String) (state : State) (tx : Tx) (isCheckTx : Bool) :
    Option (Result × State) :=
  match state.GetChainID with
  | none => none
  | some chainID =>
    if (E.ValidateBasic tx.Input).IsErr then some (E.ValidateBasic tx.Input, state)
    else
      match getInAcc E state tx with
      | none => none
      | some (Except.error res) => some (res, state)
      | some (Except.ok inAcc0) =>
        let signBytes := E.SignBytes tx chainID
        match validateInputAdvanced E inAcc0 signBytes tx.Input with
        | none => none
        | some res =>
          if res.IsErr then some (res, state)
          else
            let inAcc : Account := { inAcc0 with Sequence := inAcc0.Sequence + 1 }
            if isCheckTx then some (OK, state.SetAccount E tx.Input.Address inAcc)
            else
              let inAccCopy := inAcc
              let cacheState := state.CacheWrap
              let cacheState1 := cacheState.SetAccount E tx.Input.Address inAcc
              match runTx E now cacheState1 tx inAcc with
              | none => none
              | some (res, cacheState2) =>
                if res.IsOK then
                  match cacheState2.CacheSync with
                  | none => none
                  | some cacheState3 => some (res, { state with store := cacheState3.store.parent })
                else
                  let cacheState3 := cacheState2.SetAccount E tx.Input.Address inAccCopy
                  some (res, { state with store := cacheState3.store.parent })

/-! ## The effect of `ExecTx`, written without the cache -/

/-- Keeps the outcome of a handler when its result is OK, and goes back to the given state
when it is not. -/
def keepIfOK (state : State) (r : Result × State) : Result × State :=
  if r.1.IsOK then r else (r.1, state)

/-- The outcome of `ExecTx` in append mode once validation has passed, with the writes made on
the store itself: `inAcc` is the acting account with its sequence number already incremented.
The theorem `ExecTx_append_eq` shows that `ExecTx` computes this. -/
def appendOutcome (E : Env) (now : String) (state : State) (tx : Tx) (inAcc : Account) :
    Option (Result × State) :=
  let s1 := state.SetAccount E tx.Input.Address inAcc
  match tx.Typ with
  | TxType.CreateAccountTx => some (OK, s1)
  | TxType.RemoveAccountTx =>
    if inAcc.IsAdmin then some (ErrUnauthorized, state)
    else some (NewResultOK (AccountKey tx.Input.Address), s1)
  | TxType.CreateAdminTx =>
    if !E.PermissionToCreateAdmin inAcc then some (ErrUnauthorized, state)
    else some (keepIfOK state (RunCreateAdminTx E s1 tx.Data))
  | TxType.RemoveAdminTx =>
    if !inAcc.IsAdmin then some (ErrUnauthorized, state)
    else some (NewResultOK (AccountKey tx.Input.Address), s1)
  | TxType.SubmitTx =>
    match E.ReadForm tx.Data with
    | none => some (ErrEncodingError, state)
    | some form =>
      some (NewResultOK (E.Tag TxType.SubmitTx :: E.ByteSlice (E.FormBytes form)),
        s1.Set (E.ByteSlice (E.FormID form)) tx.Data)
  | TxType.ResolveTx =>
    if !E.PermissionToResolve inAcc then some (ErrUnauthorized, state)
    else
      match inAcc.PubKey with
      | none => none
      | some pubKey => some (keepIfOK state (RunResolveTx E now s1 pubKey tx.Data))
  | TxType.Unknown _ => some (ErrUnknownRequest, state)

/-! ## `app/merkle.go` -/

/-- Modelled from the spec: `merkle.IAVLTree` of the library go-merkle, the Authenticated Store,
"a persistent key-value map" with "point get/set" and a digest. A key has at most one entry
after `Set`; the digest is a parameter of `Commit`. -/
structure IAVLTree where
  kv : List (Bytes × Bytes)
  deriving DecidableEq, Repr

namespace IAVLTree

/-- Modelled from the spec: the constructor `merkle.NewIAVLTree(0, nil)`, an empty tree. -/
def NewIAVLTree : IAVLTree := ⟨[]⟩

/-- Modelled from the spec: the method `Size`, the number of entries. -/
def Size (tree : IAVLTree) : Nat := tree.kv.length

/-- Modelled from the spec: the method `Get`, `get(key) -> bytes|absent`. Of the three results
in Go (index, value, exists) the value is kept: `none` says that the key does not exist. -/
def Get (tree : IAVLTree) (key : Bytes) : Option Bytes := tree.kv.lookup key

/-- Modelled from the spec: the method `Set`, `set(key, value)`; an entry of the same key is
replaced. -/
def Set (tree : IAVLTree) (key value : Bytes) : IAVLTree :=
  ⟨(key, value) :: tree.kv.filter (fun entry => decide (entry.1 ≠ key))⟩

end IAVLTree

/-- The struct `MerkleApp`. -/
structure MerkleApp where
  tree : IAVLTree
  deriving DecidableEq, Repr

/-- The function `NewMerkleApp`. -/
def NewMerkleApp : MerkleApp := ⟨IAVLTree.NewIAVLTree⟩

/-- The slice expression `bz[n:]`, which panics when `n` exceeds the length. -/
def sliceFrom (bz : Bytes) (n : Nat) : Option Bytes :=
  if n ≤ bz.length then some (bz.drop n) else none

namespace MerkleApp

/-- The method `MerkleApp.AppendTx`. The outer `none` is the panic of a slice expression. -/
def AppendTx (E : Env) (merk : MerkleApp) (txBytes : Bytes) : Option (Result × MerkleApp) :=
  if txBytes.length = 0 then some (ErrEncodingError, merk)
  else
    match E.GetByteSlice txBytes with
    | none => some (ErrEncodingError, merk)
    | some (key, n) =>
      match sliceFrom txBytes n with
      | none => none
      | some txBytes1 =>
        match E.GetByteSlice txBytes1 with
        | none => some (ErrEncodingError, merk)
        | some (value, n1) =>
          match sliceFrom txBytes1 n1 with
          | none => none
          | some txBytes2 =>
            if txBytes2.length ≠ 0 then some (ErrEncodingError, merk)
            else some (OK, ⟨merk.tree.Set key value⟩)

/-- The method `MerkleApp.CheckTx`, which never touches the tree: the application comes back as
it was passed in. The outer `none` is the panic of a slice expression. -/
def CheckTx (E : Env) (merk : MerkleApp) (txBytes : Bytes) : Option (Result × MerkleApp) :=
  if txBytes.length = 0 then some (ErrEncodingError, merk)
  else
    match E.GetByteSlice txBytes with
    | none => some (ErrEncodingError, merk)
    | some (_, n) =>
      match sliceFrom txBytes n with
      | none => none
      | some txBytes1 =>
        match E.GetByteSlice txBytes1 with
        | none => some (ErrEncodingError, merk)
        | some (_, n1) =>
          match sliceFrom txBytes1 n1 with
          | none => none
          | some txBytes2 =>
            if txBytes2.length ≠ 0 then some (ErrEncodingError, merk)
            else some (OK, merk)

/-- The method `MerkleApp.Commit`; `hash` is the method `Hash` of the tree. -/
def Commit (hash : IAVLTree → Bytes) (merk : MerkleApp) : Result :=
  if merk.tree.Size = 0 then NewResultOK []
  else NewResultOK (hash merk.tree)

/-- The method `MerkleApp.Query`. The outer `none` is the panic of the slice expression. -/
def Query (E : Env) (merk : MerkleApp) (query : Bytes) : Option Result :=
  if query.length = 0 then some ErrEncodingError
  else
    match E.GetByteSlice query with
    | none => some ErrEncodingError
    | some (key, n) =>
      match sliceFrom query n with
      | none => none
      | some query1 =>
        if query1.length ≠ 0 then some ErrEncodingError
        else
          let value := (merk.tree.Get key).getD []
          if value.length = 0 then some (NewResult CodeType.ErrValueNotFound [])
          else some (NewResultOK value)

end MerkleApp

/-! ## `app/app.go` -/

/-- The functions `MakeForm` and `FormID` of package `app`, which are not part of the sources at
hand, over a type `F` of forms. `MakeForm` returns the form together with whether its error is
non-nil; `FormID` returns the identifier, as the bytes of the string. -/
structure AppEnv (F : Type) where
  MakeForm : Bytes → F × Bool
  FormID : F → Bytes

/-- The struct `Application`. Its field `cache` is the auxiliary read index; it is written by a
goroutine of its own and read by none of the methods below, and is left out. -/
structure Application where
  state : IAVLTree
  deriving DecidableEq, Repr

namespace Application

/-- The method `Application.AppendTx`: the error of `MakeForm` is discarded, the bytes are
written under the identifier of the form, and the result is OK. -/
def AppendTx {F : Type} (A : AppEnv F) (app : Application) (tx : Bytes) : Result × Application :=
  let form := (A.MakeForm tx).1
  let id := A.FormID form
  (NewResultOK [], ⟨app.state.Set id tx⟩)

/-- The method `Application.CheckTx`. -/
def CheckTx {F : Type} (A : AppEnv F) (tx : Bytes) : Result :=
  if (A.MakeForm tx).2 then ErrInternalError
  else NewResultOK []

end Application

/-! ## A small instance of the environment, for evaluating the definitions -/

/-- A toy account encoding: a leading 1, the role, the sign and the size of the sequence number,
then the public key behind a presence flag. -/
def demoAccountBytes (acc : Account) : Bytes :=
  [1, (if acc.Role = Role.Admin then 1 else 0), (if acc.Sequence.val < 0 then 1 else 0),
    acc.Sequence.val.natAbs] ++
    (match acc.PubKey with
     | none => [0]
     | some pubKey => 1 :: pubKey)

/-- The decoder of the toy account encoding. -/
def demoReadAccount : Bytes → Option Account
  | 1 :: r :: sg :: n :: 0 :: [] =>
    some ⟨none, GoInt.ofInt (if sg = 1 then -(n : Int) else (n : Int)),
      (if r = 1 then Role.Admin else Role.Regular)⟩
  | 1 :: r :: sg :: n :: 1 :: pubKey =>
    some ⟨some pubKey, GoInt.ofInt (if sg = 1 then -(n : Int) else (n : Int)),
      (if r = 1 then Role.Admin else Role.Regular)⟩
  | _ => none

/-- A toy form encoding: a leading 2, the status, the resolution time as a length and that many
character codes, then the payload fields. -/
def demoFormBytes (form : Form) : Bytes :=
  2 :: (if form.Status = Status.Resolved then 1 else 0) :: form.ResolvedAt.length ::
    (form.ResolvedAt.toList.map Char.toNat ++ form.Fields)

/-- The decoder of the toy form encoding. -/
def demoReadForm : Bytes → Option Form
  | 2 :: st :: n :: rest =>
    some ⟨"issue", rest.drop n, (if st = 1 then Status.Resolved else Status.Submitted),
      String.mk ((rest.take n).map Char.ofNat), ""⟩
  | _ => none

/-- A toy length-prefixed field: a leading 0, the length, then that many bytes. -/
def demoByteSlice (bz : Bytes) : Bytes := 0 :: bz.length :: bz

/-- The reader of the toy length-prefixed field. -/
def demoGetByteSlice : Bytes → Option (Bytes × Nat)
  | 0 :: n :: rest => if n ≤ rest.length then some (rest.take n, n + 2) else none
  | _ => none

/-- A small environment. Input validation asks for a signature and an address of 20 bytes; a
signature is valid when it is the public key followed by the sign bytes; the address of a key
is the key filled up with zeros to 20 bytes; administrators hold both permissions. -/
def demoEnv : Env where
  ValidateBasic := fun inp =>
    if inp.Signature.length = 0 ∨ inp.Address.length ≠ 20 then ⟨CodeType.BaseInvalidInput, []⟩
    else OK
  SignBytes := fun tx chainID => chainID.length :: tx.Input.Sequence.val.natAbs :: tx.Data
  VerifyBytes := fun pubKey msg sig => decide (sig = pubKey ++ msg)
  Address := fun pubKey => (pubKey ++ List.replicate 20 0).take 20
  CreateKeys := fun secret => (secret, 0 :: secret)
  PermissionToCreateAdmin := fun acc => acc.IsAdmin
  PermissionToResolve := fun acc => acc.IsAdmin
  AccountBytes := demoAccountBytes
  ReadAccount := demoReadAccount
  FormBytes := demoFormBytes
  ReadForm := demoReadForm
  FormID := fun form => form.Fields
  GetByteSlice := demoGetByteSlice
  ByteSlice := demoByteSlice
  Tag := fun
    | TxType.CreateAccountTx => 1
    | TxType.RemoveAccountTx => 2
    | TxType.CreateAdminTx => 3
    | TxType.RemoveAdminTx => 4
    | TxType.SubmitTx => 5
    | TxType.ResolveTx => 6
    | TxType.Unknown tag => tag
  ToTheMinute := fun s => s
  BytesToHexString := fun _ => "key"

/-- The public key of the account in the examples. -/
def demoKey : Bytes := [7]

/-- The address of the account in the examples. -/
def demoAddress : Bytes := demoEnv.Address demoKey

/-- An example transaction from `demoAddress` with a valid signature for chain `"chain"`. -/
def demoTx (typ : TxType) (sequence : GoInt) (data : Bytes) (pubKey : Option Bytes) : Tx :=
  ⟨typ, ⟨demoAddress, pubKey, demoKey ++ (5 :: sequence.val.natAbs :: data), sequence⟩, data⟩

/-- An example state on chain `"chain"`: one account, under `demoKey`, with the given sequence
number and role. -/
def demoState (sequence : GoInt) (role : Role) : State :=
  ⟨"chain", Store.base [(AccountKey demoAddress, demoAccountBytes ⟨some demoKey, sequence, role⟩)]⟩

/-- An example state like `demoState` that also holds a form value under the key of the form
with payload fields `[4, 4]`. -/
def demoStateWithForm (sequence : GoInt) (role : Role) (value : Bytes) : State :=
  ⟨"chain", Store.base [(demoByteSlice [4, 4], value),
    (AccountKey demoAddress, demoAccountBytes ⟨some demoKey, sequence, role⟩)]⟩

/-- A toy digest of a tree: the number of entries and the lengths of all keys and values. -/
def demoHash (tree : IAVLTree) : Bytes :=
  tree.kv.length :: tree.kv.map (fun entry => entry.1.length + entry.2.length)

/-- A toy instance of the functions of package `app`: a form is the list of its bytes, and
`MakeForm` rejects the empty byte string; the identifier is the first byte. -/
def demoAppEnv : AppEnv Bytes where
  MakeForm := fun tx => (tx, decide (tx = []))
  FormID := fun form => form.take 1

/-- An example transaction from the given address that carries the public key `key` in its
input and a signature that is valid under `key` for chain `"chain"`. -/
def demoTxWithKey (key : Bytes) (typ : TxType) (address : Bytes) (sequence : GoInt)
    (data : Bytes) : Tx :=
  ⟨typ, ⟨address, some key, key ++ (5 :: sequence.val.natAbs :: data), sequence⟩, data⟩

/-! ## Go integers -/

theorem GoInt.ext_val (a b : GoInt) (h : a.val = b.val) : a = b := by
  cases a
  cases b
  simp only at h
  subst h
  rfl

theorem GoInt.ofInt_val (x : GoInt) : GoInt.ofInt x.val = x :=
  GoInt.ext_val _ _ x.isInt64

theorem GoInt.val_add (a b : GoInt) : (a + b).val = wrapInt64 (a.val + b.val) := rfl

theorem GoInt.val_one : (1 : GoInt).val = 1 := rfl

/-- The Go sum `x + 1` is never `x`. -/
theorem GoInt.add_one_ne (x : GoInt) : x + 1 ≠ x := by
  intro h
  have h2 := congrArg GoInt.val h
  have h3 := x.isInt64
  rw [GoInt.val_add, GoInt.val_one] at h2
  unfold wrapInt64 at h2 h3
  omega

/-- Below `MaxInt64` the Go sum `x + 1` is the integer successor. -/
theorem GoInt.val_add_one (x : GoInt) (h : x ≠ GoInt.maxValue) : (x + 1).val = x.val + 1 := by
  have h3 := x.isInt64
  have h4 : x.val ≠ 9223372036854775807 := by
    intro h5
    exact h (GoInt.ext_val _ _ (by rw [h5]; rfl))
  rw [GoInt.val_add, GoInt.val_one]
  unfold wrapInt64 at h3 ⊢
  omega

/-- The Go sum `MaxInt64 + 1` is `MinInt64`. -/
theorem GoInt.maxValue_add_one : GoInt.maxValue + 1 = GoInt.minValue := by decide

/-! ## Stores: reading after writing -/

theorem Store.Get_Set (s : Store) (k v k2 : Bytes) :
    (s.Set k v).Get k2 = if k2 = k then v else s.Get k2 := by
  cases s with
  | base kv =>
    by_cases h : k2 = k
    · subst h; simp [Store.Set, Store.Get, List.lookup]
    · have h2 : (k2 == k) = false := by simpa using h
      simp [Store.Set, Store.Get, List.lookup, h2, h]
  | cache p b f =>
    by_cases h : k2 = k
    · subst h; simp [Store.Set, Store.Get, List.lookup]
    · have h2 : (k2 == k) = false := by simpa using h
      simp [Store.Set, Store.Get, List.lookup, h2, h]

theorem Store.Get_cache_one (p : Store) (k v k2 : Bytes) (f : List (Bytes × String)) :
    (Store.cache p [(k, v)] f).Get k2 = (p.Set k v).Get k2 := by
  rw [Store.Get_Set]
  by_cases h : k2 = k
  · subst h; simp [Store.Get, List.lookup]
  · have h2 : (k2 == k) = false := by simpa using h
    simp [Store.Get, List.lookup, h2, h]

theorem Store.Set_cache (p : Store) (b : List (Bytes × Bytes)) (f : List (Bytes × String))
    (k v : Bytes) : (Store.cache p b f).Set k v = Store.cache p ((k, v) :: b) f := rfl

theorem Store.Sync_cache (p : Store) (b : List (Bytes × Bytes)) (f : List (Bytes × String)) :
    (Store.cache p b f).Sync = some (Store.cache (Store.applyWrites p b) [] f) := rfl

theorem Store.parent_cache (p : Store) (b : List (Bytes × Bytes)) (f : List (Bytes × String)) :
    (Store.cache p b f).parent = p := rfl

theorem Store.AddToFilter_cache (p : Store) (b : List (Bytes × Bytes))
    (f : List (Bytes × String)) (k : Bytes) (i : String) :
    (Store.cache p b f).AddToFilter k i = some (Store.cache p b ((k, i) :: f)) := rfl

theorem Store.applyWrites_one (p : Store) (k v : Bytes) :
    Store.applyWrites p [(k, v)] = p.Set k v := rfl

theorem Store.applyWrites_two (p : Store) (k v k2 v2 : Bytes) :
    Store.applyWrites p [(k2, v2), (k, v)] = (p.Set k v).Set k2 v2 := rfl

/-- Syncing a cache leaves in the parent what the cache showed. -/
theorem Store.Get_applyWrites (p : Store) (b : List (Bytes × Bytes)) (f : List (Bytes × String))
    (k : Bytes) : (Store.applyWrites p b).Get k = (Store.cache p b f).Get k := by
  induction b with
  | nil => simp [Store.applyWrites, Store.Get, List.lookup]
  | cons kv older ih =>
    obtain ⟨k1, v1⟩ := kv
    simp only [Store.applyWrites, Store.Get_Set, ih]
    by_cases h : k = k1
    · subst h; simp [Store.Get, List.lookup]
    · have h2 : (k == k1) = false := by simpa using h
      simp [Store.Get, List.lookup, h2, h]

/-! ## The registry -/

theorem AccountKey_injective (a b : Bytes) (h : AccountKey a = AccountKey b) : a = b := by
  unfold AccountKey at h
  exact List.append_cancel_left h

/-- Reading an account back from the key it was just written under. -/
theorem GetAccount_Set_same (E : Env) (store : Store) (addr : Bytes) (acc : Account)
    (hdec : E.ReadAccount (E.AccountBytes acc) = some acc) (hne : E.AccountBytes acc ≠ []) :
    GetAccount E (store.Set (AccountKey addr) (E.AccountBytes acc)) addr = some (some acc) := by
  unfold GetAccount
  simp [Store.Get_Set, hdec, hne]

/-- A write under another key does not show in the account read. -/
theorem GetAccount_Set_other (E : Env) (store : Store) (addr : Bytes) (k v : Bytes)
    (hk : AccountKey addr ≠ k) :
    GetAccount E (store.Set k v) addr = GetAccount E store addr := by
  unfold GetAccount
  simp [Store.Get_Set, hk]

/-! ## `ExecTx`: the steps before the handlers -/

theorem getInAcc_stored (E : Env) (state : State) (tx : Tx) (A : Account)
    (htyp : tx.Typ ≠ TxType.CreateAccountTx)
    (hget : state.GetAccount E tx.Input.Address = some (some A)) :
    getInAcc E state tx = some (Except.ok (withInputPubKey A tx.Input)) := by
  simp [getInAcc, htyp, hget]

theorem withInputPubKey_Sequence (A : Account) (inp : TxInput) :
    (withInputPubKey A inp).Sequence = A.Sequence := by
  unfold withInputPubKey
  cases inp.PubKey <;> rfl

theorem withInputPubKey_Role (A : Account) (inp : TxInput) :
    (withInputPubKey A inp).Role = A.Role := by
  unfold withInputPubKey
  cases inp.PubKey <;> rfl

theorem validateInputAdvanced_ok (E : Env) (acc : Account) (signBytes : Bytes) (inp : TxInput)
    (pubKey : Bytes) (hseq : inp.Sequence = acc.Sequence + 1) (hkey : acc.PubKey = some pubKey)
    (hsig : E.VerifyBytes pubKey signBytes inp.Signature = true) :
    validateInputAdvanced E acc signBytes inp = some OK := by
  simp [validateInputAdvanced, hseq, hkey, hsig]

/-- When validation passes, the sequence number fits and the account has a key. -/
theorem validateInputAdvanced_ok_inv (E : Env) (acc : Account) (signBytes : Bytes)
    (inp : TxInput) (res : Result)
    (h : validateInputAdvanced E acc signBytes inp = some res) (hres : res.IsErr = false) :
    res = OK ∧ acc.Sequence + 1 = inp.Sequence ∧
      ∃ pubKey, acc.PubKey = some pubKey ∧ E.VerifyBytes pubKey signBytes inp.Signature = true := by
  unfold validateInputAdvanced at h
  by_cases hs : acc.Sequence + 1 = inp.Sequence
  · simp only [hs, ne_eq, not_true_eq_false, if_false] at h
    cases hk : acc.PubKey with
    | none => simp [hk] at h
    | some pk =>
      simp only [hk] at h
      by_cases hv : E.VerifyBytes pk signBytes inp.Signature = true
      · simp [hv] at h
        exact ⟨h.symm, hs, pk, rfl, hv⟩
      · simp [hv] at h
        rw [← h] at hres
        simp [Result.IsErr, ErrBaseInvalidSignature] at hres
  · simp [hs] at h
    rw [← h] at hres
    simp [Result.IsErr, ErrBaseInvalidSequence] at hres

/-- In check mode, once validation has passed, `ExecTx` writes the acting account with its
sequence number incremented and returns OK. -/
theorem ExecTx_check_eq (E : Env) (now : String) (state : State) (tx : Tx) (cid : String)
    (inAcc0 : Account)
    (hcid : state.GetChainID = some cid)
    (hvb : (E.ValidateBasic tx.Input).IsErr = false)
    (hacc : getInAcc E state tx = some (Except.ok inAcc0))
    (hval : validateInputAdvanced E inAcc0 (E.SignBytes tx cid) tx.Input = some OK) :
    ExecTx E now state tx true =
      some (OK, state.SetAccount E tx.Input.Address
        { inAcc0 with Sequence := inAcc0.Sequence + 1 }) := by
  have hok : OK.IsErr = false := by decide
  unfold ExecTx
  simp [hcid, hvb, hacc, hval, hok]

/-- In append mode, once validation has passed, `ExecTx` computes `appendOutcome`: running the
handler on a cache and syncing it on success is the same as writing to the store itself. -/
theorem ExecTx_append_eq (E : Env) (now : String) (state : State) (tx : Tx) (cid : String)
    (inAcc0 : Account)
    (hcid : state.GetChainID = some cid)
    (hvb : (E.ValidateBasic tx.Input).IsErr = false)
    (hacc : getInAcc E state tx = some (Except.ok inAcc0))
    (hval : validateInputAdvanced E inAcc0 (E.SignBytes tx cid) tx.Input = some OK) :
    ExecTx E now state tx false =
      appendOutcome E now state tx { inAcc0 with Sequence := inAcc0.Sequence + 1 } := by
  have hok : OK.IsErr = false := by decide
  unfold ExecTx
  simp only [hcid, hvb, hacc, hval, hok, Bool.false_eq_true, if_false]
  generalize ({ inAcc0 with Sequence := inAcc0.Sequence + 1 } : Account) = inAcc
  unfold runTx appendOutcome
  cases htyp : tx.Typ with
  | CreateAccountTx =>
    simp [RunCreateAccountTx, OK, Result.IsOK, State.CacheSync, State.SetAccount, SetAccount,
      State.CacheWrap, Store.Set_cache, Store.Sync_cache, Store.applyWrites_one,
      Store.parent_cache]
  | RemoveAccountTx =>
    by_cases hadm : inAcc.IsAdmin = true
    · simp [hadm, ErrUnauthorized, Result.IsOK, State.SetAccount, SetAccount,
        State.CacheWrap, Store.Set_cache, Store.parent_cache]
    · simp [hadm, RunRemoveAccountTx, NewResultOK, Result.IsOK, State.CacheSync,
        State.SetAccount, SetAccount,
        State.CacheWrap, Store.Set_cache, Store.Sync_cache, Store.applyWrites_one,
        Store.parent_cache]
  | CreateAdminTx =>
    by_cases hp : E.PermissionToCreateAdmin inAcc = true
    · simp only [hp, Bool.not_true, Bool.false_eq_true, if_false]
      unfold RunCreateAdminTx keepIfOK
      cases hg : E.GetByteSlice tx.Data with
      | none =>
        simp [ErrEncodingError, Result.IsOK, State.SetAccount, SetAccount,
          State.CacheWrap, Store.Set_cache, Store.parent_cache]
      | some sn =>
        simp [NewResultOK, Result.IsOK, State.CacheSync, State.SetAccount, SetAccount,
          State.CacheWrap, Store.Set_cache, Store.Sync_cache, Store.applyWrites_two,
          Store.parent_cache]
    · simp [hp, ErrUnauthorized, Result.IsOK, State.SetAccount, SetAccount,
        State.CacheWrap, Store.Set_cache, Store.parent_cache]
  | RemoveAdminTx =>
    by_cases hadm : inAcc.IsAdmin = true
    · simp [hadm, RunRemoveAdminTx, NewResultOK, Result.IsOK, State.CacheSync,
        State.SetAccount, SetAccount,
        State.CacheWrap, Store.Set_cache, Store.Sync_cache, Store.applyWrites_one,
        Store.parent_cache]
    · simp [hadm, ErrUnauthorized, Result.IsOK, State.SetAccount, SetAccount,
        State.CacheWrap, Store.Set_cache, Store.parent_cache]
  | SubmitTx =>
    unfold RunSubmitTx
    cases hf : E.ReadForm tx.Data with
    | none =>
      simp [ErrEncodingError, Result.IsOK, State.SetAccount, SetAccount,
        State.CacheWrap, Store.Set_cache, Store.parent_cache]
    | some form =>
      simp [NewResultOK, Result.IsOK, State.CacheSync, State.SetAccount, SetAccount,
        State.Set, State.AddToFilter, Store.AddToFilter_cache,
        State.CacheWrap, Store.Set_cache, Store.Sync_cache, Store.applyWrites_two,
        Store.parent_cache]
  | ResolveTx =>
    by_cases hp : E.PermissionToResolve inAcc = true
    · simp only [hp, Bool.not_true, Bool.false_eq_true, if_false]
      cases hk : inAcc.PubKey with
      | none => simp
      | some pk =>
        simp only []
        unfold RunResolveTx keepIfOK
        cases hg : E.GetByteSlice tx.Data with
        | none =>
          simp [NewResult, Result.IsOK, State.SetAccount, SetAccount,
            State.CacheWrap, Store.Set_cache, Store.parent_cache]
        | some sn =>
          simp only [State.Get, State.SetAccount, SetAccount, State.CacheWrap, Store.Set_cache,
            Store.Get_cache_one]
          by_cases hlen : (Store.Get (state.store.Set (AccountKey tx.Input.Address)
              (E.AccountBytes inAcc)) tx.Data).length = 0
          · simp [hlen, NewResult, Result.IsOK, Store.Set_cache, Store.parent_cache]
          · simp only [hlen, if_false]
            cases hf : E.ReadForm (Store.Get (state.store.Set (AccountKey tx.Input.Address)
              (E.AccountBytes inAcc)) tx.Data) with
            | none => simp [ErrEncodingError, Result.IsOK, Store.Set_cache, Store.parent_cache]
            | some form =>
              simp only []
              cases hr : form.Resolve (E.ToTheMinute now) (E.BytesToHexString pk) with
              | none => simp [NewResult, Result.IsOK, Store.Set_cache, Store.parent_cache]
              | some form1 =>
                simp [NewResultOK, Result.IsOK, State.CacheSync, State.Set, Store.Set_cache,
                  Store.Sync_cache, Store.applyWrites_two, Store.parent_cache]
    · simp [hp, ErrUnauthorized, Result.IsOK, State.SetAccount, SetAccount,
        State.CacheWrap, Store.Set_cache, Store.parent_cache]
  | Unknown t =>
    simp [ErrUnknownRequest, Result.IsOK, State.SetAccount, SetAccount,
        State.CacheWrap, Store.Set_cache, Store.parent_cache]

/-- Whatever `ExecTx` returns, either nothing was written and the result is an error, or
validation has passed. -/
theorem ExecTx_inv (E : Env) (now : String) (state : State) (tx : Tx) (isCheckTx : Bool)
    (res : Result) (s2 : State) (h : ExecTx E now state tx isCheckTx = some (res, s2)) :
    (res.IsErr = true ∧ s2 = state) ∨
    ∃ cid inAcc0, state.GetChainID = some cid ∧ (E.ValidateBasic tx.Input).IsErr = false ∧
      getInAcc E state tx = some (Except.ok inAcc0) ∧
      validateInputAdvanced E inAcc0 (E.SignBytes tx cid) tx.Input = some OK := by
  cases hcid : state.GetChainID with
  | none => simp [ExecTx, hcid] at h
  | some cid =>
    cases hvb : (E.ValidateBasic tx.Input).IsErr with
    | true =>
      left
      simp [ExecTx, hcid, hvb] at h
      exact ⟨by rw [← h.1]; exact hvb, h.2.symm⟩
    | false =>
      cases hacc : getInAcc E state tx with
      | none => simp [ExecTx, hcid, hvb, hacc] at h
      | some r =>
        cases r with
        | error e =>
          left
          simp only [ExecTx, hcid, hvb, hacc, Bool.false_eq_true, if_false, Option.some.injEq,
            Prod.mk.injEq] at h
          refine ⟨?_, h.2.symm⟩
          rw [← h.1]
          unfold getInAcc at hacc
          split at hacc
          · simp at hacc
          · split at hacc
            · simp at hacc
            · simp at hacc
              rw [← hacc]; decide
            · simp at hacc
        | ok inAcc0 =>
          cases hval : validateInputAdvanced E inAcc0 (E.SignBytes tx cid) tx.Input with
          | none => simp [ExecTx, hcid, hvb, hacc, hval] at h
          | some r =>
            cases hr : r.IsErr with
            | true =>
              left
              simp [ExecTx, hcid, hvb, hacc, hval, hr] at h
              exact ⟨by rw [← h.1]; exact hr, h.2.symm⟩
            | false =>
              right
              have := (validateInputAdvanced_ok_inv E _ _ _ _ hval hr).1
              subst this
              exact ⟨cid, inAcc0, rfl, rfl, rfl, hval⟩

/-! ## `ExecTx`: what the handlers leave behind -/

theorem Result.IsErr_eq_not_IsOK (res : Result) : res.IsErr = !res.IsOK := by
  simp [Result.IsErr, Result.IsOK]

theorem keepIfOK_fst (state : State) (r : Result × State) : (keepIfOK state r).1 = r.1 := by
  unfold keepIfOK
  split <;> rfl

theorem keepIfOK_err (state : State) (r : Result × State) (res : Result) (s2 : State)
    (h : keepIfOK state r = (res, s2)) (herr : res.IsErr = true) : s2 = state := by
  unfold keepIfOK at h
  by_cases hok : r.1.IsOK = true
  · simp only [hok, if_true] at h
    rw [h] at hok
    simp [Result.IsErr_eq_not_IsOK] at herr
    simp [herr] at hok
  · simp only [hok, Bool.false_eq_true, if_false, Prod.mk.injEq] at h
    exact h.2.symm

theorem keepIfOK_ok (state : State) (r : Result × State) (res : Result) (s2 : State)
    (h : keepIfOK state r = (res, s2)) (hok : res.IsOK = true) : r = (res, s2) := by
  unfold keepIfOK at h
  by_cases hr : r.1.IsOK = true
  · simpa [hr] using h
  · simp only [hr, Bool.false_eq_true, if_false, Prod.mk.injEq] at h
    rw [h.1] at hr
    exact absurd hok hr

/-- An error result of `appendOutcome` comes with the state it started from. -/
theorem appendOutcome_err (E : Env) (now : String) (state : State) (tx : Tx) (inAcc : Account)
    (res : Result) (s2 : State) (h : appendOutcome E now state tx inAcc = some (res, s2))
    (herr : res.IsErr = true) : s2 = state := by
  unfold appendOutcome at h
  split at h
  · simp at h; rw [← h.1] at herr; simp [Result.IsErr, OK] at herr
  · split at h
    · simp at h; exact h.2.symm
    · simp at h; rw [← h.1] at herr; simp [Result.IsErr, NewResultOK] at herr
  · split at h
    · simp at h; exact h.2.symm
    · simp only [Option.some.injEq] at h
      exact keepIfOK_err _ _ _ _ h herr
  · split at h
    · simp at h; exact h.2.symm
    · simp at h; rw [← h.1] at herr; simp [Result.IsErr, NewResultOK] at herr
  · split at h
    · simp at h; exact h.2.symm
    · simp at h; rw [← h.1] at herr; simp [Result.IsErr, NewResultOK] at herr
  · split at h
    · simp at h; exact h.2.symm
    · split at h
      · simp at h
      · simp only [Option.some.injEq] at h
        exact keepIfOK_err _ _ _ _ h herr
  · simp at h; exact h.2.symm

/-- An OK result of `appendOutcome` comes with the acting account written and at most one more
write: the new administrator of a `CreateAdminTx`, the payload of a `SubmitTx` under the key of
its form, or the resolved form of a `ResolveTx` under the key the transaction names. -/
theorem appendOutcome_ok (E : Env) (now : String) (state : State) (tx : Tx) (inAcc : Account)
    (res : Result) (s2 : State) (h : appendOutcome E now state tx inAcc = some (res, s2))
    (hok : res.IsOK = true) :
    s2 = state.SetAccount E tx.Input.Address inAcc ∨
    (tx.Typ = TxType.CreateAdminTx ∧ ∃ secret n, E.GetByteSlice tx.Data = some (secret, n) ∧
      s2 = (state.SetAccount E tx.Input.Address inAcc).SetAccount E
        (E.Address (E.CreateKeys secret).1) (NewAdmin (E.CreateKeys secret).1)) ∨
    (tx.Typ = TxType.SubmitTx ∧ ∃ form, E.ReadForm tx.Data = some form ∧
      s2 = (state.SetAccount E tx.Input.Address inAcc).Set (E.ByteSlice (E.FormID form)) tx.Data) ∨
    (tx.Typ = TxType.ResolveTx ∧ (E.GetByteSlice tx.Data).isSome = true ∧
      ∃ form form1 pubKey,
        E.ReadForm ((state.SetAccount E tx.Input.Address inAcc).Get tx.Data) = some form ∧
        form.Resolve (E.ToTheMinute now) (E.BytesToHexString pubKey) = some form1 ∧
        s2 = (state.SetAccount E tx.Input.Address inAcc).Set tx.Data (E.FormBytes form1)) := by
  unfold appendOutcome at h
  split at h
  · simp at h; exact Or.inl h.2.symm
  · split at h
    · simp at h; rw [← h.1] at hok; simp [Result.IsOK, ErrUnauthorized] at hok
    · simp at h; exact Or.inl h.2.symm
  · rename_i htyp
    split at h
    · simp at h; rw [← h.1] at hok; simp [Result.IsOK, ErrUnauthorized] at hok
    · simp only [Option.some.injEq] at h
      have h2 := keepIfOK_ok _ _ _ _ h hok
      unfold RunCreateAdminTx at h2
      split at h2
      · simp at h2; rw [← h2.1] at hok; simp [Result.IsOK, ErrEncodingError] at hok
      · rename_i secret n hg
        simp at h2
        exact Or.inr (Or.inl ⟨htyp, secret, n, hg, h2.2.symm⟩)
  · split at h
    · simp at h; rw [← h.1] at hok; simp [Result.IsOK, ErrUnauthorized] at hok
    · simp at h; exact Or.inl h.2.symm
  · rename_i htyp
    split at h
    · simp at h; rw [← h.1] at hok; simp [Result.IsOK, ErrEncodingError] at hok
    · rename_i form hf
      simp at h
      exact Or.inr (Or.inr (Or.inl ⟨htyp, form, hf, h.2.symm⟩))
  · rename_i htyp
    split at h
    · simp at h; rw [← h.1] at hok; simp [Result.IsOK, ErrUnauthorized] at hok
    · split at h
      · simp at h
      · rename_i pk hk
        simp only [Option.some.injEq] at h
        have h2 := keepIfOK_ok _ _ _ _ h hok
        unfold RunResolveTx at h2
        split at h2
        · simp at h2; rw [← h2.1] at hok; simp [Result.IsOK, NewResult] at hok
        · rename_i sn hg
          dsimp only at h2
          split at h2
          · simp at h2; rw [← h2.1] at hok; simp [Result.IsOK, NewResult] at hok
          · split at h2
            · simp at h2; rw [← h2.1] at hok; simp [Result.IsOK, ErrEncodingError] at hok
            · rename_i form hf
              split at h2
              · simp at h2; rw [← h2.1] at hok; simp [Result.IsOK, NewResult] at hok
              · rename_i form1 hr
                simp at h2
                exact Or.inr (Or.inr (Or.inr ⟨htyp, by simp [hg], form, form1, pk, hf, hr,
                  h2.2.symm⟩))
  · simp at h; rw [← h.1] at hok; simp [Result.IsOK, ErrUnknownRequest] at hok

theorem State.Get_SetAccount (E : Env) (state : State) (addr : Bytes) (acc : Account)
    (k : Bytes) :
    (state.SetAccount E addr acc).Get k =
      if k = AccountKey addr then E.AccountBytes acc else state.Get k := by
  simp [State.Get, State.SetAccount, Comit.SetAccount, Store.Get_Set]

/-- The handler `RunCreateAdminTx` answers OK exactly when a field is read off the data. -/
theorem RunCreateAdminTx_IsOK (E : Env) (state : State) (data : Bytes) :
    (RunCreateAdminTx E state data).1.IsOK = (E.GetByteSlice data).isSome := by
  unfold RunCreateAdminTx
  cases h : E.GetByteSlice data with
  | none => rfl
  | some p => rfl

/-- The handler `RunResolveTx` answers OK exactly when the data are a length-prefixed field, the
value stored under them is not empty and decodes to a form, and the form is not Resolved. -/
theorem RunResolveTx_IsOK (E : Env) (now : String) (state : State) (pubKey data : Bytes) :
    (RunResolveTx E now state pubKey data).1.IsOK = true ↔
      ((E.GetByteSlice data).isSome = true ∧ state.Get data ≠ [] ∧
        ∃ form, E.ReadForm (state.Get data) = some form ∧ form.Status ≠ Status.Resolved) := by
  unfold RunResolveTx
  cases hg : E.GetByteSlice data with
  | none => simp [Result.IsOK, NewResult]
  | some p =>
    simp only [Option.isSome_some, true_and]
    by_cases hv : (state.Get data).length = 0
    · have hv2 : state.Get data = [] := List.length_eq_zero.mp hv
      simp [hv, hv2, Result.IsOK, NewResult]
    · have hv2 : state.Get data ≠ [] := fun h => hv (by rw [h]; rfl)
      simp only [hv, if_false]
      cases hf : E.ReadForm (state.Get data) with
      | none => simp [Result.IsOK, ErrEncodingError]
      | some form =>
        by_cases hs : form.Status = Status.Resolved
        · simp [Form.Resolve, hs, Result.IsOK, NewResult]
        · simp [Form.Resolve, hs, Result.IsOK, NewResultOK, hv2]

/-- When `appendOutcome` returns OK: the permission gate of the transaction type passes and its
handler succeeds. -/
theorem appendOutcome_IsOK_iff (E : Env) (now : String) (state : State) (tx : Tx)
    (inAcc : Account) (res : Result) (s2 : State)
    (h : appendOutcome E now state tx inAcc = some (res, s2)) :
    res.IsOK = true ↔
      (tx.Typ = TxType.CreateAccountTx ∨
       (tx.Typ = TxType.RemoveAccountTx ∧ inAcc.IsAdmin = false) ∨
       (tx.Typ = TxType.CreateAdminTx ∧ E.PermissionToCreateAdmin inAcc = true ∧
         (E.GetByteSlice tx.Data).isSome = true) ∨
       (tx.Typ = TxType.RemoveAdminTx ∧ inAcc.IsAdmin = true) ∨
       (tx.Typ = TxType.SubmitTx ∧ (E.ReadForm tx.Data).isSome = true) ∨
       (tx.Typ = TxType.ResolveTx ∧ E.PermissionToResolve inAcc = true ∧
         (E.GetByteSlice tx.Data).isSome = true ∧
         (state.SetAccount E tx.Input.Address inAcc).Get tx.Data ≠ [] ∧
         ∃ form, E.ReadForm ((state.SetAccount E tx.Input.Address inAcc).Get tx.Data) =
           some form ∧ form.Status ≠ Status.Resolved)) := by
  unfold appendOutcome at h
  cases htyp : tx.Typ with
  | CreateAccountTx =>
    simp only [htyp, Option.some.injEq, Prod.mk.injEq] at h
    rw [← h.1]
    simp [Result.IsOK, OK]
  | RemoveAccountTx =>
    simp only [htyp] at h
    cases ha : inAcc.IsAdmin with
    | true =>
      simp only [ha, if_true, Option.some.injEq, Prod.mk.injEq] at h
      rw [← h.1]
      simp [Result.IsOK, ErrUnauthorized]
    | false =>
      simp only [ha, Bool.false_eq_true, if_false, Option.some.injEq, Prod.mk.injEq] at h
      rw [← h.1]
      simp [Result.IsOK, NewResultOK]
  | CreateAdminTx =>
    simp only [htyp] at h
    cases hp : E.PermissionToCreateAdmin inAcc with
    | false =>
      simp only [hp, Bool.not_false, if_true, Option.some.injEq, Prod.mk.injEq] at h
      rw [← h.1]
      simp [Result.IsOK, ErrUnauthorized]
    | true =>
      simp only [hp, Bool.not_true, Bool.false_eq_true, if_false, Option.some.injEq] at h
      have h1 := congrArg Prod.fst h
      rw [keepIfOK_fst] at h1
      simp only at h1
      rw [← h1, RunCreateAdminTx_IsOK]
      simp
  | RemoveAdminTx =>
    simp only [htyp] at h
    cases ha : inAcc.IsAdmin with
    | false =>
      simp only [ha, Bool.not_false, if_true, Option.some.injEq, Prod.mk.injEq] at h
      rw [← h.1]
      simp [Result.IsOK, ErrUnauthorized]
    | true =>
      simp only [ha, Bool.not_true, Bool.false_eq_true, if_false, Option.some.injEq,
        Prod.mk.injEq] at h
      rw [← h.1]
      simp [Result.IsOK, NewResultOK]
  | SubmitTx =>
    simp only [htyp] at h
    cases hf : E.ReadForm tx.Data with
    | none =>
      simp only [hf, Option.some.injEq, Prod.mk.injEq] at h
      rw [← h.1]
      simp [Result.IsOK, ErrEncodingError]
    | some form =>
      simp only [hf, Option.some.injEq, Prod.mk.injEq] at h
      rw [← h.1]
      simp [Result.IsOK, NewResultOK]
  | ResolveTx =>
    simp only [htyp] at h
    cases hp : E.PermissionToResolve inAcc with
    | false =>
      simp only [hp, Bool.not_false, if_true, Option.some.injEq, Prod.mk.injEq] at h
      rw [← h.1]
      simp [Result.IsOK, ErrUnauthorized]
    | true =>
      simp only [hp, Bool.not_true, Bool.false_eq_true, if_false] at h
      cases hk : inAcc.PubKey with
      | none => simp [hk] at h
      | some pk =>
        simp only [hk, Option.some.injEq] at h
        have h1 := congrArg Prod.fst h
        rw [keepIfOK_fst] at h1
        simp only at h1
        rw [← h1, RunResolveTx_IsOK]
        simp
  | Unknown tag =>
    simp only [htyp, Option.some.injEq, Prod.mk.injEq] at h
    rw [← h.1]
    simp [Result.IsOK, ErrUnknownRequest]

/-! ## The claims -/

/-- C1. All-or-nothing application: when `ExecTx` in append mode returns an error result,
whichever step produced it, the state is the one from before the call: every key of the store
reads back the same value and every address resolves to the same account. -/
theorem ExecTx_error_leaves_state (E : Env) (now : String) (state : State) (tx : Tx)
    (res : Result) (state2 : State)
    (h : ExecTx E now state tx false = some (res, state2)) (herr : res.IsErr = true) :
    state2 = state ∧ (∀ key, state2.Get key = state.Get key) ∧
      (∀ addr, state2.GetAccount E addr = state.GetAccount E addr) := by
  have heq : state2 = state := by
    rcases ExecTx_inv E now state tx false res state2 h with hl | ⟨cid, inAcc0, h1, h2, h3, h4⟩
    · exact hl.2
    · rw [ExecTx_append_eq E now state tx cid inAcc0 h1 h2 h3 h4] at h
      exact appendOutcome_err E now state tx _ res state2 h herr
  subst heq
  exact ⟨rfl, fun _ => rfl, fun _ => rfl⟩

/-- Witness for C1: an account without the permission asks for a new administrator; the result
is Unauthorized and the state is the one from before the call. -/
theorem ExecTx_error_leaves_state_witness :
    ExecTx demoEnv "now" (demoState 5 Role.Regular) (demoTx TxType.CreateAdminTx 6 [0, 1, 9] none)
        false = some (ErrUnauthorized, demoState 5 Role.Regular) ∧
      ErrUnauthorized.IsErr = true ∧
      (demoState 5 Role.Regular = demoState 5 Role.Regular ∧
        (∀ key, (demoState 5 Role.Regular).Get key = (demoState 5 Role.Regular).Get key) ∧
        (∀ addr, (demoState 5 Role.Regular).GetAccount demoEnv addr =
          (demoState 5 Role.Regular).GetAccount demoEnv addr)) :=
  ⟨by decide, by decide,
    ExecTx_error_leaves_state demoEnv "now" (demoState 5 Role.Regular)
      (demoTx TxType.CreateAdminTx 6 [0, 1, 9] none) ErrUnauthorized (demoState 5 Role.Regular)
      (by decide) (by decide)⟩

theorem GetChainID_of_ne (state : State) (h : state.chainID ≠ "") :
    state.GetChainID = some state.chainID := by
  simp [State.GetChainID, h]

/-- The sequence check: a transaction other than a `CreateAccountTx` whose sequence number is
not one more than the stored one gets InvalidSequence, in either mode, and nothing is written. -/
theorem ExecTx_sequence_mismatch (E : Env) (now : String) (state : State) (tx : Tx)
    (A : Account) (isCheckTx : Bool) (cid : String)
    (hcid : state.GetChainID = some cid)
    (htyp : tx.Typ ≠ TxType.CreateAccountTx)
    (hvb : (E.ValidateBasic tx.Input).IsErr = false)
    (hget : state.GetAccount E tx.Input.Address = some (some A))
    (hseq : tx.Input.Sequence ≠ A.Sequence + 1) :
    ExecTx E now state tx isCheckTx = some (ErrBaseInvalidSequence, state) := by
  have hval : validateInputAdvanced E (withInputPubKey A tx.Input)
      (E.SignBytes tx cid) tx.Input = some ErrBaseInvalidSequence := by
    have : ¬ (A.Sequence + 1 = tx.Input.Sequence) := fun h => hseq h.symm
    simp [validateInputAdvanced, withInputPubKey_Sequence, this]
  have herr : ErrBaseInvalidSequence.IsErr = true := by decide
  unfold ExecTx
  simp [hcid, hvb, getInAcc_stored E state tx A htyp hget, hval, herr]

/-- The sequence check of a `CreateAccountTx`: the new account starts at sequence number 0, so a
transaction whose sequence number is not 1 gets InvalidSequence, in either mode, and nothing is
written. -/
theorem ExecTx_CreateAccount_mismatch (E : Env) (now : String) (state : State) (tx : Tx)
    (isCheckTx : Bool) (cid : String)
    (hcid : state.GetChainID = some cid)
    (htyp : tx.Typ = TxType.CreateAccountTx)
    (hvb : (E.ValidateBasic tx.Input).IsErr = false)
    (hseq : tx.Input.Sequence ≠ 1) :
    ExecTx E now state tx isCheckTx = some (ErrBaseInvalidSequence, state) := by
  have hacc : getInAcc E state tx = some (Except.ok (NewAccount tx.Input.PubKey 0)) := by
    simp [getInAcc, htyp]
  have hval : validateInputAdvanced E (NewAccount tx.Input.PubKey 0)
      (E.SignBytes tx cid) tx.Input = some ErrBaseInvalidSequence := by
    have h1 : (NewAccount tx.Input.PubKey 0).Sequence + 1 = 1 := rfl
    have : ¬ ((1 : GoInt) = tx.Input.Sequence) := fun h => hseq h.symm
    simp only [validateInputAdvanced, h1, ne_eq, this, not_false_eq_true, if_true]
  have herr : ErrBaseInvalidSequence.IsErr = true := by decide
  unfold ExecTx
  simp [hcid, hvb, hacc, hval, herr]

/-- C2, counterexample. The stored account has sequence number 5 and a `CreateAccountTx` from
its address carries sequence number 1, which is not 5 + 1. The transaction passes basic
validation, and `ExecTx` returns OK in check mode and in append mode, not InvalidSequence; the
account stored at the address afterwards has sequence number 1. -/
theorem ExecTx_invalid_sequence_counterexample :
    (demoEnv.ValidateBasic (demoTx TxType.CreateAccountTx 1 [] (some demoKey)).Input).IsErr = false ∧
    (demoState 5 Role.Regular).GetAccount demoEnv demoAddress =
      some (some ⟨some demoKey, 5, Role.Regular⟩) ∧
    (demoTx TxType.CreateAccountTx 1 [] (some demoKey)).Input.Sequence ≠ 5 + 1 ∧
    (ExecTx demoEnv "now" (demoState 5 Role.Regular)
        (demoTx TxType.CreateAccountTx 1 [] (some demoKey)) true).map
      (fun r => (r.1.Code, r.2.GetAccount demoEnv demoAddress)) =
      some (CodeType.OK, some (some ⟨some demoKey, 1, Role.Regular⟩)) ∧
    (ExecTx demoEnv "now" (demoState 5 Role.Regular)
        (demoTx TxType.CreateAccountTx 1 [] (some demoKey)) false).map
      (fun r => (r.1.Code, r.2.GetAccount demoEnv demoAddress)) =
      some (CodeType.OK, some (some ⟨some demoKey, 1, Role.Regular⟩)) := by
  refine ⟨by decide, by decide, by decide, by decide, by decide⟩

/-- C2, amended. Strict sequence check for every transaction but a `CreateAccountTx` with
sequence number 1: on a state whose chain identifier is set, when the transaction passes basic
validation, its input address has a stored account `A`, its sequence number is not
`A.Sequence + 1` and it is not a `CreateAccountTx` with sequence number 1, `ExecTx` returns
InvalidSequence in check mode and in append mode, and leaves the state, hence the stored
account, as it was. The sum `A.Sequence + 1` is the one of the code, a sum of Go `int`s. -/
theorem ExecTx_invalid_sequence (E : Env) (now : String) (state : State) (tx : Tx) (A : Account)
    (isCheckTx : Bool)
    (hcid : state.chainID ≠ "")
    (hnew : ¬ (tx.Typ = TxType.CreateAccountTx ∧ tx.Input.Sequence = 1))
    (hvb : (E.ValidateBasic tx.Input).IsErr = false)
    (hget : state.GetAccount E tx.Input.Address = some (some A))
    (hseq : tx.Input.Sequence ≠ A.Sequence + 1) :
    ExecTx E now state tx isCheckTx = some (ErrBaseInvalidSequence, state) ∧
      state.GetAccount E tx.Input.Address = some (some A) := by
  refine ⟨?_, hget⟩
  by_cases htyp : tx.Typ = TxType.CreateAccountTx
  · exact ExecTx_CreateAccount_mismatch E now state tx isCheckTx state.chainID
      (GetChainID_of_ne state hcid) htyp hvb (fun h => hnew ⟨htyp, h⟩)
  · exact ExecTx_sequence_mismatch E now state tx A isCheckTx state.chainID
      (GetChainID_of_ne state hcid) htyp hvb hget hseq

/-- Witness for C2: stored sequence number 5. A `SubmitTx` with sequence number 7 and a
`CreateAccountTx` with sequence number 7 get InvalidSequence, in check mode and in append
mode. -/
theorem ExecTx_invalid_sequence_witness :
    (ExecTx demoEnv "now" (demoState 5 Role.Regular) (demoTx TxType.SubmitTx 7 [2, 0, 3] none)
        true = some (ErrBaseInvalidSequence, demoState 5 Role.Regular) ∧
      (demoState 5 Role.Regular).GetAccount demoEnv
        (demoTx TxType.SubmitTx 7 [2, 0, 3] none).Input.Address =
        some (some ⟨some demoKey, 5, Role.Regular⟩)) ∧
    (ExecTx demoEnv "now" (demoState 5 Role.Regular) (demoTx TxType.SubmitTx 7 [2, 0, 3] none)
        false = some (ErrBaseInvalidSequence, demoState 5 Role.Regular) ∧
      (demoState 5 Role.Regular).GetAccount demoEnv
        (demoTx TxType.SubmitTx 7 [2, 0, 3] none).Input.Address =
        some (some ⟨some demoKey, 5, Role.Regular⟩)) ∧
    (ExecTx demoEnv "now" (demoState 5 Role.Regular)
        (demoTx TxType.CreateAccountTx 7 [] (some demoKey)) false =
        some (ErrBaseInvalidSequence, demoState 5 Role.Regular) ∧
      (demoState 5 Role.Regular).GetAccount demoEnv
        (demoTx TxType.CreateAccountTx 7 [] (some demoKey)).Input.Address =
        some (some ⟨some demoKey, 5, Role.Regular⟩)) ∧
    (ExecTx demoEnv "now" (demoState 5 Role.Regular)
        (demoTx TxType.CreateAccountTx 7 [] (some demoKey)) true =
        some (ErrBaseInvalidSequence, demoState 5 Role.Regular) ∧
      (demoState 5 Role.Regular).GetAccount demoEnv
        (demoTx TxType.CreateAccountTx 7 [] (some demoKey)).Input.Address =
        some (some ⟨some demoKey, 5, Role.Regular⟩)) :=
  ⟨ExecTx_invalid_sequence demoEnv "now" (demoState 5 Role.Regular)
      (demoTx TxType.SubmitTx 7 [2, 0, 3] none) ⟨some demoKey, 5, Role.Regular⟩ true
      (by decide) (by decide) (by decide) (by decide) (by decide),
    ExecTx_invalid_sequence demoEnv "now" (demoState 5 Role.Regular)
      (demoTx TxType.SubmitTx 7 [2, 0, 3] none) ⟨some demoKey, 5, Role.Regular⟩ false
      (by decide) (by decide) (by decide) (by decide) (by decide),
    ExecTx_invalid_sequence demoEnv "now" (demoState 5 Role.Regular)
      (demoTx TxType.CreateAccountTx 7 [] (some demoKey)) ⟨some demoKey, 5, Role.Regular⟩ false
      (by decide) (by decide) (by decide) (by decide) (by decide),
    ExecTx_invalid_sequence demoEnv "now" (demoState 5 Role.Regular)
      (demoTx TxType.CreateAccountTx 7 [] (some demoKey)) ⟨some demoKey, 5, Role.Regular⟩ true
      (by decide) (by decide) (by decide) (by decide) (by decide)⟩

/-- Once the acting account has a public key, `appendOutcome` returns a result. -/
theorem appendOutcome_isSome (E : Env) (now : String) (state : State) (tx : Tx)
    (inAcc : Account) (pubKey : Bytes) (hkey : inAcc.PubKey = some pubKey) :
    ∃ res s2, appendOutcome E now state tx inAcc = some (res, s2) := by
  unfold appendOutcome
  split
  · exact ⟨_, _, rfl⟩
  · split <;> exact ⟨_, _, rfl⟩
  · split <;> exact ⟨_, _, rfl⟩
  · split <;> exact ⟨_, _, rfl⟩
  · split <;> exact ⟨_, _, rfl⟩
  · split
    · exact ⟨_, _, rfl⟩
    · simp only [hkey]
      exact ⟨_, _, rfl⟩
  · exact ⟨_, _, rfl⟩

/-- After an OK result of `appendOutcome`, the account read at the input address is the acting
account, unless a `CreateAdminTx` put its new administrator at that very address. The registry
key of the address is assumed not to be a length-prefixed field, as the keys of forms are. -/
theorem appendOutcome_ok_GetAccount (E : Env) (now : String) (state : State) (tx : Tx)
    (inAcc : Account) (res : Result) (s2 : State)
    (h : appendOutcome E now state tx inAcc = some (res, s2)) (hok : res.IsOK = true)
    (hdec : E.ReadAccount (E.AccountBytes inAcc) = some inAcc)
    (hne : E.AccountBytes inAcc ≠ [])
    (hns1 : ∀ x, E.ByteSlice x ≠ AccountKey tx.Input.Address)
    (hns2 : E.GetByteSlice (AccountKey tx.Input.Address) = none) :
    s2.GetAccount E tx.Input.Address = some (some inAcc) ∨
    (tx.Typ = TxType.CreateAdminTx ∧ ∃ secret n, E.GetByteSlice tx.Data = some (secret, n) ∧
      E.Address (E.CreateKeys secret).1 = tx.Input.Address) := by
  have hsame := GetAccount_Set_same E state.store tx.Input.Address inAcc hdec hne
  rcases appendOutcome_ok E now state tx inAcc res s2 h hok with
    h1 | ⟨htyp, secret, n, hg, h1⟩ | ⟨_, form, _, h1⟩ | ⟨_, hsome, form, form1, pk, _, _, h1⟩
  · left; subst h1; exact hsame
  · by_cases ha : E.Address (E.CreateKeys secret).1 = tx.Input.Address
    · exact Or.inr ⟨htyp, secret, n, hg, ha⟩
    · left
      subst h1
      simp only [State.GetAccount, State.SetAccount, SetAccount]
      rw [GetAccount_Set_other E _ _ _ _ (fun hk => ha (AccountKey_injective _ _ hk).symm)]
      exact hsame
  · left
    subst h1
    simp only [State.GetAccount, State.SetAccount, SetAccount, State.Set]
    rw [GetAccount_Set_other E _ _ _ _ (fun hk => hns1 _ hk.symm)]
    exact hsame
  · left
    subst h1
    simp only [State.GetAccount, State.SetAccount, SetAccount, State.Set]
    rw [GetAccount_Set_other E _ _ _ _ (fun hk => by rw [← hk, hns2] at hsome; simp at hsome)]
    exact hsame

/-- C3, counterexample. Four transactions from a stored account with sequence number 5, each
with sequence number 6 and a signature that verifies. An administrator's `RemoveAccountTx`
returns Unauthorized and the stored sequence number stays 5. A `CreateAccountTx` returns
InvalidSequence. A `CreateAdminTx` whose secret derives the acting address returns OK and the
account stored at the address has sequence number 0 afterwards. A `SubmitTx` whose data do not
decode to a form returns EncodingError and the stored sequence number stays 5. -/
theorem ExecTx_valid_sequence_counterexample :
    (ExecTx demoEnv "now" (demoState 5 Role.Admin)
        (demoTx TxType.RemoveAccountTx 6 [] none) false).map
      (fun r => (r.1.Code, r.2.GetAccount demoEnv demoAddress)) =
      some (CodeType.Unauthorized, some (some ⟨some demoKey, 5, Role.Admin⟩)) ∧
    (ExecTx demoEnv "now" (demoState 5 Role.Regular)
        (demoTx TxType.CreateAccountTx 6 [] (some demoKey)) false).map
      (fun r => (r.1.Code, r.2.GetAccount demoEnv demoAddress)) =
      some (CodeType.BaseInvalidSequence, some (some ⟨some demoKey, 5, Role.Regular⟩)) ∧
    (ExecTx demoEnv "now" (demoState 5 Role.Admin)
        (demoTx TxType.CreateAdminTx 6 [0, 1, 7] none) false).map
      (fun r => (r.1.Code, r.2.GetAccount demoEnv demoAddress)) =
      some (CodeType.OK, some (some ⟨some demoKey, 0, Role.Admin⟩)) ∧
    (ExecTx demoEnv "now" (demoState 5 Role.Regular)
        (demoTx TxType.SubmitTx 6 [] none) false).map
      (fun r => (r.1.Code, r.2.GetAccount demoEnv demoAddress)) =
      some (CodeType.EncodingError, some (some ⟨some demoKey, 5, Role.Regular⟩)) := by
  refine ⟨by decide, by decide, by decide, by decide⟩

/-- C3, amended. On a state whose chain identifier is set, let `A` be the account stored at the
input address of a transaction of a type other than `CreateAccountTx` that passes basic
validation, has sequence number `A.Sequence + 1` and carries a signature that verifies over its
sign bytes under the acting key (the key of the input when it has one, the stored key
otherwise). Then `ExecTx` in append mode returns a result, and the result is OK exactly when
the permission gate of the transaction type passes and its handler succeeds: a
`RemoveAccountTx` of an account that is not an administrator; a `CreateAdminTx` of an account
with the permission to create administrators whose data start with a length-prefixed field; a
`RemoveAdminTx` of an administrator; a `SubmitTx` whose data decode to a form; a `ResolveTx` of
an account with the permission to resolve whose data are a length-prefixed field under which a
non-empty value is stored that decodes to a form that is not Resolved. When the result is OK,
the account stored at the address afterwards is `A` under the acting key with sequence number
exactly `A.Sequence + 1`, unless the transaction is a `CreateAdminTx` whose secret derives that
very address. When the result is an error, of the permission gate or of the handler, the state
is the one from before the call. The account encoding is assumed to decode back and to be
non-empty, and the registry key of the address not to be a length-prefixed field. -/
theorem ExecTx_valid_sequence (E : Env) (now : String) (state : State) (tx : Tx) (A : Account)
    (pubKey : Bytes)
    (hcid : state.chainID ≠ "")
    (htyp : tx.Typ ≠ TxType.CreateAccountTx)
    (hvb : (E.ValidateBasic tx.Input).IsErr = false)
    (hget : state.GetAccount E tx.Input.Address = some (some A))
    (hseq : tx.Input.Sequence = A.Sequence + 1)
    (hkey : (withInputPubKey A tx.Input).PubKey = some pubKey)
    (hsig : E.VerifyBytes pubKey (E.SignBytes tx state.chainID) tx.Input.Signature = true)
    (hdec : E.ReadAccount (E.AccountBytes ⟨some pubKey, A.Sequence + 1, A.Role⟩) =
      some ⟨some pubKey, A.Sequence + 1, A.Role⟩)
    (hne : E.AccountBytes ⟨some pubKey, A.Sequence + 1, A.Role⟩ ≠ [])
    (hns1 : ∀ x, E.ByteSlice x ≠ AccountKey tx.Input.Address)
    (hns2 : E.GetByteSlice (AccountKey tx.Input.Address) = none) :
    ∃ res state2, ExecTx E now state tx false = some (res, state2) ∧
      (res.IsOK = true ↔
        ((tx.Typ = TxType.RemoveAccountTx ∧ A.IsAdmin = false) ∨
         (tx.Typ = TxType.CreateAdminTx ∧
           E.PermissionToCreateAdmin ⟨some pubKey, A.Sequence + 1, A.Role⟩ = true ∧
           (E.GetByteSlice tx.Data).isSome = true) ∨
         (tx.Typ = TxType.RemoveAdminTx ∧ A.IsAdmin = true) ∨
         (tx.Typ = TxType.SubmitTx ∧ (E.ReadForm tx.Data).isSome = true) ∨
         (tx.Typ = TxType.ResolveTx ∧
           E.PermissionToResolve ⟨some pubKey, A.Sequence + 1, A.Role⟩ = true ∧
           (E.GetByteSlice tx.Data).isSome = true ∧ state.Get tx.Data ≠ [] ∧
           ∃ form, E.ReadForm (state.Get tx.Data) = some form ∧
             form.Status ≠ Status.Resolved))) ∧
      (res.IsOK = true →
        state2.GetAccount E tx.Input.Address = some (some ⟨some pubKey, A.Sequence + 1, A.Role⟩) ∨
        (tx.Typ = TxType.CreateAdminTx ∧ ∃ secret n, E.GetByteSlice tx.Data = some (secret, n) ∧
          E.Address (E.CreateKeys secret).1 = tx.Input.Address)) ∧
      (res.IsErr = true → state2 = state ∧
        state2.GetAccount E tx.Input.Address = some (some A)) := by
  have hval := validateInputAdvanced_ok E (withInputPubKey A tx.Input)
    (E.SignBytes tx state.chainID) tx.Input pubKey
    (by rw [withInputPubKey_Sequence]; exact hseq) hkey hsig
  have heq := ExecTx_append_eq E now state tx state.chainID (withInputPubKey A tx.Input)
    (GetChainID_of_ne state hcid) hvb (getInAcc_stored E state tx A htyp hget) hval
  have hacc : ({ withInputPubKey A tx.Input with
      Sequence := (withInputPubKey A tx.Input).Sequence + 1 } : Account) =
      ⟨some pubKey, A.Sequence + 1, A.Role⟩ := by
    simp only [withInputPubKey_Sequence, withInputPubKey_Role, hkey]
  rw [hacc] at heq
  obtain ⟨res, s2, hout⟩ := appendOutcome_isSome E now state tx
    ⟨some pubKey, A.Sequence + 1, A.Role⟩ pubKey rfl
  have hread : (E.GetByteSlice tx.Data).isSome = true →
      (state.SetAccount E tx.Input.Address ⟨some pubKey, A.Sequence + 1, A.Role⟩).Get tx.Data =
        state.Get tx.Data := by
    intro hsome
    rw [State.Get_SetAccount, if_neg]
    intro hk
    rw [hk, hns2] at hsome
    simp at hsome
  refine ⟨res, s2, by rw [heq, hout], ?_, ?_, ?_⟩
  · rw [appendOutcome_IsOK_iff E now state tx _ res s2 hout]
    constructor
    · rintro (h | h | h | h | h | ⟨h1, h2, h3, h4, h5⟩)
      · exact absurd h htyp
      · exact Or.inl h
      · exact Or.inr (Or.inl h)
      · exact Or.inr (Or.inr (Or.inl h))
      · exact Or.inr (Or.inr (Or.inr (Or.inl h)))
      · rw [hread h3] at h4 h5
        exact Or.inr (Or.inr (Or.inr (Or.inr ⟨h1, h2, h3, h4, h5⟩)))
    · rintro (h | h | h | h | ⟨h1, h2, h3, h4, h5⟩)
      · exact Or.inr (Or.inl h)
      · exact Or.inr (Or.inr (Or.inl h))
      · exact Or.inr (Or.inr (Or.inr (Or.inl h)))
      · exact Or.inr (Or.inr (Or.inr (Or.inr (Or.inl h))))
      · rw [← hread h3] at h4 h5
        exact Or.inr (Or.inr (Or.inr (Or.inr (Or.inr ⟨h1, h2, h3, h4, h5⟩))))
  · intro hok
    exact appendOutcome_ok_GetAccount E now state tx _ res s2 hout hok hdec hne hns1 hns2
  · intro herr
    have := appendOutcome_err E now state tx _ res s2 hout herr
    subst this
    exact ⟨rfl, hget⟩

/-- The registry key of the example address is not a length-prefixed field of `demoEnv`. -/
theorem demoByteSlice_ne_AccountKey (addr : Bytes) (x : Bytes) :
    demoEnv.ByteSlice x ≠ AccountKey addr := by
  intro h
  simp [demoEnv, demoByteSlice, AccountKey] at h

/-- The reader of `demoEnv` rejects every registry key. -/
theorem demoGetByteSlice_AccountKey (addr : Bytes) :
    demoEnv.GetByteSlice (AccountKey addr) = none := by
  simp [demoEnv, demoGetByteSlice, AccountKey]

/-- Witness for C3: a Regular account with sequence number 5 sends a `RemoveAccountTx` with
sequence number 6; the result is OK and the stored sequence number is 6. -/
theorem ExecTx_valid_sequence_witness :
    (ExecTx demoEnv "now" (demoState 5 Role.Regular)
        (demoTx TxType.RemoveAccountTx 6 [] none) false).map
      (fun r => (r.1.Code, r.2.GetAccount demoEnv demoAddress)) =
      some (CodeType.OK, some (some ⟨some demoKey, 6, Role.Regular⟩)) ∧
    ∃ res state2, ExecTx demoEnv "now" (demoState 5 Role.Regular)
        (demoTx TxType.RemoveAccountTx 6 [] none) false = some (res, state2) ∧
      (res.IsOK = true ↔
        (((demoTx TxType.RemoveAccountTx 6 [] none).Typ = TxType.RemoveAccountTx ∧
            (⟨some demoKey, 5, Role.Regular⟩ : Account).IsAdmin = false) ∨
         ((demoTx TxType.RemoveAccountTx 6 [] none).Typ = TxType.CreateAdminTx ∧
           demoEnv.PermissionToCreateAdmin ⟨some demoKey, (5 : GoInt) + 1, Role.Regular⟩ = true ∧
           (demoEnv.GetByteSlice (demoTx TxType.RemoveAccountTx 6 [] none).Data).isSome = true) ∨
         ((demoTx TxType.RemoveAccountTx 6 [] none).Typ = TxType.RemoveAdminTx ∧
            (⟨some demoKey, 5, Role.Regular⟩ : Account).IsAdmin = true) ∨
         ((demoTx TxType.RemoveAccountTx 6 [] none).Typ = TxType.SubmitTx ∧
           (demoEnv.ReadForm (demoTx TxType.RemoveAccountTx 6 [] none).Data).isSome = true) ∨
         ((demoTx TxType.RemoveAccountTx 6 [] none).Typ = TxType.ResolveTx ∧
           demoEnv.PermissionToResolve ⟨some demoKey, (5 : GoInt) + 1, Role.Regular⟩ = true ∧
           (demoEnv.GetByteSlice (demoTx TxType.RemoveAccountTx 6 [] none).Data).isSome = true ∧
           (demoState 5 Role.Regular).Get (demoTx TxType.RemoveAccountTx 6 [] none).Data ≠ [] ∧
           ∃ form, demoEnv.ReadForm ((demoState 5 Role.Regular).Get
               (demoTx TxType.RemoveAccountTx 6 [] none).Data) = some form ∧
             form.Status ≠ Status.Resolved))) ∧
      (res.IsOK = true →
        state2.GetAccount demoEnv (demoTx TxType.RemoveAccountTx 6 [] none).Input.Address =
          some (some ⟨some demoKey, (5 : GoInt) + 1, Role.Regular⟩) ∨
        ((demoTx TxType.RemoveAccountTx 6 [] none).Typ = TxType.CreateAdminTx ∧
          ∃ secret n, demoEnv.GetByteSlice (demoTx TxType.RemoveAccountTx 6 [] none).Data =
            some (secret, n) ∧
          demoEnv.Address (demoEnv.CreateKeys secret).1 =
            (demoTx TxType.RemoveAccountTx 6 [] none).Input.Address)) ∧
      (res.IsErr = true → state2 = demoState 5 Role.Regular ∧
        state2.GetAccount demoEnv (demoTx TxType.RemoveAccountTx 6 [] none).Input.Address =
          some (some ⟨some demoKey, 5, Role.Regular⟩)) :=
  ⟨by decide,
    ExecTx_valid_sequence demoEnv "now" (demoState 5 Role.Regular)
      (demoTx TxType.RemoveAccountTx 6 [] none) ⟨some demoKey, 5, Role.Regular⟩ demoKey
      (by decide) (by decide) (by decide) (by decide) (by decide) (by decide) (by decide)
      (by decide) (by decide) (demoByteSlice_ne_AccountKey _) (demoGetByteSlice_AccountKey _)⟩

/-! ## Reads after a step of `ExecTx` -/

theorem GetAccount_congr (E : Env) (s1 s2 : Store) (a : Bytes)
    (h : s2.Get (AccountKey a) = s1.Get (AccountKey a)) : GetAccount E s2 a = GetAccount E s1 a := by
  unfold GetAccount
  rw [h]

theorem Form.Resolve_some (form form1 : Form) (timestr pubKeyString : String)
    (h : form.Resolve timestr pubKeyString = some form1) : form.Status ≠ Status.Resolved := by
  unfold Form.Resolve at h
  intro hs
  simp [hs] at h

/-- After an OK result of `appendOutcome`, a key reads as it does once the acting account is
written, unless it is the key that the handler of the transaction wrote. -/
theorem appendOutcome_ok_Get (E : Env) (now : String) (state : State) (tx : Tx) (inAcc : Account)
    (res : Result) (s2 : State) (h : appendOutcome E now state tx inAcc = some (res, s2))
    (hok : res.IsOK = true) (k : Bytes) :
    s2.chainID = state.chainID ∧
    (s2.Get k = (state.SetAccount E tx.Input.Address inAcc).Get k ∨
     (tx.Typ = TxType.CreateAdminTx ∧ ∃ secret n, E.GetByteSlice tx.Data = some (secret, n) ∧
       k = AccountKey (E.Address (E.CreateKeys secret).1)) ∨
     (tx.Typ = TxType.SubmitTx ∧ ∃ form, E.ReadForm tx.Data = some form ∧
       k = E.ByteSlice (E.FormID form) ∧ s2.Get k = tx.Data) ∨
     (tx.Typ = TxType.ResolveTx ∧ (E.GetByteSlice tx.Data).isSome = true ∧ k = tx.Data ∧
       ∃ form, E.ReadForm ((state.SetAccount E tx.Input.Address inAcc).Get tx.Data) = some form ∧
         form.Status ≠ Status.Resolved)) := by
  rcases appendOutcome_ok E now state tx inAcc res s2 h hok with
    h1 | ⟨htyp, secret, n, hg, h1⟩ | ⟨htyp, form, hf, h1⟩ |
    ⟨htyp, hsome, form, form1, pk, hf, hr, h1⟩
  · subst h1
    exact ⟨rfl, Or.inl rfl⟩
  · subst h1
    refine ⟨rfl, ?_⟩
    by_cases hk : k = AccountKey (E.Address (E.CreateKeys secret).1)
    · exact Or.inr (Or.inl ⟨htyp, secret, n, hg, hk⟩)
    · left
      rw [State.Get_SetAccount, if_neg hk]
  · subst h1
    refine ⟨rfl, ?_⟩
    by_cases hk : k = E.ByteSlice (E.FormID form)
    · refine Or.inr (Or.inr (Or.inl ⟨htyp, form, hf, hk, ?_⟩))
      simp [State.Get, State.Set, Store.Get_Set, hk]
    · left
      simp [State.Get, State.Set, Store.Get_Set, hk]
  · subst h1
    refine ⟨rfl, ?_⟩
    by_cases hk : k = tx.Data
    · exact Or.inr (Or.inr (Or.inr ⟨htyp, hsome, hk, form, hf, Form.Resolve_some _ _ _ _ hr⟩))
    · left
      simp [State.Get, State.Set, Store.Get_Set, hk]

/-- A step of `ExecTx` either leaves a key as it reads, or the key is the registry key of the
input address and now holds the acting account with its sequence number incremented, or the key
is the one that the handler of the transaction wrote in append mode. -/
theorem ExecTx_Get (E : Env) (now : String) (state : State) (tx : Tx) (isCheckTx : Bool)
    (res : Result) (s2 : State) (h : ExecTx E now state tx isCheckTx = some (res, s2))
    (k : Bytes) :
    s2.chainID = state.chainID ∧
    (s2.Get k = state.Get k ∨
     (k = AccountKey tx.Input.Address ∧ (isCheckTx = true ∨ res.IsOK = true) ∧
       ∃ cid inAcc0, state.GetChainID = some cid ∧
         getInAcc E state tx = some (Except.ok inAcc0) ∧
         validateInputAdvanced E inAcc0 (E.SignBytes tx cid) tx.Input = some OK ∧
         s2.Get k = E.AccountBytes { inAcc0 with Sequence := inAcc0.Sequence + 1 }) ∨
     (isCheckTx = false ∧ res.IsOK = true ∧ tx.Typ = TxType.CreateAdminTx ∧
       ∃ secret n, E.GetByteSlice tx.Data = some (secret, n) ∧
         k = AccountKey (E.Address (E.CreateKeys secret).1)) ∨
     (isCheckTx = false ∧ res.IsOK = true ∧ tx.Typ = TxType.SubmitTx ∧
       ∃ form, E.ReadForm tx.Data = some form ∧ k = E.ByteSlice (E.FormID form) ∧
         s2.Get k = tx.Data) ∨
     (isCheckTx = false ∧ res.IsOK = true ∧ tx.Typ = TxType.ResolveTx ∧
       (E.GetByteSlice tx.Data).isSome = true ∧ k = tx.Data ∧
       ∃ form inAcc, E.ReadForm ((state.SetAccount E tx.Input.Address inAcc).Get tx.Data) =
         some form ∧ form.Status ≠ Status.Resolved)) := by
  rcases ExecTx_inv E now state tx isCheckTx res s2 h with hl | ⟨cid, inAcc0, h1, h2, h3, h4⟩
  · obtain ⟨_, hs⟩ := hl
    subst hs
    exact ⟨rfl, Or.inl rfl⟩
  · cases isCheckTx with
    | true =>
      rw [ExecTx_check_eq E now state tx cid inAcc0 h1 h2 h3 h4] at h
      simp only [Option.some.injEq, Prod.mk.injEq] at h
      obtain ⟨_, hs⟩ := h
      subst hs
      refine ⟨rfl, ?_⟩
      by_cases hk : k = AccountKey tx.Input.Address
      · refine Or.inr (Or.inl ⟨hk, Or.inl rfl, cid, inAcc0, h1, h3, h4, ?_⟩)
        rw [State.Get_SetAccount, if_pos hk]
      · left
        rw [State.Get_SetAccount, if_neg hk]
    | false =>
      rw [ExecTx_append_eq E now state tx cid inAcc0 h1 h2 h3 h4] at h
      cases hok : res.IsOK with
      | false =>
        have herr : res.IsErr = true := by simp [Result.IsErr_eq_not_IsOK, hok]
        have hs := appendOutcome_err E now state tx _ res s2 h herr
        subst hs
        exact ⟨rfl, Or.inl rfl⟩
      | true =>
        obtain ⟨hc, hcases⟩ := appendOutcome_ok_Get E now state tx _ res s2 h hok k
        refine ⟨hc, ?_⟩
        rcases hcases with hg | hg | hg | ⟨ht, hsome, hk, form, hf, hst⟩
        · by_cases hk : k = AccountKey tx.Input.Address
          · refine Or.inr (Or.inl ⟨hk, Or.inr rfl, cid, inAcc0, h1, h3, h4, ?_⟩)
            rw [hg, State.Get_SetAccount, if_pos hk]
          · left
            rw [hg, State.Get_SetAccount, if_neg hk]
        · exact Or.inr (Or.inr (Or.inl ⟨rfl, rfl, hg⟩))
        · exact Or.inr (Or.inr (Or.inr (Or.inl ⟨rfl, rfl, hg⟩)))
        · exact Or.inr (Or.inr (Or.inr (Or.inr ⟨rfl, rfl, ht, hsome, hk, form, _, hf, hst⟩)))

/-- The toy account encoding of `demoEnv` decodes back. -/
theorem demoReadAccount_AccountBytes (acc : Account) :
    demoEnv.ReadAccount (demoEnv.AccountBytes acc) = some acc := by
  obtain ⟨pk, sq, role⟩ := acc
  by_cases hlt : sq.val < 0
  · have h1 : -((sq.val.natAbs : Nat) : Int) = sq.val := by omega
    cases pk <;> cases role <;>
      simp [demoEnv, demoAccountBytes, demoReadAccount, hlt, -Int.natCast_natAbs, h1,
        GoInt.ofInt_val]
  · have h1 : ((sq.val.natAbs : Nat) : Int) = sq.val := by omega
    cases pk <;> cases role <;>
      simp [demoEnv, demoAccountBytes, demoReadAccount, hlt, -Int.natCast_natAbs, h1,
        GoInt.ofInt_val]

/-- The toy account encoding of `demoEnv` is never empty. -/
theorem demoAccountBytes_ne_nil (acc : Account) : demoEnv.AccountBytes acc ≠ [] := by
  simp [demoEnv, demoAccountBytes]

/-- C4, counterexample. The stored account has sequence number 3. A `CreateAccountTx` from its
address with sequence number 1 is applied in append mode and returns OK; the stored sequence
number afterwards is 1, neither 3 nor 4. Executed again on the resulting state, the same
transaction returns OK once more. A `CreateAdminTx` whose secret derives the acting address
brings the stored sequence number from 5 to 0; from a stored sequence number 0 it returns OK,
and OK once more when executed again on the resulting state. And on a stored account with
sequence number `MaxInt64`, a `RemoveAccountTx` with sequence number `MinInt64`, which is what
`MaxInt64 + 1` wraps around to, returns OK in append mode, and the stored sequence number
afterwards is `MinInt64`, which is smaller. -/
theorem ExecTx_sequence_monotone_counterexample :
    (demoState 3 Role.Regular).GetAccount demoEnv demoAddress =
      some (some ⟨some demoKey, 3, Role.Regular⟩) ∧
    ExecTx demoEnv "now" (demoState 3 Role.Regular)
        (demoTx TxType.CreateAccountTx 1 [] (some demoKey)) false =
      some (OK, (demoState 3 Role.Regular).SetAccount demoEnv demoAddress
        ⟨some demoKey, 1, Role.Regular⟩) ∧
    ((demoState 3 Role.Regular).SetAccount demoEnv demoAddress
        ⟨some demoKey, 1, Role.Regular⟩).GetAccount demoEnv demoAddress =
      some (some ⟨some demoKey, 1, Role.Regular⟩) ∧
    ¬ ((1 : GoInt).val = (3 : GoInt).val ∨ (1 : GoInt).val = (3 : GoInt).val + 1) ∧
    (ExecTx demoEnv "now" ((demoState 3 Role.Regular).SetAccount demoEnv demoAddress
        ⟨some demoKey, 1, Role.Regular⟩)
        (demoTx TxType.CreateAccountTx 1 [] (some demoKey)) false).map (fun r => r.1.Code) =
      some CodeType.OK ∧
    (ExecTx demoEnv "now" (demoState 5 Role.Admin)
        (demoTx TxType.CreateAdminTx 6 [0, 1, 7] none) false).map
      (fun r => (r.1.Code, r.2.GetAccount demoEnv demoAddress)) =
      some (CodeType.OK, some (some ⟨some demoKey, 0, Role.Admin⟩)) ∧
    ((ExecTx demoEnv "now" (demoState 0 Role.Admin)
        (demoTx TxType.CreateAdminTx 1 [0, 1, 7] none) false).bind
      (fun r => ExecTx demoEnv "later" r.2
        (demoTx TxType.CreateAdminTx 1 [0, 1, 7] none) false)).map
      (fun r => r.1.Code) = some CodeType.OK ∧
    (demoState GoInt.maxValue Role.Regular).GetAccount demoEnv demoAddress =
      some (some ⟨some demoKey, GoInt.maxValue, Role.Regular⟩) ∧
    (ExecTx demoEnv "now" (demoState GoInt.maxValue Role.Regular)
        (demoTx TxType.RemoveAccountTx GoInt.minValue [] none) false).map
      (fun r => (r.1.Code, r.2.GetAccount demoEnv demoAddress)) =
      some (CodeType.OK, some (some ⟨some demoKey, GoInt.minValue, Role.Regular⟩)) ∧
    GoInt.minValue.val < GoInt.maxValue.val ∧
    ¬ (GoInt.minValue.val = GoInt.maxValue.val ∨ GoInt.minValue.val = GoInt.maxValue.val + 1) := by
  refine ⟨by decide, by decide, by decide, by decide, by decide, by decide, by decide, by decide,
    by decide, by decide, by decide⟩

/-- C4, amended. Sequence monotonicity as a step invariant of `ExecTx`, for the accounts that
the transaction does not create and below the largest sequence number. For every state,
transaction and mode, and for every address that has an account record both before and after
the call, with a stored sequence number before the call other than `MaxInt64`, the stored
sequence number after the call is, as an integer, equal to the one before or exactly one
greater, unless the transaction is a `CreateAccountTx` from that address, or a `CreateAdminTx`
in append mode whose secret derives that address. Consequently a transaction of another type
than `CreateAccountTx` that was just applied successfully, and is not a `CreateAdminTx` deriving
its own input address, gets InvalidSequence when executed again on the resulting state, in
either mode. The account encoding is assumed to decode back and to be non-empty, and no
registry key to be a length-prefixed field. -/
theorem ExecTx_sequence_monotone (E : Env)
    (hcodec : ∀ acc, E.ReadAccount (E.AccountBytes acc) = some acc)
    (hne : ∀ acc, E.AccountBytes acc ≠ [])
    (hns1 : ∀ x a, E.ByteSlice x ≠ AccountKey a)
    (hns2 : ∀ a, E.GetByteSlice (AccountKey a) = none) :
    (∀ (now : String) (state : State) (tx : Tx) (isCheckTx : Bool) (res : Result)
        (state2 : State) (a : Bytes) (accB accA : Account),
      ExecTx E now state tx isCheckTx = some (res, state2) →
      state.GetAccount E a = some (some accB) →
      state2.GetAccount E a = some (some accA) →
      accB.Sequence ≠ GoInt.maxValue →
      ¬ (tx.Typ = TxType.CreateAccountTx ∧ tx.Input.Address = a) →
      ¬ (isCheckTx = false ∧ tx.Typ = TxType.CreateAdminTx ∧
          ∃ secret n, E.GetByteSlice tx.Data = some (secret, n) ∧
            E.Address (E.CreateKeys secret).1 = a) →
      accA.Sequence.val = accB.Sequence.val ∨ accA.Sequence.val = accB.Sequence.val + 1) ∧
    (∀ (now now2 : String) (state : State) (tx : Tx) (res : Result) (state2 : State)
        (isCheckTx : Bool),
      ExecTx E now state tx false = some (res, state2) →
      res.IsOK = true →
      tx.Typ ≠ TxType.CreateAccountTx →
      ¬ (tx.Typ = TxType.CreateAdminTx ∧
          ∃ secret n, E.GetByteSlice tx.Data = some (secret, n) ∧
            E.Address (E.CreateKeys secret).1 = tx.Input.Address) →
      ExecTx E now2 state2 tx isCheckTx = some (ErrBaseInvalidSequence, state2)) := by
  constructor
  · intro now state tx isCheckTx res state2 a accB accA h hB hA hmax hnc hna
    obtain ⟨_, hcases⟩ := ExecTx_Get E now state tx isCheckTx res state2 h (AccountKey a)
    rcases hcases with hg | ⟨hk, _, cid, inAcc0, _, hacc, hval, hg⟩ |
      ⟨hm, _, ht, secret, n, hgb, hk⟩ | ⟨_, _, _, form, _, hk, _⟩ | ⟨_, _, _, hsome, hk, _⟩
    · left
      have := GetAccount_congr E state.store state2.store a hg
      simp only [State.GetAccount] at hB hA
      rw [this, hB] at hA
      simp only [Option.some.injEq] at hA
      rw [hA]
    · right
      have ha := AccountKey_injective _ _ hk
      subst ha
      simp only [State.GetAccount, GetAccount, State.Get] at hA hg
      rw [hg, hcodec] at hA
      simp only [hne, List.length_eq_zero, if_false, Option.some.injEq] at hA
      have htyp : tx.Typ ≠ TxType.CreateAccountTx := fun ht => hnc ⟨ht, rfl⟩
      rw [getInAcc_stored E state tx accB htyp hB] at hacc
      simp only [Option.some.injEq, Except.ok.injEq] at hacc
      rw [← hA, ← hacc]
      simp only [withInputPubKey_Sequence]
      exact GoInt.val_add_one _ hmax
    · exact absurd ⟨hm, ht, secret, n, hgb, (AccountKey_injective _ _ hk).symm⟩ hna
    · exact absurd hk.symm (hns1 _ _)
    · rw [← hk, hns2] at hsome
      simp at hsome
  · intro now now2 state tx res state2 isCheckTx h hok htyp hna
    rcases ExecTx_inv E now state tx false res state2 h with hl | ⟨cid, inAcc0, h1, h2, h3, h4⟩
    · have := hl.1
      simp [Result.IsErr_eq_not_IsOK, hok] at this
    · rw [ExecTx_append_eq E now state tx cid inAcc0 h1 h2 h3 h4] at h
      obtain ⟨hc, hcases⟩ := appendOutcome_ok_Get E now state tx _ res state2 h hok
        (AccountKey tx.Input.Address)
      have hget : state2.Get (AccountKey tx.Input.Address) =
          E.AccountBytes { inAcc0 with Sequence := inAcc0.Sequence + 1 } := by
        rcases hcases with hg | ⟨ht, secret, n, hgb, hk⟩ | ⟨_, form, _, hk, _⟩ | ⟨_, hsome, hk, _⟩
        · rw [hg, State.Get_SetAccount, if_pos rfl]
        · exact absurd ⟨ht, secret, n, hgb, (AccountKey_injective _ _ hk).symm⟩ hna
        · exact absurd hk.symm (hns1 _ _)
        · rw [← hk, hns2] at hsome
          simp at hsome
      have hacc2 : state2.GetAccount E tx.Input.Address =
          some (some { inAcc0 with Sequence := inAcc0.Sequence + 1 }) := by
        simp only [State.GetAccount, GetAccount]
        simp only [State.Get] at hget
        rw [hget, hcodec]
        simp [hne]
      have hcid2 : state2.GetChainID = some cid := by
        simp only [State.GetChainID, hc]
        exact h1
      have hseq := (validateInputAdvanced_ok_inv E inAcc0 _ tx.Input OK h4 (by decide)).2.1
      exact ExecTx_sequence_mismatch E now2 state2 tx _ isCheckTx cid hcid2 htyp h2 hacc2
        (by simp only; rw [hseq]; exact (GoInt.add_one_ne _).symm)

/-- Witness for C4: a Regular account with sequence number 5 applies a `RemoveAccountTx` with
sequence number 6; its stored sequence number goes from 5 to 6, and the same transaction is
refused on the resulting state. -/
theorem ExecTx_sequence_monotone_witness :
    ((⟨some demoKey, 6, Role.Regular⟩ : Account).Sequence.val =
        (⟨some demoKey, 5, Role.Regular⟩ : Account).Sequence.val ∨
      (⟨some demoKey, 6, Role.Regular⟩ : Account).Sequence.val =
        (⟨some demoKey, 5, Role.Regular⟩ : Account).Sequence.val + 1) ∧
    ExecTx demoEnv "later" ((demoState 5 Role.Regular).SetAccount demoEnv demoAddress
        ⟨some demoKey, 6, Role.Regular⟩) (demoTx TxType.RemoveAccountTx 6 [] none) false =
      some (ErrBaseInvalidSequence, (demoState 5 Role.Regular).SetAccount demoEnv demoAddress
        ⟨some demoKey, 6, Role.Regular⟩) :=
  ⟨(ExecTx_sequence_monotone demoEnv demoReadAccount_AccountBytes demoAccountBytes_ne_nil
      (fun x a => demoByteSlice_ne_AccountKey a x) demoGetByteSlice_AccountKey).1
      "now" (demoState 5 Role.Regular) (demoTx TxType.RemoveAccountTx 6 [] none) false
      (NewResultOK (AccountKey demoAddress))
      ((demoState 5 Role.Regular).SetAccount demoEnv demoAddress ⟨some demoKey, 6, Role.Regular⟩)
      demoAddress ⟨some demoKey, 5, Role.Regular⟩ ⟨some demoKey, 6, Role.Regular⟩
      (by decide) (by decide) (by decide) (by decide) (by decide)
      (fun h => absurd h.2.1 (by decide)),
    (ExecTx_sequence_monotone demoEnv demoReadAccount_AccountBytes demoAccountBytes_ne_nil
      (fun x a => demoByteSlice_ne_AccountKey a x) demoGetByteSlice_AccountKey).2
      "now" "later" (demoState 5 Role.Regular) (demoTx TxType.RemoveAccountTx 6 [] none)
      (NewResultOK (AccountKey demoAddress))
      ((demoState 5 Role.Regular).SetAccount demoEnv demoAddress ⟨some demoKey, 6, Role.Regular⟩)
      false (by decide) (by decide) (by decide) (fun h => absurd h.1 (by decide))⟩

/-- The handler `RunCreateAdminTx` never answers Unauthorized. -/
theorem RunCreateAdminTx_Code (E : Env) (state : State) (data : Bytes) :
    (RunCreateAdminTx E state data).1.Code ≠ CodeType.Unauthorized := by
  unfold RunCreateAdminTx
  split <;> simp [ErrEncodingError, NewResultOK]

/-- The handler `RunResolveTx` never answers Unauthorized. -/
theorem RunResolveTx_Code (E : Env) (now : String) (state : State) (pubKey data : Bytes) :
    (RunResolveTx E now state pubKey data).1.Code ≠ CodeType.Unauthorized := by
  unfold RunResolveTx
  split
  · simp [NewResult]
  · dsimp only
    split
    · simp [NewResult]
    · split
      · simp [ErrEncodingError]
      · split <;> simp [NewResult, NewResultOK]

/-- C5. Check mode, effect and frame: when a transaction passes basic validation, account
resolution and the sequence and signature validation (over the sign bytes for the chain
identifier of the state), `ExecTx` in check mode returns OK whatever the transaction type and
the permissions of the account are. Afterwards the registry key of the input address holds the
resolved account with its sequence number incremented by exactly 1, and every other key reads
as before: no handler effect is applied. -/
theorem ExecTx_check_mode (E : Env) (now : String) (state : State) (tx : Tx) (cid : String)
    (inAcc0 : Account)
    (hcid : state.GetChainID = some cid)
    (hvb : (E.ValidateBasic tx.Input).IsErr = false)
    (hacc : getInAcc E state tx = some (Except.ok inAcc0))
    (hval : validateInputAdvanced E inAcc0 (E.SignBytes tx cid) tx.Input = some OK) :
    ∃ state2, ExecTx E now state tx true = some (OK, state2) ∧
      state2.Get (AccountKey tx.Input.Address) =
        E.AccountBytes { inAcc0 with Sequence := inAcc0.Sequence + 1 } ∧
      (∀ key, key ≠ AccountKey tx.Input.Address → state2.Get key = state.Get key) ∧
      state2.chainID = state.chainID := by
  refine ⟨_, ExecTx_check_eq E now state tx cid inAcc0 hcid hvb hacc hval, ?_, ?_, rfl⟩
  · rw [State.Get_SetAccount, if_pos rfl]
  · intro key hkey
    rw [State.Get_SetAccount, if_neg hkey]

/-- Witness for C5: a Regular account, without the permission to create administrators, sends a
`CreateAdminTx` in check mode; the result is OK and only its own record changes. -/
theorem ExecTx_check_mode_witness :
    ∃ state2, ExecTx demoEnv "now" (demoState 5 Role.Regular)
        (demoTx TxType.CreateAdminTx 6 [0, 1, 9] none) true = some (OK, state2) ∧
      state2.Get (AccountKey (demoTx TxType.CreateAdminTx 6 [0, 1, 9] none).Input.Address) =
        demoEnv.AccountBytes
          { (⟨some demoKey, 5, Role.Regular⟩ : Account) with
            Sequence := (⟨some demoKey, 5, Role.Regular⟩ : Account).Sequence + 1 } ∧
      (∀ key, key ≠ AccountKey (demoTx TxType.CreateAdminTx 6 [0, 1, 9] none).Input.Address →
        state2.Get key = (demoState 5 Role.Regular).Get key) ∧
      state2.chainID = (demoState 5 Role.Regular).chainID :=
  ExecTx_check_mode demoEnv "now" (demoState 5 Role.Regular)
    (demoTx TxType.CreateAdminTx 6 [0, 1, 9] none) "chain" ⟨some demoKey, 5, Role.Regular⟩
    (by decide) (by decide) (by rfl) (by decide)

/-- C6. Permission gates: when a transaction passes basic validation, account resolution and the
sequence and signature validation, `ExecTx` in append mode returns a result, and the result is
Unauthorized if and only if the type is `RemoveAccountTx` and the acting account is an
administrator, or the type is `CreateAdminTx` and the acting account lacks the permission to
create administrators, or the type is `RemoveAdminTx` and the acting account is not an
administrator, or the type is `ResolveTx` and the acting account lacks the permission to
resolve. A `CreateAccountTx` and a `SubmitTx` are never Unauthorized. The acting account is
the resolved one with its sequence number incremented, as the gates see it. -/
theorem ExecTx_unauthorized_iff (E : Env) (now : String) (state : State) (tx : Tx) (cid : String)
    (inAcc0 : Account)
    (hcid : state.GetChainID = some cid)
    (hvb : (E.ValidateBasic tx.Input).IsErr = false)
    (hacc : getInAcc E state tx = some (Except.ok inAcc0))
    (hval : validateInputAdvanced E inAcc0 (E.SignBytes tx cid) tx.Input = some OK) :
    ∃ res state2, ExecTx E now state tx false = some (res, state2) ∧
      (res.Code = CodeType.Unauthorized ↔
        (tx.Typ = TxType.RemoveAccountTx ∧
          Account.IsAdmin { inAcc0 with Sequence := inAcc0.Sequence + 1 } = true) ∨
        (tx.Typ = TxType.CreateAdminTx ∧
          E.PermissionToCreateAdmin { inAcc0 with Sequence := inAcc0.Sequence + 1 } = false) ∨
        (tx.Typ = TxType.RemoveAdminTx ∧
          Account.IsAdmin { inAcc0 with Sequence := inAcc0.Sequence + 1 } = false) ∨
        (tx.Typ = TxType.ResolveTx ∧
          E.PermissionToResolve { inAcc0 with Sequence := inAcc0.Sequence + 1 } = false)) ∧
      (tx.Typ = TxType.CreateAccountTx ∨ tx.Typ = TxType.SubmitTx →
        res.Code ≠ CodeType.Unauthorized) := by
  obtain ⟨_, _, pk, hpk, _⟩ := validateInputAdvanced_ok_inv E inAcc0 _ tx.Input OK hval (by decide)
  rw [ExecTx_append_eq E now state tx cid inAcc0 hcid hvb hacc hval]
  have hpk2 : ({ inAcc0 with Sequence := inAcc0.Sequence + 1 } : Account).PubKey = some pk := hpk
  generalize ({ inAcc0 with Sequence := inAcc0.Sequence + 1 } : Account) = inAcc at hpk2 ⊢
  obtain ⟨res, s2, hout⟩ := appendOutcome_isSome E now state tx inAcc pk hpk2
  refine ⟨res, s2, hout, ?_⟩
  unfold appendOutcome at hout
  cases htyp : tx.Typ with
  | CreateAccountTx =>
    simp only [htyp, Option.some.injEq, Prod.mk.injEq] at hout
    obtain ⟨rfl, _⟩ := hout
    simp [OK]
  | RemoveAccountTx =>
    by_cases hadm : inAcc.IsAdmin = true
    · simp only [htyp, hadm, if_true, Option.some.injEq, Prod.mk.injEq] at hout
      obtain ⟨rfl, _⟩ := hout
      simp [ErrUnauthorized, hadm]
    · simp only [htyp, hadm, Bool.false_eq_true, if_false, Option.some.injEq,
        Prod.mk.injEq] at hout
      obtain ⟨rfl, _⟩ := hout
      simp [NewResultOK, hadm]
  | CreateAdminTx =>
    by_cases hp : E.PermissionToCreateAdmin inAcc = true
    · simp only [htyp, hp, Bool.not_true, Bool.false_eq_true, if_false, Option.some.injEq] at hout
      have hres : res = (RunCreateAdminTx E (state.SetAccount E tx.Input.Address inAcc)
          tx.Data).1 := by
        rw [← keepIfOK_fst state, hout]
      have := RunCreateAdminTx_Code E (state.SetAccount E tx.Input.Address inAcc) tx.Data
      rw [← hres] at this
      simp [this, hp]
    · simp only [htyp, hp, Bool.not_false, if_true, Option.some.injEq, Prod.mk.injEq] at hout
      obtain ⟨rfl, _⟩ := hout
      simp [ErrUnauthorized, hp]
  | RemoveAdminTx =>
    by_cases hadm : inAcc.IsAdmin = true
    · simp only [htyp, hadm, Bool.not_true, Bool.false_eq_true, if_false, Option.some.injEq,
        Prod.mk.injEq] at hout
      obtain ⟨rfl, _⟩ := hout
      simp [NewResultOK, hadm]
    · simp only [htyp, hadm, Bool.not_false, if_true, Option.some.injEq, Prod.mk.injEq] at hout
      obtain ⟨rfl, _⟩ := hout
      simp [ErrUnauthorized, hadm]
  | SubmitTx =>
    cases hf : E.ReadForm tx.Data with
    | none =>
      simp only [htyp, hf, Option.some.injEq, Prod.mk.injEq] at hout
      obtain ⟨rfl, _⟩ := hout
      simp [ErrEncodingError]
    | some form =>
      simp only [htyp, hf, Option.some.injEq, Prod.mk.injEq] at hout
      obtain ⟨rfl, _⟩ := hout
      simp [NewResultOK]
  | ResolveTx =>
    by_cases hp : E.PermissionToResolve inAcc = true
    · simp only [htyp, hp, hpk2, Bool.not_true, Bool.false_eq_true, if_false,
        Option.some.injEq] at hout
      have hres : res = (RunResolveTx E now (state.SetAccount E tx.Input.Address inAcc) pk
          tx.Data).1 := by
        rw [← keepIfOK_fst state, hout]
      have := RunResolveTx_Code E now (state.SetAccount E tx.Input.Address inAcc) pk tx.Data
      rw [← hres] at this
      simp [this, hp]
    · simp only [htyp, hp, Bool.not_false, if_true, Option.some.injEq, Prod.mk.injEq] at hout
      obtain ⟨rfl, _⟩ := hout
      simp [ErrUnauthorized, hp]
  | Unknown t =>
    simp only [htyp, Option.some.injEq, Prod.mk.injEq] at hout
    obtain ⟨rfl, _⟩ := hout
    simp [ErrUnknownRequest]

/-- Witness for C6: an administrator sends a `RemoveAccountTx`; the result is Unauthorized. -/
theorem ExecTx_unauthorized_iff_witness :
    (ExecTx demoEnv "now" (demoState 5 Role.Admin)
        (demoTx TxType.RemoveAccountTx 6 [] none) false).map (fun r => r.1.Code) =
      some CodeType.Unauthorized ∧
    ∃ res state2, ExecTx demoEnv "now" (demoState 5 Role.Admin)
        (demoTx TxType.RemoveAccountTx 6 [] none) false = some (res, state2) ∧
      (res.Code = CodeType.Unauthorized ↔
        ((demoTx TxType.RemoveAccountTx 6 [] none).Typ = TxType.RemoveAccountTx ∧
          Account.IsAdmin { (⟨some demoKey, 5, Role.Admin⟩ : Account) with
            Sequence := (⟨some demoKey, 5, Role.Admin⟩ : Account).Sequence + 1 } = true) ∨
        ((demoTx TxType.RemoveAccountTx 6 [] none).Typ = TxType.CreateAdminTx ∧
          demoEnv.PermissionToCreateAdmin { (⟨some demoKey, 5, Role.Admin⟩ : Account) with
            Sequence := (⟨some demoKey, 5, Role.Admin⟩ : Account).Sequence + 1 } = false) ∨
        ((demoTx TxType.RemoveAccountTx 6 [] none).Typ = TxType.RemoveAdminTx ∧
          Account.IsAdmin { (⟨some demoKey, 5, Role.Admin⟩ : Account) with
            Sequence := (⟨some demoKey, 5, Role.Admin⟩ : Account).Sequence + 1 } = false) ∨
        ((demoTx TxType.RemoveAccountTx 6 [] none).Typ = TxType.ResolveTx ∧
          demoEnv.PermissionToResolve { (⟨some demoKey, 5, Role.Admin⟩ : Account) with
            Sequence := (⟨some demoKey, 5, Role.Admin⟩ : Account).Sequence + 1 } = false)) ∧
      ((demoTx TxType.RemoveAccountTx 6 [] none).Typ = TxType.CreateAccountTx ∨
          (demoTx TxType.RemoveAccountTx 6 [] none).Typ = TxType.SubmitTx →
        res.Code ≠ CodeType.Unauthorized) :=
  ⟨by decide,
    ExecTx_unauthorized_iff demoEnv "now" (demoState 5 Role.Admin)
      (demoTx TxType.RemoveAccountTx 6 [] none) "chain" ⟨some demoKey, 5, Role.Admin⟩
      (by decide) (by decide) (by rfl) (by decide)⟩

/-- The values that a transaction from a stored account is validated with: the steps of `ExecTx`
before the handlers pass, and the acting account is the stored one under the acting key with
its sequence number incremented. -/
theorem ExecTx_append_stored (E : Env) (now : String) (state : State) (tx : Tx) (A : Account)
    (pubKey : Bytes)
    (hcid : state.chainID ≠ "")
    (htyp : tx.Typ ≠ TxType.CreateAccountTx)
    (hvb : (E.ValidateBasic tx.Input).IsErr = false)
    (hget : state.GetAccount E tx.Input.Address = some (some A))
    (hseq : tx.Input.Sequence = A.Sequence + 1)
    (hkey : (withInputPubKey A tx.Input).PubKey = some pubKey)
    (hsig : E.VerifyBytes pubKey (E.SignBytes tx state.chainID) tx.Input.Signature = true) :
    ExecTx E now state tx false =
      appendOutcome E now state tx ⟨some pubKey, A.Sequence + 1, A.Role⟩ := by
  have hval := validateInputAdvanced_ok E (withInputPubKey A tx.Input)
    (E.SignBytes tx state.chainID) tx.Input pubKey
    (by rw [withInputPubKey_Sequence]; exact hseq) hkey hsig
  have heq := ExecTx_append_eq E now state tx state.chainID (withInputPubKey A tx.Input)
    (GetChainID_of_ne state hcid) hvb (getInAcc_stored E state tx A htyp hget) hval
  have hacc : ({ withInputPubKey A tx.Input with
      Sequence := (withInputPubKey A tx.Input).Sequence + 1 } : Account) =
      ⟨some pubKey, A.Sequence + 1, A.Role⟩ := by
    simp only [withInputPubKey_Sequence, withInputPubKey_Role, hkey]
  rw [hacc] at heq
  exact heq

/-- C7, counterexample. A Regular account with sequence number 2 sends a `RemoveAccountTx` with
sequence number 3 and a valid signature. `ExecTx` in append mode returns OK, and the account
record is not absent afterwards: `GetAccount` returns the account, with sequence number 3. -/
theorem ExecTx_remove_account_counterexample :
    (demoState 2 Role.Regular).GetAccount demoEnv demoAddress =
      some (some ⟨some demoKey, 2, Role.Regular⟩) ∧
    (ExecTx demoEnv "now" (demoState 2 Role.Regular)
        (demoTx TxType.RemoveAccountTx 3 [] none) false).map
      (fun r => (r.1.Code, r.2.GetAccount demoEnv demoAddress)) =
      some (CodeType.OK, some (some ⟨some demoKey, 3, Role.Regular⟩)) ∧
    (some (some ⟨some demoKey, 3, Role.Regular⟩) : Option (Option Account)) ≠ some none := by
  refine ⟨by decide, by decide, by decide⟩

/-- C7, amended. On a state whose chain identifier is set, a `RemoveAccountTx` from the address
of a stored Regular account, with the next sequence number and a valid signature, succeeds in
append mode: the result is OK and its data is the registry key of the address, for the caller
to remove. `ExecTx` itself removes nothing: afterwards `GetAccount` for the address returns the
account with its sequence number incremented by one, and every other key reads as before. The
account encoding is assumed to decode back and to be non-empty. -/
theorem ExecTx_remove_account (E : Env) (now : String) (state : State) (tx : Tx) (A : Account)
    (pubKey : Bytes)
    (hcid : state.chainID ≠ "")
    (htyp : tx.Typ = TxType.RemoveAccountTx)
    (hvb : (E.ValidateBasic tx.Input).IsErr = false)
    (hget : state.GetAccount E tx.Input.Address = some (some A))
    (hreg : A.IsAdmin = false)
    (hseq : tx.Input.Sequence = A.Sequence + 1)
    (hkey : (withInputPubKey A tx.Input).PubKey = some pubKey)
    (hsig : E.VerifyBytes pubKey (E.SignBytes tx state.chainID) tx.Input.Signature = true)
    (hdec : E.ReadAccount (E.AccountBytes ⟨some pubKey, A.Sequence + 1, A.Role⟩) =
      some ⟨some pubKey, A.Sequence + 1, A.Role⟩)
    (hne : E.AccountBytes ⟨some pubKey, A.Sequence + 1, A.Role⟩ ≠ []) :
    ∃ state2, ExecTx E now state tx false =
        some (NewResultOK (AccountKey tx.Input.Address), state2) ∧
      state2.GetAccount E tx.Input.Address = some (some ⟨some pubKey, A.Sequence + 1, A.Role⟩) ∧
      (∀ key, key ≠ AccountKey tx.Input.Address → state2.Get key = state.Get key) := by
  have heq := ExecTx_append_stored E now state tx A pubKey hcid (by simp [htyp]) hvb hget hseq
    hkey hsig
  have hadm : Account.IsAdmin ⟨some pubKey, A.Sequence + 1, A.Role⟩ = false := hreg
  refine ⟨state.SetAccount E tx.Input.Address ⟨some pubKey, A.Sequence + 1, A.Role⟩, ?_, ?_, ?_⟩
  · rw [heq]
    simp [appendOutcome, htyp, hadm]
  · exact GetAccount_Set_same E state.store tx.Input.Address _ hdec hne
  · intro key hk
    rw [State.Get_SetAccount, if_neg hk]

/-- Witness for C7: the Regular account with sequence number 2 and its `RemoveAccountTx`. -/
theorem ExecTx_remove_account_witness :
    ∃ state2, ExecTx demoEnv "now" (demoState 2 Role.Regular)
        (demoTx TxType.RemoveAccountTx 3 [] none) false =
        some (NewResultOK (AccountKey (demoTx TxType.RemoveAccountTx 3 [] none).Input.Address),
          state2) ∧
      state2.GetAccount demoEnv (demoTx TxType.RemoveAccountTx 3 [] none).Input.Address =
        some (some ⟨some demoKey, (2 : GoInt) + 1, Role.Regular⟩) ∧
      (∀ key, key ≠ AccountKey (demoTx TxType.RemoveAccountTx 3 [] none).Input.Address →
        state2.Get key = (demoState 2 Role.Regular).Get key) :=
  ExecTx_remove_account demoEnv "now" (demoState 2 Role.Regular)
    (demoTx TxType.RemoveAccountTx 3 [] none) ⟨some demoKey, 2, Role.Regular⟩ demoKey
    (by decide) (by decide) (by decide) (by decide) (by decide) (by decide) (by decide)
    (by decide) (by decide) (by decide)

/-- C8. A second resolve is refused. On a state whose chain identifier is set, let the
value stored under a form key decode to a form whose status is already Resolved, and let a
`ResolveTx` name that key, from a stored account with the permission to resolve, the next
sequence number and a valid signature. Then `ExecTx` in append mode returns
FormAlreadyResolved, and the bytes stored under the key afterwards are the bytes stored
before: resolver and time of the first resolution are kept. A form key is a well-formed
length-prefixed form identifier and not the registry key of the acting account. -/
theorem ExecTx_resolve_again (E : Env) (now : String) (state : State) (tx : Tx) (A : Account)
    (pubKey : Bytes) (form : Form)
    (hcid : state.chainID ≠ "")
    (htyp : tx.Typ = TxType.ResolveTx)
    (hvb : (E.ValidateBasic tx.Input).IsErr = false)
    (hget : state.GetAccount E tx.Input.Address = some (some A))
    (hseq : tx.Input.Sequence = A.Sequence + 1)
    (hkey : (withInputPubKey A tx.Input).PubKey = some pubKey)
    (hsig : E.VerifyBytes pubKey (E.SignBytes tx state.chainID) tx.Input.Signature = true)
    (hperm : E.PermissionToResolve ⟨some pubKey, A.Sequence + 1, A.Role⟩ = true)
    (hwf : (E.GetByteSlice tx.Data).isSome = true)
    (hns : tx.Data ≠ AccountKey tx.Input.Address)
    (hstored : state.Get tx.Data ≠ [])
    (hform : E.ReadForm (state.Get tx.Data) = some form)
    (hres : form.Status = Status.Resolved) :
    ∃ state2, ExecTx E now state tx false =
        some (NewResult CodeType.ErrFormAlreadyResolved [], state2) ∧
      state2.Get tx.Data = state.Get tx.Data ∧
      E.ReadForm (state2.Get tx.Data) = some form := by
  have heq := ExecTx_append_stored E now state tx A pubKey hcid (by simp [htyp]) hvb hget hseq
    hkey hsig
  refine ⟨state, ?_, rfl, hform⟩
  rw [heq]
  obtain ⟨sn, hsn⟩ := Option.isSome_iff_exists.mp hwf
  have hread : (state.SetAccount E tx.Input.Address
      ⟨some pubKey, A.Sequence + 1, A.Role⟩).Get tx.Data = state.Get tx.Data := by
    rw [State.Get_SetAccount, if_neg hns]
  have hlen : ¬ (state.Get tx.Data).length = 0 := by
    simpa [List.length_eq_zero] using hstored
  simp [appendOutcome, htyp, hperm, keepIfOK, RunResolveTx, hsn, hread, hlen, hform,
    Form.Resolve, hres, NewResult, Result.IsOK]

/-- Witness for C8: an administrator with sequence number 5 resolves a form that is stored as
resolved. -/
theorem ExecTx_resolve_again_witness :
    ∃ state2, ExecTx demoEnv "now" (demoStateWithForm 5 Role.Admin [2, 1, 0, 4, 4])
        (demoTx TxType.ResolveTx 6 [0, 2, 4, 4] none) false =
        some (NewResult CodeType.ErrFormAlreadyResolved [], state2) ∧
      state2.Get (demoTx TxType.ResolveTx 6 [0, 2, 4, 4] none).Data =
        (demoStateWithForm 5 Role.Admin [2, 1, 0, 4, 4]).Get
          (demoTx TxType.ResolveTx 6 [0, 2, 4, 4] none).Data ∧
      demoEnv.ReadForm (state2.Get (demoTx TxType.ResolveTx 6 [0, 2, 4, 4] none).Data) =
        some ⟨"issue", [4, 4], Status.Resolved, "", ""⟩ :=
  ExecTx_resolve_again demoEnv "now" (demoStateWithForm 5 Role.Admin [2, 1, 0, 4, 4])
    (demoTx TxType.ResolveTx 6 [0, 2, 4, 4] none) ⟨some demoKey, 5, Role.Admin⟩ demoKey
    ⟨"issue", [4, 4], Status.Resolved, "", ""⟩
    (by decide) (by decide) (by decide) (by decide) (by decide) (by decide) (by decide)
    (by decide) (by decide) (by decide) (by decide) (by decide) (by decide)

/-- C9, counterexample. An administrator submits a form, resolves it, and submits the same
payload again, each time with the next sequence number and a valid signature. All three
transactions return OK. After the second one the value stored under the form key decodes to a
form with status Resolved; after the third one it decodes to a form with status Submitted. -/
theorem ExecTx_resolved_stays_counterexample :
    (ExecTx demoEnv "now" (demoState 5 Role.Admin)
        (demoTx TxType.SubmitTx 6 [2, 0, 0, 4, 4] none) false).bind
      (fun r1 => (ExecTx demoEnv "later" r1.2
          (demoTx TxType.ResolveTx 7 [0, 2, 4, 4] none) false).bind
        (fun r2 => (ExecTx demoEnv "last" r2.2
            (demoTx TxType.SubmitTx 8 [2, 0, 0, 4, 4] none) false).map
          (fun r3 => (r1.1.Code, r2.1.Code,
            (demoEnv.ReadForm (r2.2.Get [0, 2, 4, 4])).map (fun f => f.Status),
            r3.1.Code,
            (demoEnv.ReadForm (r3.2.Get [0, 2, 4, 4])).map (fun f => f.Status))))) =
      some (CodeType.OK, CodeType.OK, some Status.Resolved, CodeType.OK,
        some Status.Submitted) := by
  decide

/-- C9, amended. Let the value stored under a form key, a key that is no registry key, decode
to a form with status Resolved. After `ExecTx` with any transaction in any mode the same bytes
are stored under that key, so they still decode to that Resolved form, unless the transaction
is a `SubmitTx` in append mode whose payload decodes to a form with that very form key. -/
theorem ExecTx_resolved_stays (E : Env) (now : String) (state : State) (tx : Tx)
    (isCheckTx : Bool) (res : Result) (state2 : State) (key : Bytes) (form : Form)
    (h : ExecTx E now state tx isCheckTx = some (res, state2))
    (hkey : ∀ a, key ≠ AccountKey a)
    (hform : E.ReadForm (state.Get key) = some form)
    (hres : form.Status = Status.Resolved)
    (hnot : ¬ (isCheckTx = false ∧ tx.Typ = TxType.SubmitTx ∧
      ∃ g, E.ReadForm tx.Data = some g ∧ E.ByteSlice (E.FormID g) = key)) :
    state2.Get key = state.Get key ∧ E.ReadForm (state2.Get key) = some form := by
  have hget : state2.Get key = state.Get key := by
    obtain ⟨_, hcases⟩ := ExecTx_Get E now state tx isCheckTx res state2 h key
    rcases hcases with hg | ⟨hk, _⟩ | ⟨_, _, _, secret, n, _, hk⟩ |
      ⟨hm, _, ht, g, hgf, hk, _⟩ | ⟨_, _, _, _, hk, g, inAcc, hgf, hst⟩
    · exact hg
    · exact absurd hk (hkey _)
    · exact absurd hk (hkey _)
    · exact absurd ⟨hm, ht, g, hgf, hk.symm⟩ hnot
    · exfalso
      rw [← hk, State.Get_SetAccount, if_neg (hkey _), hform] at hgf
      simp only [Option.some.injEq] at hgf
      rw [← hgf] at hst
      exact hst hres
  exact ⟨hget, by rw [hget]; exact hform⟩

/-- Witness for C9: a resolved form is stored; an administrator submits a form with another
payload, which is written under another key, and the resolved form stays as it is. -/
theorem ExecTx_resolved_stays_witness :
    (((demoStateWithForm 5 Role.Admin [2, 1, 0, 4, 4]).SetAccount demoEnv demoAddress
        ⟨some demoKey, 6, Role.Admin⟩).Set [0, 1, 9] [2, 0, 0, 9]).Get [0, 2, 4, 4] =
      (demoStateWithForm 5 Role.Admin [2, 1, 0, 4, 4]).Get [0, 2, 4, 4] ∧
    demoEnv.ReadForm ((((demoStateWithForm 5 Role.Admin [2, 1, 0, 4, 4]).SetAccount demoEnv
        demoAddress ⟨some demoKey, 6, Role.Admin⟩).Set [0, 1, 9] [2, 0, 0, 9]).Get
          [0, 2, 4, 4]) =
      some ⟨"issue", [4, 4], Status.Resolved, "", ""⟩ :=
  ExecTx_resolved_stays demoEnv "now" (demoStateWithForm 5 Role.Admin [2, 1, 0, 4, 4])
    (demoTx TxType.SubmitTx 6 [2, 0, 0, 9] none) false
    (NewResultOK [5, 0, 4, 2, 0, 0, 9])
    (((demoStateWithForm 5 Role.Admin [2, 1, 0, 4, 4]).SetAccount demoEnv demoAddress
        ⟨some demoKey, 6, Role.Admin⟩).Set [0, 1, 9] [2, 0, 0, 9]) [0, 2, 4, 4]
    ⟨"issue", [4, 4], Status.Resolved, "", ""⟩
    (by decide) (fun a => by simp [AccountKey]) (by decide) (by decide)
    (fun hn => by
      obtain ⟨_, _, g, hg, hk⟩ := hn
      have hval : demoEnv.ReadForm (demoTx TxType.SubmitTx 6 [2, 0, 0, 9] none).Data =
          some ⟨"issue", [9], Status.Submitted, "", ""⟩ := by decide
      rw [hval] at hg
      cases hg
      revert hk
      decide)

/-- C10, counterexample. A `SubmitTx` with valid sequence number and signature whose payload
decodes to a form with status Resolved returns OK, and the bytes stored under the key of the
form decode to a form with status Resolved, not Submitted. -/
theorem ExecTx_submit_round_trip_counterexample :
    (demoEnv.ReadForm (demoTx TxType.SubmitTx 6 [2, 1, 0, 4, 4] none).Data).map
      (fun f => (f.Status, demoEnv.ByteSlice (demoEnv.FormID f))) =
      some (Status.Resolved, [0, 2, 4, 4]) ∧
    (ExecTx demoEnv "now" (demoState 5 Role.Regular)
        (demoTx TxType.SubmitTx 6 [2, 1, 0, 4, 4] none) false).map
      (fun r => (r.1.Code, (demoEnv.ReadForm (r.2.Get [0, 2, 4, 4])).map (fun f => f.Status))) =
      some (CodeType.OK, some Status.Resolved) ∧
    Status.Resolved ≠ Status.Submitted := by
  refine ⟨by decide, by decide, by decide⟩

/-- C10, amended. Submit round trip. On a state whose chain identifier is set, let a `SubmitTx`
from a stored account carry the next sequence number and a valid signature, and let its data
decode to a form `f`. Then `ExecTx` in append mode returns OK with the tag of the transaction
type and the length-prefixed encoding of `f` as data, and looking up the length-prefixed
identifier of `f` in the resulting state returns the submitted data, which decode to `f`: all
payload fields are those of `f`, and the status is the one that the payload carries, Submitted
when `f` has status Submitted. -/
theorem ExecTx_submit_round_trip (E : Env) (now : String) (state : State) (tx : Tx)
    (A : Account) (pubKey : Bytes) (f : Form)
    (hcid : state.chainID ≠ "")
    (htyp : tx.Typ = TxType.SubmitTx)
    (hvb : (E.ValidateBasic tx.Input).IsErr = false)
    (hget : state.GetAccount E tx.Input.Address = some (some A))
    (hseq : tx.Input.Sequence = A.Sequence + 1)
    (hkey : (withInputPubKey A tx.Input).PubKey = some pubKey)
    (hsig : E.VerifyBytes pubKey (E.SignBytes tx state.chainID) tx.Input.Signature = true)
    (hform : E.ReadForm tx.Data = some f) :
    ∃ state2, ExecTx E now state tx false =
        some (NewResultOK (E.Tag TxType.SubmitTx :: E.ByteSlice (E.FormBytes f)), state2) ∧
      state2.Get (E.ByteSlice (E.FormID f)) = tx.Data ∧
      E.ReadForm (state2.Get (E.ByteSlice (E.FormID f))) = some f ∧
      (f.Status = Status.Submitted →
        (E.ReadForm (state2.Get (E.ByteSlice (E.FormID f)))).map (fun g => g.Status) =
          some Status.Submitted) := by
  have heq := ExecTx_append_stored E now state tx A pubKey hcid (by simp [htyp]) hvb hget hseq
    hkey hsig
  have hread : ((state.SetAccount E tx.Input.Address ⟨some pubKey, A.Sequence + 1, A.Role⟩).Set
      (E.ByteSlice (E.FormID f)) tx.Data).Get (E.ByteSlice (E.FormID f)) = tx.Data := by
    simp [State.Get, State.Set, Store.Get_Set]
  refine ⟨_, ?_, hread, ?_, ?_⟩
  · rw [heq]
    simp [appendOutcome, htyp, hform]
  · rw [hread]; exact hform
  · intro hs
    rw [hread, hform]
    simp [hs]

/-- Witness for C10: a Regular account with sequence number 5 submits a form with payload
fields `[4, 4]`. -/
theorem ExecTx_submit_round_trip_witness :
    ∃ state2, ExecTx demoEnv "now" (demoState 5 Role.Regular)
        (demoTx TxType.SubmitTx 6 [2, 0, 0, 4, 4] none) false =
        some (NewResultOK (demoEnv.Tag TxType.SubmitTx ::
          demoEnv.ByteSlice (demoEnv.FormBytes ⟨"issue", [4, 4], Status.Submitted, "", ""⟩)),
          state2) ∧
      state2.Get (demoEnv.ByteSlice (demoEnv.FormID ⟨"issue", [4, 4], Status.Submitted, "", ""⟩)) =
        (demoTx TxType.SubmitTx 6 [2, 0, 0, 4, 4] none).Data ∧
      demoEnv.ReadForm (state2.Get
          (demoEnv.ByteSlice (demoEnv.FormID ⟨"issue", [4, 4], Status.Submitted, "", ""⟩))) =
        some ⟨"issue", [4, 4], Status.Submitted, "", ""⟩ ∧
      ((⟨"issue", [4, 4], Status.Submitted, "", ""⟩ : Form).Status = Status.Submitted →
        (demoEnv.ReadForm (state2.Get
          (demoEnv.ByteSlice (demoEnv.FormID ⟨"issue", [4, 4], Status.Submitted, "", ""⟩)))).map
            (fun g => g.Status) = some Status.Submitted) :=
  ExecTx_submit_round_trip demoEnv "now" (demoState 5 Role.Regular)
    (demoTx TxType.SubmitTx 6 [2, 0, 0, 4, 4] none) ⟨some demoKey, 5, Role.Regular⟩ demoKey
    ⟨"issue", [4, 4], Status.Submitted, "", ""⟩
    (by decide) (by decide) (by decide) (by decide) (by decide) (by decide) (by decide)
    (by decide)

/-! ## Determinism -/

/-- The handler `RunResolveTx` reads the clock only through `ToTheMinute`. -/
theorem RunResolveTx_clock (E : Env) (now1 now2 : String) (state : State) (pubKey data : Bytes)
    (h : E.ToTheMinute now1 = E.ToTheMinute now2) :
    RunResolveTx E now1 state pubKey data = RunResolveTx E now2 state pubKey data := by
  unfold RunResolveTx
  rw [h]

/-- The switch of `ExecTx` reads the clock only in the `ResolveTx` case. -/
theorem runTx_clock (E : Env) (now1 now2 : String) (cacheState : State) (tx : Tx)
    (inAcc : Account)
    (h : tx.Typ ≠ TxType.ResolveTx ∨ E.ToTheMinute now1 = E.ToTheMinute now2) :
    runTx E now1 cacheState tx inAcc = runTx E now2 cacheState tx inAcc := by
  unfold runTx
  cases htyp : tx.Typ with
  | ResolveTx =>
    rcases h with h | h
    · exact absurd htyp h
    · simp only [RunResolveTx_clock E now1 now2 _ _ _ h]
  | _ => rfl

/-- C11, counterexample. An administrator resolves a stored form; the same state and the same
transaction are executed at two clock readings. Both executions return OK, and neither the
data of the results nor the bytes stored under the form key afterwards are the same. -/
theorem ExecTx_deterministic_counterexample :
    (ExecTx demoEnv "now" (demoStateWithForm 5 Role.Admin [2, 0, 0, 4, 4])
        (demoTx TxType.ResolveTx 6 [0, 2, 4, 4] none) false).map
      (fun r => (r.1, r.2.Get [0, 2, 4, 4])) =
      some (NewResultOK [6, 0, 8, 2, 1, 3, 110, 111, 119, 4, 4],
        [2, 1, 3, 110, 111, 119, 4, 4]) ∧
    (ExecTx demoEnv "later" (demoStateWithForm 5 Role.Admin [2, 0, 0, 4, 4])
        (demoTx TxType.ResolveTx 6 [0, 2, 4, 4] none) false).map
      (fun r => (r.1, r.2.Get [0, 2, 4, 4])) =
      some (NewResultOK [6, 0, 10, 2, 1, 5, 108, 97, 116, 101, 114, 4, 4],
        [2, 1, 5, 108, 97, 116, 101, 114, 4, 4]) ∧
    ExecTx demoEnv "now" (demoStateWithForm 5 Role.Admin [2, 0, 0, 4, 4])
        (demoTx TxType.ResolveTx 6 [0, 2, 4, 4] none) false ≠
      ExecTx demoEnv "later" (demoStateWithForm 5 Role.Admin [2, 0, 0, 4, 4])
        (demoTx TxType.ResolveTx 6 [0, 2, 4, 4] none) false := by
  refine ⟨by decide, by decide, by decide⟩

/-- C11, amended. Determinism of the state-transition function up to the clock minute of a
resolve. For every state, transaction and mode, the result and the resulting state of `ExecTx`
are the same at two clock readings whenever the transaction is not a `ResolveTx`, or the mode
is check mode, or the two readings fall into the same minute: the outcome is determined by the
state, the transaction and the mode, and for a `ResolveTx` in append mode also by the clock
reading truncated to the minute. -/
theorem ExecTx_deterministic (E : Env) (now1 now2 : String) (state : State) (tx : Tx)
    (isCheckTx : Bool)
    (h : tx.Typ ≠ TxType.ResolveTx ∨ isCheckTx = true ∨
      E.ToTheMinute now1 = E.ToTheMinute now2) :
    ExecTx E now1 state tx isCheckTx = ExecTx E now2 state tx isCheckTx := by
  cases isCheckTx with
  | true => simp [ExecTx]
  | false =>
    have hrun : ∀ cacheState inAcc,
        runTx E now1 cacheState tx inAcc = runTx E now2 cacheState tx inAcc := by
      intro cacheState inAcc
      apply runTx_clock
      rcases h with h | h | h
      · exact Or.inl h
      · exact absurd h (by decide)
      · exact Or.inr h
    unfold ExecTx
    simp only [hrun]

/-- Witness for C11: a `SubmitTx` executed at two clock readings, and a `ResolveTx` executed
twice at the same clock reading. -/
theorem ExecTx_deterministic_witness :
    ExecTx demoEnv "now" (demoState 5 Role.Regular)
        (demoTx TxType.SubmitTx 6 [2, 0, 0, 4, 4] none) false =
      ExecTx demoEnv "later" (demoState 5 Role.Regular)
        (demoTx TxType.SubmitTx 6 [2, 0, 0, 4, 4] none) false ∧
    ExecTx demoEnv "now" (demoStateWithForm 5 Role.Admin [2, 0, 0, 4, 4])
        (demoTx TxType.ResolveTx 6 [0, 2, 4, 4] none) false =
      ExecTx demoEnv "now" (demoStateWithForm 5 Role.Admin [2, 0, 0, 4, 4])
        (demoTx TxType.ResolveTx 6 [0, 2, 4, 4] none) false :=
  ⟨ExecTx_deterministic demoEnv "now" "later" (demoState 5 Role.Regular)
      (demoTx TxType.SubmitTx 6 [2, 0, 0, 4, 4] none) false (Or.inl (by decide)),
    ExecTx_deterministic demoEnv "now" "now" (demoStateWithForm 5 Role.Admin [2, 0, 0, 4, 4])
      (demoTx TxType.ResolveTx 6 [0, 2, 4, 4] none) false (Or.inr (Or.inr rfl))⟩

/-! ## `MerkleApp`: framing -/

theorem IAVLTree.Get_Set_same (tree : IAVLTree) (key value : Bytes) :
    (tree.Set key value).Get key = some value := by
  simp [IAVLTree.Set, IAVLTree.Get, List.lookup]

theorem IAVLTree.lookup_filter_ne (kv : List (Bytes × Bytes)) (key key2 : Bytes)
    (h : key2 ≠ key) :
    (kv.filter (fun entry => decide (entry.1 ≠ key))).lookup key2 = kv.lookup key2 := by
  induction kv with
  | nil => rfl
  | cons entry rest ih =>
    obtain ⟨k, v⟩ := entry
    by_cases hk : k = key
    · subst hk
      have h2 : (key2 == k) = false := by simpa using h
      rw [List.filter_cons_of_neg (by simp), ih]
      simp [List.lookup, h2]
    · rw [List.filter_cons_of_pos (by simpa using hk)]
      by_cases hk2 : key2 = k
      · subst hk2
        simp [List.lookup]
      · have h2 : (key2 == k) = false := by simpa using hk2
        simp only [List.lookup, h2, ih]

theorem IAVLTree.Get_Set_other (tree : IAVLTree) (key value key2 : Bytes) (h : key2 ≠ key) :
    (tree.Set key value).Get key2 = tree.Get key2 := by
  have h2 : (key2 == key) = false := by simpa using h
  simp only [IAVLTree.Set, IAVLTree.Get, List.lookup, h2]
  exact IAVLTree.lookup_filter_ne tree.kv key key2 h

theorem sliceFrom_of_le (bz : Bytes) (n : Nat) (h : n ≤ bz.length) :
    sliceFrom bz n = some (bz.drop n) := by
  simp [sliceFrom, h]

/-- Whatever `AppendTx` returns, either it is EncodingError and the application is as it was,
or it is OK, the input is two fields with nothing left over, and the pair was set. -/
theorem MerkleApp.AppendTx_inv (E : Env) (merk : MerkleApp) (txBytes : Bytes) (res : Result)
    (merk2 : MerkleApp) (h : MerkleApp.AppendTx E merk txBytes = some (res, merk2)) :
    (res = ErrEncodingError ∧ merk2 = merk) ∨
    (res = OK ∧ txBytes ≠ [] ∧ ∃ key n value n1, E.GetByteSlice txBytes = some (key, n) ∧
      E.GetByteSlice (txBytes.drop n) = some (value, n1) ∧ (txBytes.drop n).drop n1 = [] ∧
      merk2 = ⟨merk.tree.Set key value⟩) := by
  by_cases hlen : txBytes.length = 0
  · simp [MerkleApp.AppendTx, hlen] at h
    exact Or.inl ⟨h.1.symm, h.2.symm⟩
  · cases hg : E.GetByteSlice txBytes with
    | none =>
      simp [MerkleApp.AppendTx, hlen, hg] at h
      exact Or.inl ⟨h.1.symm, h.2.symm⟩
    | some kn =>
      obtain ⟨key, n⟩ := kn
      by_cases hn : n ≤ txBytes.length
      · cases hg1 : E.GetByteSlice (txBytes.drop n) with
        | none =>
          simp [MerkleApp.AppendTx, hlen, hg, sliceFrom, hn, hg1] at h
          exact Or.inl ⟨h.1.symm, h.2.symm⟩
        | some vn =>
          obtain ⟨value, n1⟩ := vn
          by_cases hn1 : n1 ≤ (txBytes.drop n).length
          · by_cases hrest : ((txBytes.drop n).drop n1).length = 0
            · simp only [MerkleApp.AppendTx, hlen, if_false, hg, sliceFrom, hn, if_true, hg1,
                hn1, hrest, ne_eq, not_true_eq_false, Option.some.injEq, Prod.mk.injEq] at h
              refine Or.inr ⟨h.1.symm, ?_, key, n, value, n1, rfl, hg1, ?_, h.2.symm⟩
              · intro he; exact hlen (by simp [he])
              · exact List.length_eq_zero.mp hrest
            · simp only [MerkleApp.AppendTx, hlen, if_false, hg, sliceFrom, hn, if_true, hg1,
                hn1, hrest, ne_eq, not_false_eq_true, Option.some.injEq, Prod.mk.injEq] at h
              exact Or.inl ⟨h.1.symm, h.2.symm⟩
          · simp only [MerkleApp.AppendTx, hlen, if_false, hg, sliceFrom, hn, if_true, hg1,
              hn1] at h
            exact absurd h (by simp)
      · simp only [MerkleApp.AppendTx, hlen, if_false, hg, sliceFrom, hn] at h
        exact absurd h (by simp)

/-- On two fields with nothing left over `AppendTx` sets the pair and returns OK. -/
theorem MerkleApp.AppendTx_framed (E : Env) (merk : MerkleApp) (txBytes : Bytes)
    (key value : Bytes) (n n1 : Nat)
    (hcons : ∀ bz x m, E.GetByteSlice bz = some (x, m) → m ≤ bz.length)
    (hne : txBytes ≠ [])
    (hg : E.GetByteSlice txBytes = some (key, n))
    (hg1 : E.GetByteSlice (txBytes.drop n) = some (value, n1))
    (hrest : (txBytes.drop n).drop n1 = []) :
    MerkleApp.AppendTx E merk txBytes = some (OK, ⟨merk.tree.Set key value⟩) := by
  have hlen : ¬ txBytes.length = 0 := by simpa [List.length_eq_zero] using hne
  have hn := hcons _ _ _ hg
  have hn1 := hcons _ _ _ hg1
  have hr : ((txBytes.drop n).drop n1).length = 0 := by rw [hrest]; rfl
  simp only [MerkleApp.AppendTx, hlen, if_false, hg, sliceFrom, hn, if_true, hg1, hn1, hr,
    ne_eq, not_true_eq_false]

/-- When the reader of fields never consumes more than it was given, `AppendTx` returns. -/
theorem MerkleApp.AppendTx_isSome (E : Env) (merk : MerkleApp) (txBytes : Bytes)
    (hcons : ∀ bz x m, E.GetByteSlice bz = some (x, m) → m ≤ bz.length) :
    ∃ res merk2, MerkleApp.AppendTx E merk txBytes = some (res, merk2) := by
  by_cases hlen : txBytes.length = 0
  · simp only [MerkleApp.AppendTx, hlen, if_true]
    exact ⟨_, _, rfl⟩
  · cases hg : E.GetByteSlice txBytes with
    | none =>
      simp only [MerkleApp.AppendTx, hlen, if_false, hg]
      exact ⟨_, _, rfl⟩
    | some kn =>
      obtain ⟨key, n⟩ := kn
      have hn := hcons _ _ _ hg
      cases hg1 : E.GetByteSlice (txBytes.drop n) with
      | none =>
        simp only [MerkleApp.AppendTx, hlen, if_false, hg, sliceFrom, hn, if_true, hg1]
        exact ⟨_, _, rfl⟩
      | some vn =>
        obtain ⟨value, n1⟩ := vn
        have hn1 := hcons _ _ _ hg1
        by_cases hrest : ((txBytes.drop n).drop n1).length = 0
        · simp only [MerkleApp.AppendTx, hlen, if_false, hg, sliceFrom, hn, if_true, hg1, hn1,
            hrest, ne_eq, not_true_eq_false]
          exact ⟨_, _, rfl⟩
        · simp only [MerkleApp.AppendTx, hlen, if_false, hg, sliceFrom, hn, if_true, hg1, hn1,
            hrest, ne_eq, not_false_eq_true]
          exact ⟨_, _, rfl⟩

/-- The method `CheckTx` returns what `AppendTx` returns, with the application as it was. -/
theorem MerkleApp.CheckTx_eq (E : Env) (merk : MerkleApp) (txBytes : Bytes) :
    MerkleApp.CheckTx E merk txBytes =
      (MerkleApp.AppendTx E merk txBytes).map (fun r => (r.1, merk)) := by
  by_cases hlen : txBytes.length = 0
  · simp [MerkleApp.CheckTx, MerkleApp.AppendTx, hlen]
  · cases hg : E.GetByteSlice txBytes with
    | none => simp [MerkleApp.CheckTx, MerkleApp.AppendTx, hlen, hg]
    | some kn =>
      obtain ⟨key, n⟩ := kn
      by_cases hn : n ≤ txBytes.length
      · cases hg1 : E.GetByteSlice (txBytes.drop n) with
        | none => simp [MerkleApp.CheckTx, MerkleApp.AppendTx, hlen, hg, sliceFrom, hn, hg1]
        | some vn =>
          obtain ⟨value, n1⟩ := vn
          by_cases hn1 : n1 ≤ (txBytes.drop n).length
          · by_cases hrest : ((txBytes.drop n).drop n1).length = 0
            · simp only [MerkleApp.CheckTx, MerkleApp.AppendTx, hlen, if_false, hg, sliceFrom,
                hn, if_true, hg1, hn1, hrest, ne_eq, not_true_eq_false, Option.map_some']
            · simp only [MerkleApp.CheckTx, MerkleApp.AppendTx, hlen, if_false, hg, sliceFrom,
                hn, if_true, hg1, hn1, hrest, ne_eq, not_false_eq_true, Option.map_some']
          · simp only [MerkleApp.CheckTx, MerkleApp.AppendTx, hlen, if_false, hg, sliceFrom,
              hn, if_true, hg1, hn1, Option.map_none']
      · simp only [MerkleApp.CheckTx, MerkleApp.AppendTx, hlen, if_false, hg, sliceFrom, hn,
          Option.map_none']

/-- The outcome of `AppendTx` in terms of the framing of its input. The reader of fields is
assumed to consume no more than it was given and to find no field in an empty buffer. -/
theorem MerkleApp.AppendTx_spec (E : Env) (merk : MerkleApp) (txBytes : Bytes)
    (hcons : ∀ bz x m, E.GetByteSlice bz = some (x, m) → m ≤ bz.length)
    (hnil : E.GetByteSlice [] = none) :
    ∃ res merk2, MerkleApp.AppendTx E merk txBytes = some (res, merk2) ∧
      (res = OK ∨ (res = ErrEncodingError ∧ merk2 = merk)) ∧
      (res.Code = CodeType.OK ↔ ∃ key n value n1, E.GetByteSlice txBytes = some (key, n) ∧
        E.GetByteSlice (txBytes.drop n) = some (value, n1) ∧ (txBytes.drop n).drop n1 = []) ∧
      (∀ key n value n1, E.GetByteSlice txBytes = some (key, n) →
        E.GetByteSlice (txBytes.drop n) = some (value, n1) → (txBytes.drop n).drop n1 = [] →
        merk2 = ⟨merk.tree.Set key value⟩) := by
  obtain ⟨res, merk2, h⟩ := MerkleApp.AppendTx_isSome E merk txBytes hcons
  have hframed : ∀ key n value n1, E.GetByteSlice txBytes = some (key, n) →
      E.GetByteSlice (txBytes.drop n) = some (value, n1) → (txBytes.drop n).drop n1 = [] →
      res = OK ∧ merk2 = ⟨merk.tree.Set key value⟩ := by
    intro key n value n1 hg hg1 hrest
    have hne : txBytes ≠ [] := by
      intro he
      rw [he, hnil] at hg
      exact absurd hg (by simp)
    rw [MerkleApp.AppendTx_framed E merk txBytes key value n n1 hcons hne hg hg1 hrest] at h
    simp only [Option.some.injEq, Prod.mk.injEq] at h
    exact ⟨h.1.symm, h.2.symm⟩
  refine ⟨res, merk2, h, ?_, ?_, fun key n value n1 hg hg1 hrest =>
    (hframed key n value n1 hg hg1 hrest).2⟩
  · rcases MerkleApp.AppendTx_inv E merk txBytes res merk2 h with hl | hr
    · exact Or.inr hl
    · exact Or.inl hr.1
  · constructor
    · intro hcode
      rcases MerkleApp.AppendTx_inv E merk txBytes res merk2 h with hl | hr
      · rw [hl.1] at hcode
        exact absurd hcode (by decide)
      · obtain ⟨_, _, key, n, value, n1, hg, hg1, hrest, _⟩ := hr
        exact ⟨key, n, value, n1, hg, hg1, hrest⟩
    · rintro ⟨key, n, value, n1, hg, hg1, hrest⟩
      rw [(hframed key n value n1 hg hg1 hrest).1]
      rfl

/-- The reader of fields of `demoEnv` consumes no more than it was given. -/
theorem demoGetByteSlice_le (bz x : Bytes) (m : Nat)
    (h : demoEnv.GetByteSlice bz = some (x, m)) : m ≤ bz.length := by
  simp only [demoEnv] at h
  unfold demoGetByteSlice at h
  split at h
  · rename_i n rest
    split at h
    · simp only [Option.some.injEq, Prod.mk.injEq] at h
      simp only [List.length_cons]
      omega
    · exact absurd h (by simp)
  · exact absurd h (by simp)

/-- C12. Strict framing of `MerkleApp` transactions. For every byte string, `AppendTx` returns
OK if and only if the bytes are exactly two well-formed length-prefixed fields, the key and then
the value, with no bytes left over; in every other case it returns EncodingError. On OK the
tree maps the decoded key to the decoded value. A well-formed field is one that
`wire.GetByteSlice` reads; the reader is assumed to consume no more than it was given and to
find no field in an empty buffer. -/
theorem MerkleApp_AppendTx_framing (E : Env) (merk : MerkleApp) (txBytes : Bytes)
    (hcons : ∀ bz x m, E.GetByteSlice bz = some (x, m) → m ≤ bz.length)
    (hnil : E.GetByteSlice [] = none) :
    ∃ res merk2, MerkleApp.AppendTx E merk txBytes = some (res, merk2) ∧
      (res.Code = CodeType.OK ↔ ∃ key n value n1, E.GetByteSlice txBytes = some (key, n) ∧
        E.GetByteSlice (txBytes.drop n) = some (value, n1) ∧ (txBytes.drop n).drop n1 = []) ∧
      (res.Code ≠ CodeType.OK → res.Code = CodeType.EncodingError) ∧
      (∀ key n value n1, E.GetByteSlice txBytes = some (key, n) →
        E.GetByteSlice (txBytes.drop n) = some (value, n1) → (txBytes.drop n).drop n1 = [] →
        merk2.tree.Get key = some value) := by
  obtain ⟨res, merk2, h, hres, hiff, hset⟩ := MerkleApp.AppendTx_spec E merk txBytes hcons hnil
  refine ⟨res, merk2, h, hiff, ?_, ?_⟩
  · intro hcode
    rcases hres with hok | herr
    · rw [hok] at hcode
      exact absurd rfl hcode
    · rw [herr.1]
      rfl
  · intro key n value n1 hg hg1 hrest
    rw [hset key n value n1 hg hg1 hrest]
    exact IAVLTree.Get_Set_same merk.tree key value

/-- Witness for C12: the key `[5]` and the value `[6, 7]`, framed, are appended to a new
application. -/
theorem MerkleApp_AppendTx_framing_witness :
    MerkleApp.AppendTx demoEnv NewMerkleApp [0, 1, 5, 0, 2, 6, 7] =
      some (OK, ⟨⟨[([5], [6, 7])]⟩⟩) ∧
    ∃ res merk2, MerkleApp.AppendTx demoEnv NewMerkleApp [0, 1, 5, 0, 2, 6, 7] =
        some (res, merk2) ∧
      (res.Code = CodeType.OK ↔ ∃ key n value n1,
        demoEnv.GetByteSlice [0, 1, 5, 0, 2, 6, 7] = some (key, n) ∧
        demoEnv.GetByteSlice (([0, 1, 5, 0, 2, 6, 7] : Bytes).drop n) = some (value, n1) ∧
        (([0, 1, 5, 0, 2, 6, 7] : Bytes).drop n).drop n1 = []) ∧
      (res.Code ≠ CodeType.OK → res.Code = CodeType.EncodingError) ∧
      (∀ key n value n1, demoEnv.GetByteSlice [0, 1, 5, 0, 2, 6, 7] = some (key, n) →
        demoEnv.GetByteSlice (([0, 1, 5, 0, 2, 6, 7] : Bytes).drop n) = some (value, n1) →
        (([0, 1, 5, 0, 2, 6, 7] : Bytes).drop n).drop n1 = [] →
        merk2.tree.Get key = some value) :=
  ⟨by decide,
    MerkleApp_AppendTx_framing demoEnv NewMerkleApp [0, 1, 5, 0, 2, 6, 7] demoGetByteSlice_le
      (by decide)⟩

/-- C13. When `AppendTx` returns EncodingError, the tree is unchanged: the application is the
one from before the call, every key reads back the same value, and `Commit` returns the same
result as before. The zero-length transaction is such an input. -/
theorem MerkleApp_AppendTx_error (E : Env) (merk : MerkleApp) (txBytes : Bytes) (res : Result)
    (merk2 : MerkleApp)
    (h : MerkleApp.AppendTx E merk txBytes = some (res, merk2))
    (herr : res.Code = CodeType.EncodingError) :
    merk2 = merk ∧ (∀ key, merk2.tree.Get key = merk.tree.Get key) ∧
      (∀ hash, MerkleApp.Commit hash merk2 = MerkleApp.Commit hash merk) ∧
      MerkleApp.AppendTx E merk [] = some (ErrEncodingError, merk) := by
  have heq : merk2 = merk := by
    rcases MerkleApp.AppendTx_inv E merk txBytes res merk2 h with hl | hr
    · exact hl.2
    · rw [hr.1] at herr
      exact absurd herr (by decide)
  subst heq
  exact ⟨rfl, fun _ => rfl, fun _ => rfl, rfl⟩

/-- Witness for C13: a transaction with a byte left over is refused, and the entry that the
tree held stays. -/
theorem MerkleApp_AppendTx_error_witness :
    (⟨⟨[([5], [6, 7])]⟩⟩ : MerkleApp) = ⟨⟨[([5], [6, 7])]⟩⟩ ∧
      (∀ key, (⟨⟨[([5], [6, 7])]⟩⟩ : MerkleApp).tree.Get key =
        (⟨⟨[([5], [6, 7])]⟩⟩ : MerkleApp).tree.Get key) ∧
      (∀ hash, MerkleApp.Commit hash ⟨⟨[([5], [6, 7])]⟩⟩ =
        MerkleApp.Commit hash ⟨⟨[([5], [6, 7])]⟩⟩) ∧
      MerkleApp.AppendTx demoEnv ⟨⟨[([5], [6, 7])]⟩⟩ [] =
        some (ErrEncodingError, ⟨⟨[([5], [6, 7])]⟩⟩) :=
  MerkleApp_AppendTx_error demoEnv ⟨⟨[([5], [6, 7])]⟩⟩ [0, 1, 5, 0, 1, 9, 8] ErrEncodingError
    ⟨⟨[([5], [6, 7])]⟩⟩ (by decide) (by decide)

/-! ## `MerkleApp`: query, commit and check -/

/-- The method `Query` on one field with nothing left over looks the decoded key up. -/
theorem MerkleApp.Query_framed (E : Env) (merk : MerkleApp) (query key : Bytes)
    (hne : query ≠ [])
    (hg : E.GetByteSlice query = some (key, query.length)) :
    MerkleApp.Query E merk query =
      if ((merk.tree.Get key).getD []).length = 0 then
        some (NewResult CodeType.ErrValueNotFound [])
      else some (NewResultOK ((merk.tree.Get key).getD [])) := by
  have hlen : ¬ query.length = 0 := by simpa [List.length_eq_zero] using hne
  simp only [MerkleApp.Query, hlen, if_false, hg, sliceFrom, le_refl, if_true,
    List.drop_length, List.length_nil, ne_eq, not_true_eq_false]

/-- C14, counterexample. The framed pair of the key `[5]` and the empty value is appended to a
new application and `AppendTx` returns OK; the key is present in the tree afterwards, with the
empty value. `Query` of the framed key returns the not-found code, not OK with the value. -/
theorem MerkleApp_Query_counterexample :
    MerkleApp.AppendTx demoEnv NewMerkleApp [0, 1, 5, 0, 0] = some (OK, ⟨⟨[([5], [])]⟩⟩) ∧
    (⟨⟨[([5], [])]⟩⟩ : MerkleApp).tree.Get [5] = some [] ∧
    demoEnv.GetByteSlice [0, 1, 5] = some ([5], 3) ∧
    MerkleApp.Query demoEnv ⟨⟨[([5], [])]⟩⟩ [0, 1, 5] =
      some (NewResult CodeType.ErrValueNotFound []) ∧
    NewResult CodeType.ErrValueNotFound [] ≠ NewResultOK [] := by
  refine ⟨by decide, by decide, by decide, by decide, by decide⟩

/-- C14, amended. `Query` returns the stored value or the not-found code. Let the query be one
well-formed length-prefixed field that decodes to the key `k`, with no bytes left over. Then
`Query` returns OK with the value stored under `k` when `k` is present with a value that is not
empty, and the not-found code `ErrValueNotFound` when `k` is absent, and also when the value
stored under `k` is empty. In particular after a successful `AppendTx` of the framed pair of
`k` and a value `v` that is not empty, `Query` returns OK with data `v`. -/
theorem MerkleApp_Query (E : Env) (merk : MerkleApp) (query key : Bytes)
    (hne : query ≠ [])
    (hg : E.GetByteSlice query = some (key, query.length)) :
    (∀ value, merk.tree.Get key = some value → value ≠ [] →
      MerkleApp.Query E merk query = some (NewResultOK value)) ∧
    (merk.tree.Get key = none →
      MerkleApp.Query E merk query = some (NewResult CodeType.ErrValueNotFound [])) ∧
    (merk.tree.Get key = some [] →
      MerkleApp.Query E merk query = some (NewResult CodeType.ErrValueNotFound [])) ∧
    (∀ (merk0 merk2 : MerkleApp) (txBytes value : Bytes) (n n1 : Nat),
      E.GetByteSlice txBytes = some (key, n) →
      E.GetByteSlice (txBytes.drop n) = some (value, n1) →
      MerkleApp.AppendTx E merk0 txBytes = some (OK, merk2) →
      value ≠ [] →
      MerkleApp.Query E merk2 query = some (NewResultOK value)) := by
  have hq := fun m => MerkleApp.Query_framed E m query key hne hg
  refine ⟨?_, ?_, ?_, ?_⟩
  · intro value hv hvne
    have hl : ¬ value.length = 0 := by simpa [List.length_eq_zero] using hvne
    rw [hq, hv]
    simp [hl]
  · intro hv
    rw [hq, hv]
    simp
  · intro hv
    rw [hq, hv]
    simp
  · intro merk0 merk2 txBytes value n n1 hgk hgv happ hvne
    have hl : ¬ value.length = 0 := by simpa [List.length_eq_zero] using hvne
    rcases MerkleApp.AppendTx_inv E merk0 txBytes OK merk2 happ with hl2 | hr
    · exact absurd hl2.1 (by decide)
    · obtain ⟨_, _, key2, m, value2, m1, hg2, hg3, _, hm⟩ := hr
      rw [hgk] at hg2
      simp only [Option.some.injEq, Prod.mk.injEq] at hg2
      obtain ⟨hk, hm2⟩ := hg2
      subst hk hm2
      rw [hgv] at hg3
      simp only [Option.some.injEq, Prod.mk.injEq] at hg3
      obtain ⟨hv2, _⟩ := hg3
      subst hv2 hm
      rw [hq, IAVLTree.Get_Set_same]
      simp [hl]

/-- Witness for C14: the value `[9]` is appended under the key `[5]` and queried. -/
theorem MerkleApp_Query_witness :
    MerkleApp.Query demoEnv ⟨⟨[([5], [9])]⟩⟩ [0, 1, 5] = some (NewResultOK [9]) ∧
    MerkleApp.Query demoEnv NewMerkleApp [0, 1, 5] =
      some (NewResult CodeType.ErrValueNotFound []) :=
  ⟨(MerkleApp_Query demoEnv NewMerkleApp [0, 1, 5] [5] (by decide) (by decide)).2.2.2
      NewMerkleApp ⟨⟨[([5], [9])]⟩⟩ [0, 1, 5, 0, 1, 9] [9] 3 3
      (by decide) (by decide) (by decide) (by decide),
    (MerkleApp_Query demoEnv NewMerkleApp [0, 1, 5] [5] (by decide) (by decide)).2.1
      (by decide)⟩

/-- C15. `Commit` on a store with no entries returns an OK result whose data is empty: no hash
bytes, no error. That is so for a new application, and for a new application on which
`AppendTx` or `CheckTx` returned an error; `Query` only reads the tree. On a store
with at least one entry `Commit` returns OK with the hash of the tree. -/
theorem MerkleApp_Commit (hash : IAVLTree → Bytes) (merk : MerkleApp) :
    MerkleApp.Commit hash NewMerkleApp = NewResultOK [] ∧
    (merk.tree.Size = 0 → MerkleApp.Commit hash merk = NewResultOK []) ∧
    (merk.tree.Size ≠ 0 → MerkleApp.Commit hash merk = NewResultOK (hash merk.tree)) ∧
    (∀ (E : Env) (txBytes : Bytes) (res : Result) (merk2 : MerkleApp),
      merk.tree.Size = 0 →
      (MerkleApp.AppendTx E merk txBytes = some (res, merk2) ∨
        MerkleApp.CheckTx E merk txBytes = some (res, merk2)) →
      res.IsErr = true → MerkleApp.Commit hash merk2 = NewResultOK []) := by
  refine ⟨rfl, ?_, ?_, ?_⟩
  · intro h
    simp [MerkleApp.Commit, h]
  · intro h
    simp [MerkleApp.Commit, h]
  · intro E txBytes res merk2 hsize hrun herr
    have heq : merk2 = merk := by
      rcases hrun with h | h
      · rcases MerkleApp.AppendTx_inv E merk txBytes res merk2 h with hl | hr
        · exact hl.2
        · rw [hr.1] at herr
          exact absurd herr (by decide)
      · rw [MerkleApp.CheckTx_eq] at h
        cases happ : MerkleApp.AppendTx E merk txBytes with
        | none => rw [happ] at h; exact absurd h (by simp)
        | some r =>
          rw [happ] at h
          simp only [Option.map_some', Option.some.injEq, Prod.mk.injEq] at h
          exact h.2.symm
    subst heq
    simp [MerkleApp.Commit, hsize]

/-- Witness for C15: a new application after a refused transaction, and a tree with one
entry. -/
theorem MerkleApp_Commit_witness :
    MerkleApp.Commit demoHash NewMerkleApp = NewResultOK [] ∧
    MerkleApp.Commit demoHash ⟨⟨[([5], [6, 7])]⟩⟩ =
      NewResultOK (demoHash (⟨⟨[([5], [6, 7])]⟩⟩ : MerkleApp).tree) :=
  ⟨(MerkleApp_Commit demoHash NewMerkleApp).2.2.2 demoEnv [0, 1] ErrEncodingError NewMerkleApp
      (by decide) (Or.inl (by decide)) (by decide),
    (MerkleApp_Commit demoHash ⟨⟨[([5], [6, 7])]⟩⟩).2.2.1 (by decide)⟩

/-- C20. `CheckTx` is the validation part of `AppendTx`. For every application and every byte
string, `CheckTx` returns the result that `AppendTx` returns on that application: OK exactly
for two well-formed length-prefixed fields with no bytes left over, EncodingError otherwise.
`CheckTx` leaves the tree unchanged in every case. The reader of fields is assumed to consume
no more than it was given and to find no field in an empty buffer. -/
theorem MerkleApp_CheckTx_refines (E : Env) (merk : MerkleApp) (txBytes : Bytes)
    (hcons : ∀ bz x m, E.GetByteSlice bz = some (x, m) → m ≤ bz.length)
    (hnil : E.GetByteSlice [] = none) :
    ∃ res, MerkleApp.CheckTx E merk txBytes = some (res, merk) ∧
      (MerkleApp.AppendTx E merk txBytes).map (fun r => r.1) = some res ∧
      (res.Code = CodeType.OK ↔ ∃ key n value n1, E.GetByteSlice txBytes = some (key, n) ∧
        E.GetByteSlice (txBytes.drop n) = some (value, n1) ∧ (txBytes.drop n).drop n1 = []) ∧
      (res.Code ≠ CodeType.OK → res.Code = CodeType.EncodingError) := by
  obtain ⟨res, merk2, h, hres, hiff, _⟩ := MerkleApp.AppendTx_spec E merk txBytes hcons hnil
  refine ⟨res, ?_, ?_, hiff, ?_⟩
  · rw [MerkleApp.CheckTx_eq, h]
    rfl
  · rw [h]
    rfl
  · intro hcode
    rcases hres with hok | herr
    · rw [hok] at hcode
      exact absurd rfl hcode
    · rw [herr.1]
      rfl

/-- Witness for C20: a framed pair, checked on a tree with one entry. -/
theorem MerkleApp_CheckTx_refines_witness :
    MerkleApp.CheckTx demoEnv ⟨⟨[([5], [6, 7])]⟩⟩ [0, 1, 5, 0, 1, 9] =
      some (OK, ⟨⟨[([5], [6, 7])]⟩⟩) ∧
    ∃ res, MerkleApp.CheckTx demoEnv ⟨⟨[([5], [6, 7])]⟩⟩ [0, 1, 5, 0, 1, 9] =
        some (res, ⟨⟨[([5], [6, 7])]⟩⟩) ∧
      (MerkleApp.AppendTx demoEnv ⟨⟨[([5], [6, 7])]⟩⟩ [0, 1, 5, 0, 1, 9]).map (fun r => r.1) =
        some res ∧
      (res.Code = CodeType.OK ↔ ∃ key n value n1,
        demoEnv.GetByteSlice [0, 1, 5, 0, 1, 9] = some (key, n) ∧
        demoEnv.GetByteSlice (([0, 1, 5, 0, 1, 9] : Bytes).drop n) = some (value, n1) ∧
        (([0, 1, 5, 0, 1, 9] : Bytes).drop n).drop n1 = []) ∧
      (res.Code ≠ CodeType.OK → res.Code = CodeType.EncodingError) :=
  ⟨by decide,
    MerkleApp_CheckTx_refines demoEnv ⟨⟨[([5], [6, 7])]⟩⟩ [0, 1, 5, 0, 1, 9]
      demoGetByteSlice_le (by decide)⟩

/-! ## The registry and the application: the remaining claims -/

/-- C18. Account registry keying. `AccountKey` of an address is the bytes of `"base/a/"`
followed by the raw address bytes, and it is injective. Consequently, for every store,
addresses `a` and `b` and account `acc`: after `SetAccount` at `a`, `GetAccount` at `a` returns
`acc`, given that decoding the encoding of `acc` gives `acc` back and that the encoding is not
empty; and for `b` different from `a`, `GetAccount` at `b` returns what it returned before. -/
theorem AccountKey_registry (E : Env) (store : Store) (a b : Bytes) (acc : Account)
    (hdec : E.ReadAccount (E.AccountBytes acc) = some acc)
    (hne : E.AccountBytes acc ≠ []) :
    AccountKey a = "base/a/".toList.map Char.toNat ++ a ∧
    (AccountKey a = AccountKey b → a = b) ∧
    GetAccount E (SetAccount E store a acc) a = some (some acc) ∧
    (b ≠ a → GetAccount E (SetAccount E store a acc) b = GetAccount E store b) := by
  refine ⟨rfl, AccountKey_injective a b, ?_, ?_⟩
  · exact GetAccount_Set_same E store a acc hdec hne
  · intro hba
    exact GetAccount_Set_other E store b _ _ (fun hk => hba (AccountKey_injective _ _ hk))

/-- Witness for C18: an account is set at the example address of a state that holds another
record there; an address that differs reads as before. -/
theorem AccountKey_registry_witness :
    AccountKey demoAddress = "base/a/".toList.map Char.toNat ++ demoAddress ∧
    (AccountKey demoAddress = AccountKey [1, 2] → demoAddress = [1, 2]) ∧
    GetAccount demoEnv (SetAccount demoEnv (demoState 5 Role.Regular).store demoAddress
        ⟨some demoKey, 9, Role.Admin⟩) demoAddress = some (some ⟨some demoKey, 9, Role.Admin⟩) ∧
    (([1, 2] : Bytes) ≠ demoAddress →
      GetAccount demoEnv (SetAccount demoEnv (demoState 5 Role.Regular).store demoAddress
        ⟨some demoKey, 9, Role.Admin⟩) [1, 2] =
      GetAccount demoEnv (demoState 5 Role.Regular).store [1, 2]) :=
  AccountKey_registry demoEnv (demoState 5 Role.Regular).store demoAddress [1, 2]
    ⟨some demoKey, 9, Role.Admin⟩ (by decide) (by decide)

/-- The outcome of a `CreateAdminTx` whose data hold a length-prefixed secret. -/
theorem appendOutcome_CreateAdmin_some (E : Env) (now : String) (state : State) (tx : Tx)
    (inAcc : Account) (secret : Bytes) (n : Nat)
    (htyp : tx.Typ = TxType.CreateAdminTx)
    (hg : E.GetByteSlice tx.Data = some (secret, n)) :
    appendOutcome E now state tx inAcc =
      if E.PermissionToCreateAdmin inAcc = true then
        some (NewResultOK (E.ByteSlice (E.CreateKeys secret).1 ++
            E.ByteSlice (E.CreateKeys secret).2),
          (state.SetAccount E tx.Input.Address inAcc).SetAccount E
            (E.Address (E.CreateKeys secret).1) (NewAdmin (E.CreateKeys secret).1))
      else some (ErrUnauthorized, state) := by
  by_cases hp : E.PermissionToCreateAdmin inAcc = true
  · simp [appendOutcome, htyp, hp, keepIfOK, RunCreateAdminTx, hg, NewResultOK, Result.IsOK]
  · simp [appendOutcome, htyp, hp]

/-- The outcome of a `CreateAdminTx` whose data hold no length-prefixed field. -/
theorem appendOutcome_CreateAdmin_none (E : Env) (now : String) (state : State) (tx : Tx)
    (inAcc : Account)
    (htyp : tx.Typ = TxType.CreateAdminTx)
    (hg : E.GetByteSlice tx.Data = none) :
    appendOutcome E now state tx inAcc =
      if E.PermissionToCreateAdmin inAcc = true then some (ErrEncodingError, state)
      else some (ErrUnauthorized, state) := by
  by_cases hp : E.PermissionToCreateAdmin inAcc = true
  · simp [appendOutcome, htyp, hp, keepIfOK, RunCreateAdminTx, hg, ErrEncodingError,
      Result.IsOK]
  · simp [appendOutcome, htyp, hp]

theorem State.Get_SetAccount_same (E : Env) (state : State) (addr : Bytes) (acc : Account) :
    (state.SetAccount E addr acc).Get (AccountKey addr) = E.AccountBytes acc := by
  rw [State.Get_SetAccount, if_pos rfl]

/-- A `CreateAdminTx` that returns OK returns the two keys derived from its secret and leaves the
new administrator under the registry key of the derived address. -/
theorem ExecTx_CreateAdmin_ok (E : Env) (now : String) (state : State) (tx : Tx) (res : Result)
    (state2 : State) (secret : Bytes) (n : Nat)
    (h : ExecTx E now state tx false = some (res, state2))
    (htyp : tx.Typ = TxType.CreateAdminTx) (hok : res.IsOK = true)
    (hg : E.GetByteSlice tx.Data = some (secret, n)) :
    res = NewResultOK (E.ByteSlice (E.CreateKeys secret).1 ++ E.ByteSlice (E.CreateKeys secret).2) ∧
    state2.Get (AccountKey (E.Address (E.CreateKeys secret).1)) =
      E.AccountBytes (NewAdmin (E.CreateKeys secret).1) := by
  rcases ExecTx_inv E now state tx false res state2 h with hl | ⟨cid, inAcc0, h1, h2, h3, h4⟩
  · have := hl.1
    simp [Result.IsErr_eq_not_IsOK, hok] at this
  · rw [ExecTx_append_eq E now state tx cid inAcc0 h1 h2 h3 h4,
      appendOutcome_CreateAdmin_some E now state tx _ secret n htyp hg] at h
    split at h
    · simp only [Option.some.injEq, Prod.mk.injEq] at h
      obtain ⟨hr, hs⟩ := h
      subst hr hs
      exact ⟨rfl, State.Get_SetAccount_same E _ _ _⟩
    · simp only [Option.some.injEq, Prod.mk.injEq] at h
      rw [← h.1] at hok
      exact absurd hok (by decide)

/-- C16, counterexample. The data `[0, 1, 9, 1, 2, 3]` are the length-prefixed field of the
secret `[9]` followed by three more bytes: they are not the length-prefixed encoding of any
byte string, and `wire.GetByteSlice` reads the secret `[9]` off their first three bytes. A
`CreateAdminTx` with these data from an administrator with the next sequence number and a valid
signature does not return EncodingError: `ExecTx` in append mode returns OK with the two keys
derived from `[9]`, and the new administrator is stored at the address derived from its public
key. -/
theorem ExecTx_create_admin_counterexample :
    (∀ s, demoEnv.ByteSlice s ≠ [0, 1, 9, 1, 2, 3]) ∧
    demoEnv.GetByteSlice [0, 1, 9, 1, 2, 3] = some ([9], 3) ∧
    (3 : Nat) < ([0, 1, 9, 1, 2, 3] : Bytes).length ∧
    (ExecTx demoEnv "now" (demoState 5 Role.Admin)
        (demoTx TxType.CreateAdminTx 6 [0, 1, 9, 1, 2, 3] none) false).map
      (fun r => (r.1, r.2.GetAccount demoEnv (demoEnv.Address [9]))) =
      some (NewResultOK [0, 1, 9, 0, 2, 0, 9], some (some ⟨some [9], 0, Role.Admin⟩)) ∧
    (ExecTx demoEnv "now" (demoState 5 Role.Admin)
        (demoTx TxType.CreateAdminTx 6 [0, 1, 9, 1, 2, 3] none) false).map
      (fun r => r.1.Code) ≠ some CodeType.EncodingError := by
  refine ⟨?_, by decide, by decide, by decide, by decide⟩
  intro s h
  simp only [demoEnv, demoByteSlice, List.cons.injEq, true_and] at h
  obtain ⟨h1, h2⟩ := h
  rw [h2] at h1
  simp at h1

/-- C16, amended. `CreateAdminTx` postcondition. On a state whose chain identifier is set, let a
`CreateAdminTx` come from a stored account that holds the permission to create administrators,
with the next sequence number and a valid signature. When its data begin with a well-formed
length-prefixed secret, one that `wire.GetByteSlice` reads off the front of the data, whatever
bytes follow it, `ExecTx` in append mode returns OK with the length-prefixed public key
followed by the length-prefixed private key derived from the secret as data, and afterwards the
new administrator account with that public key is stored at the address derived from that
public key. Any successful `CreateAdminTx` with the same secret, on any state, has the same
result data and leaves the same record at the same address. When `wire.GetByteSlice` reads no
length-prefixed field off the front of the data, the result is EncodingError and the state is
the one from before the call. -/
theorem ExecTx_create_admin (E : Env) (now : String) (state : State) (tx : Tx) (A : Account)
    (pubKey : Bytes)
    (hcid : state.chainID ≠ "")
    (htyp : tx.Typ = TxType.CreateAdminTx)
    (hvb : (E.ValidateBasic tx.Input).IsErr = false)
    (hget : state.GetAccount E tx.Input.Address = some (some A))
    (hseq : tx.Input.Sequence = A.Sequence + 1)
    (hkey : (withInputPubKey A tx.Input).PubKey = some pubKey)
    (hsig : E.VerifyBytes pubKey (E.SignBytes tx state.chainID) tx.Input.Signature = true)
    (hperm : E.PermissionToCreateAdmin ⟨some pubKey, A.Sequence + 1, A.Role⟩ = true) :
    (∀ secret n, E.GetByteSlice tx.Data = some (secret, n) →
      ∃ state2, ExecTx E now state tx false =
          some (NewResultOK (E.ByteSlice (E.CreateKeys secret).1 ++
            E.ByteSlice (E.CreateKeys secret).2), state2) ∧
        state2.Get (AccountKey (E.Address (E.CreateKeys secret).1)) =
          E.AccountBytes (NewAdmin (E.CreateKeys secret).1) ∧
        (E.ReadAccount (E.AccountBytes (NewAdmin (E.CreateKeys secret).1)) =
            some (NewAdmin (E.CreateKeys secret).1) →
          E.AccountBytes (NewAdmin (E.CreateKeys secret).1) ≠ [] →
          state2.GetAccount E (E.Address (E.CreateKeys secret).1) =
            some (some (NewAdmin (E.CreateKeys secret).1))) ∧
        (NewAdmin (E.CreateKeys secret).1).PubKey = some (E.CreateKeys secret).1 ∧
        (NewAdmin (E.CreateKeys secret).1).IsAdmin = true) ∧
    (E.GetByteSlice tx.Data = none →
      ExecTx E now state tx false = some (ErrEncodingError, state)) ∧
    (∀ (now2 : String) (stateB : State) (txB : Tx) (resB : Result) (stateB2 : State)
        (secret : Bytes) (n : Nat),
      ExecTx E now2 stateB txB false = some (resB, stateB2) →
      txB.Typ = TxType.CreateAdminTx → resB.IsOK = true →
      E.GetByteSlice txB.Data = some (secret, n) →
      resB.Data = E.ByteSlice (E.CreateKeys secret).1 ++ E.ByteSlice (E.CreateKeys secret).2 ∧
      stateB2.Get (AccountKey (E.Address (E.CreateKeys secret).1)) =
        E.AccountBytes (NewAdmin (E.CreateKeys secret).1)) := by
  have heq := ExecTx_append_stored E now state tx A pubKey hcid (by simp [htyp]) hvb hget hseq
    hkey hsig
  refine ⟨?_, ?_, ?_⟩
  · intro secret n hg
    rw [heq, appendOutcome_CreateAdmin_some E now state tx _ secret n htyp hg, if_pos hperm]
    refine ⟨_, rfl, State.Get_SetAccount_same E _ _ _, ?_, rfl, rfl⟩
    intro hdec hne
    exact GetAccount_Set_same E _ _ _ hdec hne
  · intro hg
    rw [heq, appendOutcome_CreateAdmin_none E now state tx _ htyp hg, if_pos hperm]
  · intro now2 stateB txB resB stateB2 secret n h htypB hok hg
    obtain ⟨hr, hs⟩ := ExecTx_CreateAdmin_ok E now2 stateB txB resB stateB2 secret n h htypB hok hg
    exact ⟨by rw [hr]; rfl, hs⟩

/-- Witness for C16: an administrator with sequence number 5 creates an administrator from the
secret `[9]`; with the data `[3]`, off which no field is read, the result is EncodingError. -/
theorem ExecTx_create_admin_witness :
    (ExecTx demoEnv "now" (demoState 5 Role.Admin)
        (demoTx TxType.CreateAdminTx 6 [0, 1, 9] none) false).map
      (fun r => (r.1, r.2.GetAccount demoEnv (demoEnv.Address [9]))) =
      some (NewResultOK [0, 1, 9, 0, 2, 0, 9], some (some ⟨some [9], 0, Role.Admin⟩)) ∧
    ExecTx demoEnv "now" (demoState 5 Role.Admin) (demoTx TxType.CreateAdminTx 6 [3] none) false =
      some (ErrEncodingError, demoState 5 Role.Admin) ∧
    ∃ state2, ExecTx demoEnv "now" (demoState 5 Role.Admin)
        (demoTx TxType.CreateAdminTx 6 [0, 1, 9] none) false =
        some (NewResultOK (demoEnv.ByteSlice (demoEnv.CreateKeys [9]).1 ++
          demoEnv.ByteSlice (demoEnv.CreateKeys [9]).2), state2) ∧
      state2.Get (AccountKey (demoEnv.Address (demoEnv.CreateKeys [9]).1)) =
        demoEnv.AccountBytes (NewAdmin (demoEnv.CreateKeys [9]).1) ∧
      (demoEnv.ReadAccount (demoEnv.AccountBytes (NewAdmin (demoEnv.CreateKeys [9]).1)) =
          some (NewAdmin (demoEnv.CreateKeys [9]).1) →
        demoEnv.AccountBytes (NewAdmin (demoEnv.CreateKeys [9]).1) ≠ [] →
        state2.GetAccount demoEnv (demoEnv.Address (demoEnv.CreateKeys [9]).1) =
          some (some (NewAdmin (demoEnv.CreateKeys [9]).1))) ∧
      (NewAdmin (demoEnv.CreateKeys [9]).1).PubKey = some (demoEnv.CreateKeys [9]).1 ∧
      (NewAdmin (demoEnv.CreateKeys [9]).1).IsAdmin = true :=
  ⟨by decide,
    (ExecTx_create_admin demoEnv "now" (demoState 5 Role.Admin)
      (demoTx TxType.CreateAdminTx 6 [3] none) ⟨some demoKey, 5, Role.Admin⟩ demoKey
      (by decide) (by decide) (by decide) (by decide) (by decide) (by decide) (by decide)
      (by decide)).2.1 (by decide),
    (ExecTx_create_admin demoEnv "now" (demoState 5 Role.Admin)
      (demoTx TxType.CreateAdminTx 6 [0, 1, 9] none) ⟨some demoKey, 5, Role.Admin⟩ demoKey
      (by decide) (by decide) (by decide) (by decide) (by decide) (by decide) (by decide)
      (by decide)).1 [9] 3 (by decide)⟩

/-! ## The binding of addresses and public keys -/

/-- In the example state the one account sits at the address of its key. -/
theorem demoState_bound (sequence : GoInt) (role : Role) (a : Bytes) (acc : Account) (pk : Bytes)
    (hget : (demoState sequence role).GetAccount demoEnv a = some (some acc))
    (hpk : acc.PubKey = some pk) : demoEnv.Address pk = a := by
  by_cases ha : a = demoAddress
  · subst ha
    have hread : (demoState sequence role).GetAccount demoEnv demoAddress =
        some (some ⟨some demoKey, sequence, role⟩) := by
      have h1 : (demoState sequence role).store.Get (AccountKey demoAddress) =
          demoEnv.AccountBytes ⟨some demoKey, sequence, role⟩ := by
        simp [demoState, Store.Get, List.lookup, demoEnv]
      simp only [State.GetAccount, GetAccount, h1, demoReadAccount_AccountBytes]
      simp [demoAccountBytes_ne_nil]
    rw [hread] at hget
    simp only [Option.some.injEq] at hget
    rw [← hget] at hpk
    simp only [Option.some.injEq] at hpk
    rw [← hpk]
    rfl
  · exfalso
    have hk : (AccountKey a == AccountKey demoAddress) = false := by
      simp only [beq_eq_false_iff_ne, ne_eq]
      exact fun h => ha (AccountKey_injective _ _ h)
    have h1 : (demoState sequence role).store.Get (AccountKey a) = [] := by
      simp [demoState, Store.Get, List.lookup, hk]
    simp [State.GetAccount, GetAccount, h1] at hget

/-- C19, counterexample. In the example state the one account, with key `[7]`, sits at the
address of its key. A `SubmitTx` from that address carries the key `[8]` in its input and a
signature that is valid under `[8]` and not under the stored key `[7]`; `ExecTx` returns OK,
and the record at the address then holds the key `[8]`, whose address is another one. A
`CreateAccountTx` with the key `[8]` and the address of the key `[3]` returns OK and creates a
record with the key `[8]` at the address of `[3]`. -/
theorem ExecTx_address_binding_counterexample :
    (∀ a acc pk, (demoState 5 Role.Regular).GetAccount demoEnv a = some (some acc) →
      acc.PubKey = some pk → demoEnv.Address pk = a) ∧
    demoEnv.VerifyBytes demoKey
      (demoEnv.SignBytes (demoTxWithKey [8] TxType.SubmitTx demoAddress 6 [2, 0, 0, 4, 4]) "chain")
      (demoTxWithKey [8] TxType.SubmitTx demoAddress 6 [2, 0, 0, 4, 4]).Input.Signature = false ∧
    (ExecTx demoEnv "now" (demoState 5 Role.Regular)
        (demoTxWithKey [8] TxType.SubmitTx demoAddress 6 [2, 0, 0, 4, 4]) false).map
      (fun r => (r.1.Code, r.2.GetAccount demoEnv demoAddress)) =
      some (CodeType.OK, some (some ⟨some [8], 6, Role.Regular⟩)) ∧
    demoEnv.Address [8] ≠ demoAddress ∧
    (ExecTx demoEnv "now" (demoState 5 Role.Regular)
        (demoTxWithKey [8] TxType.CreateAccountTx (demoEnv.Address [3]) 1 []) false).map
      (fun r => (r.1.Code, r.2.GetAccount demoEnv (demoEnv.Address [3]))) =
      some (CodeType.OK, some (some ⟨some [8], 1, Role.Regular⟩)) ∧
    demoEnv.Address [8] ≠ demoEnv.Address [3] := by
  refine ⟨demoState_bound 5 Role.Regular, by decide, by decide, by decide, by decide, by decide⟩

/-- C19, amended. Address and public key binding as an invariant of the `ExecTx` step relation,
for transactions whose input key, when there is one, derives the input address. If in a state
every stored account record with a public key sits under the registry key of the address
derived from that key, then after `ExecTx` with such a transaction in any mode the same
holds. `ExecTx` returns OK for a transaction without an input key on an existing account only
when the signature verifies under the public key stored for that address before the call. A
`CreateAccountTx` leaves every registry key other than that of its input address as it was. The
account encoding is assumed to decode back, and no registry key to be a length-prefixed
field. -/
theorem ExecTx_address_binding (E : Env)
    (hcodec : ∀ acc, E.ReadAccount (E.AccountBytes acc) = some acc)
    (hns1 : ∀ x a, E.ByteSlice x ≠ AccountKey a)
    (hns2 : ∀ a, E.GetByteSlice (AccountKey a) = none)
    (now : String) (state : State) (tx : Tx) (isCheckTx : Bool) (res : Result) (state2 : State)
    (h : ExecTx E now state tx isCheckTx = some (res, state2))
    (hinv : ∀ a acc pk, state.GetAccount E a = some (some acc) → acc.PubKey = some pk →
      E.Address pk = a)
    (hbind : ∀ pk, tx.Input.PubKey = some pk → E.Address pk = tx.Input.Address) :
    (∀ a acc pk, state2.GetAccount E a = some (some acc) → acc.PubKey = some pk →
      E.Address pk = a) ∧
    (res.IsOK = true → tx.Typ ≠ TxType.CreateAccountTx → tx.Input.PubKey = none →
      ∃ A pk cid, state.GetAccount E tx.Input.Address = some (some A) ∧ A.PubKey = some pk ∧
        state.GetChainID = some cid ∧
        E.VerifyBytes pk (E.SignBytes tx cid) tx.Input.Signature = true) ∧
    (tx.Typ = TxType.CreateAccountTx → ∀ a, a ≠ tx.Input.Address →
      state2.Get (AccountKey a) = state.Get (AccountKey a)) := by
  have hread : ∀ (s : State) (a : Bytes) (acc x : Account),
      s.GetAccount E a = some (some acc) → s.Get (AccountKey a) = E.AccountBytes x →
      acc = x := by
    intro s a acc x hg hb
    simp only [State.GetAccount, GetAccount, State.Get] at hg hb
    rw [hb, hcodec] at hg
    split at hg
    · exact absurd hg (by simp)
    · simp only [Option.some.injEq] at hg
      exact hg.symm
  refine ⟨?_, ?_, ?_⟩
  · intro a acc pk hget hpk
    obtain ⟨_, hcases⟩ := ExecTx_Get E now state tx isCheckTx res state2 h (AccountKey a)
    rcases hcases with hg | ⟨hk, _, cid, inAcc0, _, hacc, _, hg⟩ |
      ⟨hm, hok, ht, secret, n, hgb, hk⟩ | ⟨_, _, _, form, _, hk, _⟩ | ⟨_, _, _, hsome, hk, _⟩
    · have := GetAccount_congr E state.store state2.store a hg
      simp only [State.GetAccount] at hget hinv
      rw [this] at hget
      exact hinv a acc pk hget hpk
    · have ha := AccountKey_injective _ _ hk
      subst ha
      have hacc2 := hread state2 tx.Input.Address acc _ hget hg
      rw [hacc2] at hpk
      simp only at hpk
      unfold getInAcc at hacc
      split at hacc
      · simp only [Option.some.injEq, Except.ok.injEq] at hacc
        rw [← hacc] at hpk
        exact hbind pk hpk
      · split at hacc
        · exact absurd hacc (by simp)
        · exact absurd hacc (by simp)
        · rename_i A hA
          simp only [Option.some.injEq, Except.ok.injEq] at hacc
          rw [← hacc] at hpk
          unfold withInputPubKey at hpk
          split at hpk
          · rename_i pk2 hpk2
            simp only [Option.some.injEq] at hpk
            rw [← hpk]
            exact hbind pk2 hpk2
          · exact hinv tx.Input.Address A pk hA hpk
    · subst hm
      have hval := (ExecTx_CreateAdmin_ok E now state tx res state2 secret n h ht hok hgb).2
      rw [← hk] at hval
      have hacc2 := hread state2 a acc _ hget hval
      rw [hacc2] at hpk
      simp only [NewAdmin, Option.some.injEq] at hpk
      rw [← hpk]
      exact (AccountKey_injective _ _ hk).symm
    · exact absurd hk.symm (hns1 _ _)
    · rw [← hk, hns2] at hsome
      exact absurd hsome (by simp)
  · intro hok htyp hnokey
    rcases ExecTx_inv E now state tx isCheckTx res state2 h with hl | ⟨cid, inAcc0, h1, _, h3, h4⟩
    · have := hl.1
      simp [Result.IsErr_eq_not_IsOK, hok] at this
    · obtain ⟨_, _, pk, hpk, hsig⟩ :=
        validateInputAdvanced_ok_inv E inAcc0 _ tx.Input OK h4 (by decide)
      unfold getInAcc at h3
      rw [if_neg htyp] at h3
      split at h3
      · exact absurd h3 (by simp)
      · exact absurd h3 (by simp)
      · rename_i A hA
        simp only [Option.some.injEq, Except.ok.injEq] at h3
        have hA2 : withInputPubKey A tx.Input = A := by
          simp [withInputPubKey, hnokey]
        rw [hA2] at h3
        subst h3
        exact ⟨A, pk, cid, hA, hpk, h1, hsig⟩
  · intro htyp a ha
    obtain ⟨_, hcases⟩ := ExecTx_Get E now state tx isCheckTx res state2 h (AccountKey a)
    rcases hcases with hg | ⟨hk, _⟩ | ⟨_, _, ht, _⟩ | ⟨_, _, ht, _⟩ | ⟨_, _, ht, _⟩
    · exact hg
    · exact absurd (AccountKey_injective _ _ hk) ha
    · rw [htyp] at ht; exact absurd ht (by decide)
    · rw [htyp] at ht; exact absurd ht (by decide)
    · rw [htyp] at ht; exact absurd ht (by decide)

/-- Witness for C19: a `SubmitTx` without an input key from the example account; the binding
holds afterwards, and the signature verifies under the stored key. -/
theorem ExecTx_address_binding_witness :
    (∀ a acc pk, (((demoState 5 Role.Regular).SetAccount demoEnv demoAddress
        ⟨some demoKey, 6, Role.Regular⟩).Set [0, 2, 4, 4] [2, 0, 0, 4, 4]).GetAccount demoEnv a =
        some (some acc) → acc.PubKey = some pk → demoEnv.Address pk = a) ∧
    ((NewResultOK [5, 0, 5, 2, 0, 0, 4, 4]).IsOK = true →
      (demoTx TxType.SubmitTx 6 [2, 0, 0, 4, 4] none).Typ ≠ TxType.CreateAccountTx →
      (demoTx TxType.SubmitTx 6 [2, 0, 0, 4, 4] none).Input.PubKey = none →
      ∃ A pk cid, (demoState 5 Role.Regular).GetAccount demoEnv
          (demoTx TxType.SubmitTx 6 [2, 0, 0, 4, 4] none).Input.Address = some (some A) ∧
        A.PubKey = some pk ∧ (demoState 5 Role.Regular).GetChainID = some cid ∧
        demoEnv.VerifyBytes pk (demoEnv.SignBytes (demoTx TxType.SubmitTx 6 [2, 0, 0, 4, 4] none)
          cid) (demoTx TxType.SubmitTx 6 [2, 0, 0, 4, 4] none).Input.Signature = true) ∧
    ((demoTx TxType.SubmitTx 6 [2, 0, 0, 4, 4] none).Typ = TxType.CreateAccountTx →
      ∀ a, a ≠ (demoTx TxType.SubmitTx 6 [2, 0, 0, 4, 4] none).Input.Address →
      (((demoState 5 Role.Regular).SetAccount demoEnv demoAddress
        ⟨some demoKey, 6, Role.Regular⟩).Set [0, 2, 4, 4] [2, 0, 0, 4, 4]).Get (AccountKey a) =
      (demoState 5 Role.Regular).Get (AccountKey a)) :=
  ExecTx_address_binding demoEnv demoReadAccount_AccountBytes
    (fun x a => demoByteSlice_ne_AccountKey a x) demoGetByteSlice_AccountKey
    "now" (demoState 5 Role.Regular) (demoTx TxType.SubmitTx 6 [2, 0, 0, 4, 4] none) false
    (NewResultOK [5, 0, 5, 2, 0, 0, 4, 4])
    (((demoState 5 Role.Regular).SetAccount demoEnv demoAddress
      ⟨some demoKey, 6, Role.Regular⟩).Set [0, 2, 4, 4] [2, 0, 0, 4, 4])
    (by decide) (demoState_bound 5 Role.Regular) (fun _ hpk => Option.noConfusion hpk)

/-! ## `Application.AppendTx` and the error of `MakeForm` -/

/-- C17, the code at the failing input. For every byte string on which `MakeForm` returns an
error, `Application.CheckTx` returns an error result, while `Application.AppendTx` returns OK
and writes the raw bytes under the identifier of the form that `MakeForm` left: the error is
discarded, not returned. -/
theorem Application_AppendTx_discards_error {F : Type} (A : AppEnv F) (app : Application)
    (tx : Bytes) (herr : (A.MakeForm tx).2 = true) :
    (Application.CheckTx A tx).IsErr = true ∧
    (Application.AppendTx A app tx).1.IsOK = true ∧
    (Application.AppendTx A app tx).2.state.Get (A.FormID (A.MakeForm tx).1) = some tx := by
  refine ⟨?_, rfl, ?_⟩
  · simp [Application.CheckTx, herr, ErrInternalError, Result.IsErr]
  · exact IAVLTree.Get_Set_same app.state _ tx

/-- Witness for C17: the empty byte string, which the toy `MakeForm` rejects, on a new
application. -/
theorem Application_AppendTx_discards_error_witness :
    Application.CheckTx demoAppEnv [] = ErrInternalError ∧
    Application.AppendTx demoAppEnv ⟨IAVLTree.NewIAVLTree⟩ [] =
      (NewResultOK [], ⟨⟨[([], [])]⟩⟩) ∧
    ((Application.CheckTx demoAppEnv []).IsErr = true ∧
      (Application.AppendTx demoAppEnv ⟨IAVLTree.NewIAVLTree⟩ []).1.IsOK = true ∧
      (Application.AppendTx demoAppEnv ⟨IAVLTree.NewIAVLTree⟩ []).2.state.Get
        (demoAppEnv.FormID (demoAppEnv.MakeForm []).1) = some []) :=
  ⟨by decide, by decide,
    Application_AppendTx_discards_error demoAppEnv ⟨IAVLTree.NewIAVLTree⟩ [] (by decide)⟩

end Comit
